import Mathlib

/-!
# Admissions backend: application lifecycle and verification workflow

A shallow embedding of the route handlers of the admissions backend
(`routes/applicationRoutes.js`, `routes/VerificationOfficerRoutes.js`,
`routes/VerificationAdminRoutes.js`, `routes/paymentRoutes.js`,
`routes/StudentNotificationRoutes.js`), of the middleware
(`middleware/auth.js`) and of the token issued and the route
`POST /api/users/create` served by `index.js`, together with the Mongoose
schemas the handlers write to (`models/ApplicationForm.js`,
`models/Payment.js`, `models/User.js`).

Modelling conventions.

* The database is a record of four collections, each a list in natural
  (insertion) order. `findOne` is the first match, `find` is the sublist of
  matches, `save` of a loaded document replaces the document with the same
  `_id`, `save` of a new document appends it with a fresh `_id`.
* A handler is a function from the database and the request to the new
  database and the HTTP response. The request is the one seen by the route's
  validator chain and final callback: `req.user` is the identity decoded by
  the `auth` middleware and `req.files` are the files accepted by the upload
  middleware.
* An exception thrown inside a handler's `try` block is the `catch` branch of
  that handler: the database is the one reached so far and the response is
  the one the `catch` block sends.
* ObjectId parameters are either absent, malformed (Mongoose raises a
  `CastError`) or a well-formed id, see `IdParam`.
* The text fields `formData` and `educationDetails` of a multipart body hold
  JSON; a request carries what `JSON.parse` makes of them, which may be
  `null` or, for `formData`, a value that is not an object, see
  `FormDataParam` and `JsonText`. The fields `aadhaarNumber` and `email` of
  `formData` may hold any JSON value, see `JsonField`. The `fieldComments`
  of SaveComments may be a string, see `FieldCommentsParam`.
* The `batchSize` of BatchAssignOfficers is a whole number in the handler
  `assignOfficers`; `distributeFrac` is its loop for a fraction.
* The timestamps `createdAt` and `updatedAt` that Mongoose keeps are not
  fields of the stored documents; the one handler that reads `updatedAt`
  takes it as a parameter.
* The token primitive `jsonwebtoken` is a parameter, see `Jwt`.
* Decide and SaveComments assign to `verificationStatus` and
  `verificationComments` inside `formData` of the loaded application before
  `save()`; the model stores these two assignments with the document. The
  theorems about these handlers concern the other fields.
* The password of a created user is hashed and stored by the source; the user
  records of the model carry the fields the workflow reads.
-/

namespace Admissions

/-! ## Text and the regular expressions of the submit validator -/

/-- The characters matched by `\s` in a JavaScript regular expression. -/
def isJsSpace (c : Char) : Bool :=
  let n := c.toNat
  n == 0x20 || n == 0x09 || n == 0x0A || n == 0x0B || n == 0x0C || n == 0x0D ||
  n == 0xA0 || n == 0x1680 || (0x2000 ≤ n && n ≤ 0x200A) || n == 0x2028 ||
  n == 0x2029 || n == 0x202F || n == 0x205F || n == 0x3000 || n == 0xFEFF

/-- The characters matched by `\d` in a JavaScript regular expression. -/
def isJsDigit (c : Char) : Bool :=
  let n := c.toNat
  0x30 ≤ n && n ≤ 0x39

/-- Character classes used by the two patterns of the submit validator. -/
inductive Atom where
  | digit
  | nonSpace
  | lit (c : Char)
  deriving DecidableEq

/-- Whether a character belongs to a class. -/
def Atom.test : Atom → Char → Bool
  | .digit, c => isJsDigit c
  | .nonSpace, c => !isJsSpace c
  | .lit d, c => c == d

/-- One pattern element: a class matched once, or one or more times (`+`). -/
structure Item where
  atom : Atom
  plus : Bool
  deriving DecidableEq

/-- Match a sequence of pattern elements at the start of the input. With
`anchoredEnd` the match must consume the whole input (`$`). -/
def matchHere (anchoredEnd : Bool) : List Char → List Item → Bool
  | cs, [] => !anchoredEnd || cs.isEmpty
  | [], _ :: _ => false
  | c :: cs, it :: ps =>
      it.atom.test c &&
        (matchHere anchoredEnd cs ps || (it.plus && matchHere anchoredEnd cs (it :: ps)))

/-- Search for a match starting at any position of the input (a pattern
without `^`). -/
def searchFrom (anchoredEnd : Bool) (ps : List Item) : List Char → Bool
  | [] => matchHere anchoredEnd [] ps
  | c :: cs => matchHere anchoredEnd (c :: cs) ps || searchFrom anchoredEnd ps cs

/-- The pattern `/^\d{12}$/` of the Aadhaar check. -/
def aadhaarPattern : List Item := List.replicate 12 ⟨.digit, false⟩

/-- The pattern `/\S+@\S+\.\S+/` of the email check. -/
def emailPattern : List Item :=
  [⟨.nonSpace, true⟩, ⟨.lit '@', false⟩, ⟨.nonSpace, true⟩, ⟨.lit '.', false⟩, ⟨.nonSpace, true⟩]

/-- The test `/^\d{12}$/.test(s)`. -/
def aadhaarRegexTest (s : String) : Bool := matchHere true s.toList aadhaarPattern

/-- The test `/\S+@\S+\.\S+/.test(s)`. -/
def emailRegexTest (s : String) : Bool := searchFrom false emailPattern s.toList

/-- The test `!v` on a string-valued field: absent or the empty string. -/
def falsy : Option String → Bool
  | none => true
  | some s => s == ""

/-- A JSON value of a field of `formData`, as far as the handlers look at it.
`absent` is a missing field or `null`; `str` is a string; `strs` is an array
of strings; `other` is any other value (a number, a boolean, another array,
an object), given by whether it is truthy and by the text `String(value)`
that `RegExp.prototype.test` converts its argument to. -/
inductive JsonField where
  | absent
  | str (s : String)
  | strs (items : List String)
  | other (truthy : Bool) (shown : String)
  deriving DecidableEq

/-- The test `!v` on a JSON value. -/
def JsonField.falsy : JsonField → Bool
  | .absent => true
  | .str s => s == ""
  | .strs _ => false
  | .other truthy _ => !truthy

/-- The text `String(v)` a regular expression is tested against; an array is
its items joined by commas. The text of an absent field is not read, the test
`!v` comes first. -/
def JsonField.shown : JsonField → String
  | .absent => "undefined"
  | .str s => s
  | .strs items => ",".intercalate items
  | .other _ shown => shown

/-! ## Data model -/

/-- A MongoDB ObjectId. -/
abbrev ObjectId := Nat

/-- An ObjectId received as a request parameter or body field. -/
inductive IdParam where
  | missing
  | malformed
  | oid (id : ObjectId)
  deriving DecidableEq

/-- The `role` enum of `models/User.js`. -/
inductive Role where
  | student
  | admin
  | content_admin
  | faculty
  | verification_admin
  | verification_officer
  deriving DecidableEq

/-- The `status` enum of `models/ApplicationForm.js`. -/
inductive Status where
  | draft
  | pending
  | rejected
  | verified
  deriving DecidableEq

/-- The `status` enum of `models/Payment.js`. -/
inductive PaymentStatus where
  | pending
  | completed
  deriving DecidableEq

/-- The `programType` enum of `models/ApplicationForm.js`. -/
inductive ProgramType where
  | UG
  | PG
  deriving DecidableEq

/-- The identity decoded from the bearer token (`req.user`). -/
structure Identity where
  userId : ObjectId
  email : String
  role : Role
  deriving DecidableEq

/-- An entry of `formData.documents`. A string field that is absent is the
empty string, an absent `size` is `0`. -/
structure Document where
  type : String
  filename : String
  path : String
  originalName : String
  mimetype : String
  size : Nat
  deriving DecidableEq

/-- A file accepted by the upload middleware (an element of `req.files`). -/
structure UploadedFile where
  filename : String
  path : String
  originalname : String
  mimetype : String
  size : Nat
  deriving DecidableEq

/-- The parsed `formData` payload when it is an object. `documents` is `none`
when the field is absent or is not an array; `fields` stands for the
remaining free-form entries. -/
structure FormData where
  aadhaarNumber : JsonField
  email : JsonField
  documents : Option (List Document)
  verificationStatus : Option String
  verificationComments : Option String
  fields : String
  deriving DecidableEq

/-- A document of the `ApplicationForm` collection. -/
structure ApplicationForm where
  id : ObjectId
  courseId : ObjectId
  studentId : ObjectId
  formData : FormData
  educationDetails : String
  programType : ProgramType
  assignedOfficer : Option ObjectId
  verified : Bool
  verifiedBy : Option ObjectId
  status : Status
  lastActiveSection : Nat
  fieldComments : List (String × String)
  commentsRead : Bool
  deriving DecidableEq

/-- A document of the `User` collection (the fields the workflow reads or
writes). -/
structure User where
  id : ObjectId
  email : String
  name : String
  role : Role
  verified : Bool
  verifiedBy : Option ObjectId
  courses : List ObjectId
  payments : List ObjectId
  deriving DecidableEq

/-- A document of the `Course` collection. -/
structure Course where
  id : ObjectId
  title : String
  deriving DecidableEq

/-- A document of the `Payment` collection. -/
structure Payment where
  id : ObjectId
  userId : ObjectId
  name : String
  email : String
  applicationId : ObjectId
  courseId : ObjectId
  courseName : String
  amount : Nat
  paymentMethod : String
  lastDate : String
  status : PaymentStatus
  deriving DecidableEq

/-- The database: four collections in natural order and the ObjectId
generator. -/
structure Db where
  users : List User
  courses : List Course
  applications : List ApplicationForm
  payments : List Payment
  nextId : ObjectId
  deriving DecidableEq

/-- The JSON response sent by a handler. -/
structure Response where
  status : Nat
  message : String
  errors : List String := []
  totalAssigned : Nat := 0
  deriving DecidableEq

/-! ## Collection primitives -/

/-- Apply `f` to the first element satisfying `p` (`updateOne`). -/
def updateFirst {α : Type} (p : α → Bool) (f : α → α) : List α → List α
  | [] => []
  | a :: as => if p a then f a :: as else a :: updateFirst p f as

/-- The query `ApplicationForm.findById(id)`. -/
def Db.findApplicationById (db : Db) (id : ObjectId) : Option ApplicationForm :=
  db.applications.find? (fun a => a.id == id)

/-- The query `ApplicationForm.findOne({ studentId, courseId })`. -/
def Db.findApplication (db : Db) (studentId courseId : ObjectId) : Option ApplicationForm :=
  db.applications.find? (fun a => a.studentId == studentId && a.courseId == courseId)

/-- The query `UserModel.findById(id)`. -/
def Db.findUserById (db : Db) (id : ObjectId) : Option User :=
  db.users.find? (fun u => u.id == id)

/-- The query `Course.findById(id)`. -/
def Db.findCourseById (db : Db) (id : ObjectId) : Option Course :=
  db.courses.find? (fun c => c.id == id)

/-- The query `PaymentModel.findOne({ applicationId })`. -/
def Db.findPaymentByApplication (db : Db) (applicationId : ObjectId) : Option Payment :=
  db.payments.find? (fun p => p.applicationId == applicationId)

/-- The test of every field of a document descriptor in the schema
validator. -/
def documentComplete (doc : Document) : Bool :=
  doc.type != "" && doc.filename != "" && doc.path != "" && doc.originalName != "" &&
    doc.mimetype != "" && doc.size != 0

/-- The `formData` validator of `ApplicationFormSchema`; `status` is
`this.status`. -/
def formDataValidator (status : Status) (v : FormData) : Bool :=
  if status = .draft then true
  else
    match v.documents with
    | none => false
    | some documents => documents.all documentComplete

/-- Writing back a loaded application (`application.save()`): schema
validation, then an update of the document with the same `_id`. `none` is a
`ValidationError`. The validator run here is the one of `formData`; the
`required` validators hold of every `ApplicationForm` value (its fields are
not null), and a handler that writes `educationDetails` from the request runs
`requiredEducationDetails` on the request value before it builds the
document. -/
def Db.saveApplication (db : Db) (doc : ApplicationForm) : Option Db :=
  if formDataValidator doc.status doc.formData then
    some { db with applications := updateFirst (fun a => a.id == doc.id) (fun _ => doc) db.applications }
  else none

/-- Saving a new application (`new ApplicationForm({...}).save()`): schema
validation, then an insert under a fresh `_id`. The argument carries the
fields given to the constructor, the `_id` is assigned here. The `required`
validator of `educationDetails` is run on the request value by the handler,
see `requiredEducationDetails`. -/
def Db.insertApplication (db : Db) (doc : ApplicationForm) : Option Db :=
  if formDataValidator doc.status doc.formData then
    some { db with
      applications := db.applications ++ [{ doc with id := db.nextId }]
      nextId := db.nextId + 1 }
  else none

/-- An update of one field set on the application with the given id
(`findByIdAndUpdate`, which runs no validators). -/
def Db.setAssignedOfficer (db : Db) (applicationId officerId : ObjectId) : Db :=
  let applications := updateFirst (fun a => a.id == applicationId)
    (fun a => { a with assignedOfficer := some officerId }) db.applications
  { db with applications := applications }

/-- A response with a status code and a `message`. -/
def reply (status : Nat) (message : String) : Response :=
  { status := status, message := message }

/-! ## `routes/applicationRoutes.js` -/

/-- The text field `formData` of the multipart body after `JSON.parse`:
`invalid` when it throws, `null` for the value `null`, `nonObject` for a
number, a boolean, a string or an array (none of the fields the handlers read
is present in it; `content` is its text), `object` for an object. -/
inductive FormDataParam where
  | invalid
  | null
  | nonObject (content : String)
  | object (value : FormData)
  deriving DecidableEq

/-- The text field `educationDetails` of the multipart body after
`JSON.parse`: `invalid` when it throws, `null` for the value `null`,
otherwise the value, given by its text. -/
inductive JsonText where
  | invalid
  | null
  | value (text : String)
  deriving DecidableEq

/-- The body and files of `POST /save-draft`. `programType` is `none` when it
is not one of `UG`, `PG`; `lastActiveSection` is `none` when it is not a
non-negative integer. -/
structure SaveDraftRequest where
  courseId : IdParam
  studentId : IdParam
  formData : FormDataParam
  educationDetails : JsonText
  programType : Option ProgramType
  lastActiveSection : Option Nat
  files : List UploadedFile
  deriving DecidableEq

/-- The body and files of `POST /submit-application`. -/
structure SubmitRequest where
  courseId : IdParam
  studentId : IdParam
  formData : FormDataParam
  educationDetails : JsonText
  programType : Option ProgramType
  files : List UploadedFile
  deriving DecidableEq

/-- The check `!parsed.aadhaarNumber || !/^\d{12}$/.test(parsed.aadhaarNumber)`. -/
def aadhaarRejected (v : JsonField) : Bool :=
  v.falsy || !aadhaarRegexTest v.shown

/-- The check `!parsed.email || !/\S+@\S+\.\S+/.test(parsed.email)`. -/
def emailRejected (v : JsonField) : Bool :=
  v.falsy || !emailRegexTest v.shown

/-- The descriptor built for the uploaded file at `index`; `none` when the
callback throws (no declared document with a `type` at that index). -/
def describeFile (declared : Option (List Document)) (index : Nat) (file : UploadedFile) :
    Option Document :=
  match declared with
  | none => none
  | some documents =>
    match documents[index]? with
    | none => none
    | some d =>
      if d.type == "" then none
      else some
        { type := d.type, filename := file.filename, path := file.path,
          originalName := file.originalname, mimetype := file.mimetype, size := file.size }

/-- The callback of `req.files.map` applied to the files from position
`index` on; `none` when one application throws. -/
def mapFilesFrom (declared : Option (List Document)) : Nat → List UploadedFile →
    Option (List Document)
  | _, [] => some []
  | index, file :: files =>
    match describeFile declared index file with
    | none => none
    | some d =>
      match mapFilesFrom declared (index + 1) files with
      | none => none
      | some ds => some (d :: ds)

/-- The expression `req.files.map((file, index) => ...)`; `none` when the
callback throws. -/
def mapFiles (declared : Option (List Document)) (files : List UploadedFile) :
    Option (List Document) :=
  mapFilesFrom declared 0 files

/-- The form data a handler stores for a `formData` that is not an object:
reading any field of it gives `undefined`. -/
def FormData.ofNonObject (content : String) : FormData :=
  { aadhaarNumber := .absent, email := .absent, documents := none, verificationStatus := none,
    verificationComments := none, fields := content }

/-- Lines 115 to 131 of `POST /save-draft`: the form data after the
descriptors of the uploaded files were assigned to `formData.documents`;
`none` when an expression throws. Reading `documents` of `null` throws, as
does indexing the `undefined` that `documents` of a value that is not an
object is; the assignment of line 131 to such a value has no effect. -/
def draftFormData (formData : FormDataParam) (files : List UploadedFile) : Option FormData :=
  match formData with
  | .invalid => none
  | .null => none
  | .nonObject content => if files.length > 0 then none else some (FormData.ofNonObject content)
  | .object value =>
    match (if files.length > 0 then mapFiles value.documents files else some []) with
    | none => none
    | some documents => some { value with documents := some documents }

/-- The `required` validator of `educationDetails` in `ApplicationFormSchema`,
run by `save()` on the value taken from the request: `none` is the
`ValidationError` for the value `null`. -/
def requiredEducationDetails : JsonText → Option String
  | .value text => some text
  | _ => none

/-- The validator chain of `POST /save-draft`: the messages of the failed
validators. -/
def saveDraftValidation (req : SaveDraftRequest) : List String :=
  (if req.courseId = .missing then ["Course ID is required"] else []) ++
  (if req.studentId = .missing then ["Student ID is required"] else []) ++
  (if req.formData = .invalid then ["Form data must be a valid JSON object"] else []) ++
  (if req.educationDetails = .invalid then ["Education details must be a valid JSON object"]
   else []) ++
  (if req.programType.isNone then ["Program type must be UG or PG"] else []) ++
  (if req.lastActiveSection.isNone then ["Last active section must be a non-negative integer"]
   else [])

/-- The custom validator of `formData` in `POST /submit-application`: `true`
when it returns, `false` when it throws. -/
def submitFormDataCheck (value : FormDataParam) : Bool :=
  match value with
  | .invalid => false
  | .null => false
  | .nonObject _ => false
  | .object parsed =>
    if aadhaarRejected parsed.aadhaarNumber then false
    else if emailRejected parsed.email then false
    else true

/-- The validator chain of `POST /submit-application`. -/
def submitValidation (req : SubmitRequest) : List String :=
  (if req.courseId = .missing then ["Course ID is required"] else []) ++
  (if req.studentId = .missing then ["Student ID is required"] else []) ++
  (if submitFormDataCheck req.formData then [] else ["Form data must be a valid JSON object"]) ++
  (if req.educationDetails = .invalid then ["Education details must be a valid JSON object"]
   else []) ++
  (if req.programType.isNone then ["Program type must be UG or PG"] else [])

/-- The handler of `POST /save-draft`. -/
def saveDraft (db : Db) (req : SaveDraftRequest) : Db × Response :=
  let errors := saveDraftValidation req
  if !errors.isEmpty then (db, { status := 400, message := "", errors := errors })
  else
  match req.programType, req.lastActiveSection with
  | some programType, some lastActiveSection =>
    match req.courseId with
    | .malformed => (db, reply 500 "Server error")
    | .missing => (db, reply 404 "Course not found")
    | .oid courseId =>
    match db.findCourseById courseId with
    | none => (db, reply 404 "Course not found")
    | some _ =>
    match draftFormData req.formData req.files with
    | none => (db, reply 500 "Server error")
    | some formData =>
    match req.studentId with
    | .malformed => (db, reply 500 "Server error")
    | .missing => (db, reply 500 "Server error")
    | .oid studentId =>
    match db.findApplication studentId courseId with
    | some application =>
      if application.status ≠ .draft then
        (db, reply 400 "An application for this course has already been submitted")
      else
        match requiredEducationDetails req.educationDetails with
        | none => (db, reply 500 "Server error")
        | some educationDetails =>
        let application :=
          { application with
            formData := formData, educationDetails := educationDetails,
            programType := programType, lastActiveSection := lastActiveSection,
            status := .draft }
        match db.saveApplication application with
        | none => (db, reply 500 "Server error")
        | some db1 => (db1, reply 200 "Draft saved successfully")
    | none =>
      match requiredEducationDetails req.educationDetails with
      | none => (db, reply 500 "Server error")
      | some educationDetails =>
      let application : ApplicationForm :=
        { id := 0, courseId := courseId, studentId := studentId, formData := formData,
          educationDetails := educationDetails, programType := programType,
          assignedOfficer := none, verified := false, verifiedBy := none,
          status := .draft, lastActiveSection := lastActiveSection,
          fieldComments := [], commentsRead := false }
      match db.insertApplication application with
      | none => (db, reply 500 "Server error")
      | some db1 => (db1, reply 200 "Draft saved successfully")
  | _, _ => (db, reply 500 "Server error")

/-- The handler of `POST /submit-application`. -/
def submitApplication (db : Db) (req : SubmitRequest) : Db × Response :=
  let errors := submitValidation req
  if !errors.isEmpty then (db, { status := 400, message := "", errors := errors })
  else
  match req.formData, req.programType with
  | .object formData, some programType =>
    if aadhaarRejected formData.aadhaarNumber then
      (db, reply 400 "Valid 12-digit Aadhaar number is required")
    else if emailRejected formData.email then
      (db, reply 400 "Valid email is required")
    else
    match req.courseId with
    | .malformed => (db, reply 500 "Server error")
    | .missing => (db, reply 404 "Course not found")
    | .oid courseId =>
    match db.findCourseById courseId with
    | none => (db, reply 404 "Course not found")
    | some _ =>
    if req.files.length = 0 then (db, reply 400 "No files uploaded")
    else
    match formData.documents with
    | none => (db, reply 400 "Documents array is missing or invalid")
    | some declared =>
    if req.files.length ≠ declared.length then
      (db, reply 400
        ("Expected " ++ toString declared.length ++ " files, but received " ++
          toString req.files.length))
    else
    match mapFiles formData.documents req.files with
    | none => (db, reply 500 "Server error")
    | some documents =>
    let formData := { formData with documents := some documents }
    match req.studentId with
    | .malformed => (db, reply 500 "Server error")
    | .missing => (db, reply 500 "Server error")
    | .oid studentId =>
    match db.findApplication studentId courseId with
    | some application =>
      if application.status ≠ .draft then
        (db, reply 400 "An application for this course has already been submitted")
      else
        match requiredEducationDetails req.educationDetails with
        | none => (db, reply 400 "Validation error")
        | some educationDetails =>
        let application :=
          { application with
            formData := formData, educationDetails := educationDetails,
            programType := programType, status := .pending, lastActiveSection := 0 }
        match db.saveApplication application with
        | none => (db, reply 400 "Validation error")
        | some db1 => (db1, reply 201 "Application submitted successfully")
    | none =>
      match requiredEducationDetails req.educationDetails with
      | none => (db, reply 400 "Validation error")
      | some educationDetails =>
      let application : ApplicationForm :=
        { id := 0, courseId := courseId, studentId := studentId, formData := formData,
          educationDetails := educationDetails, programType := programType,
          assignedOfficer := none, verified := false, verifiedBy := none,
          status := .pending, lastActiveSection := 0,
          fieldComments := [], commentsRead := false }
      match db.insertApplication application with
      | none => (db, reply 400 "Validation error")
      | some db1 => (db1, reply 201 "Application submitted successfully")
  | _, _ => (db, reply 500 "Server error")

/-! ## `routes/VerificationOfficerRoutes.js` -/

/-- The body of `POST /verify-application/:applicationId`. `verified` is
`none` when it is not a boolean, `fieldComments` is `none` when it is absent
or not an object, otherwise the entries of the object. `comments` is `none`
or empty for a falsy value; a truthy value is given by its text, which is not
empty. -/
structure VerifyRequest where
  verified : Option Bool
  comments : Option String
  fieldComments : Option (List (String × String))
  deriving DecidableEq

/-- The `fieldComments` of the body of SaveComments. `absent` is a value for
which neither test of the handler holds: missing, `null`, `false`, `true`, a
number or the empty string. `text` is a string; `entries` is an object (or an
array, by its indices). -/
inductive FieldCommentsParam where
  | absent
  | text (s : String)
  | entries (comments : List (String × String))
  deriving DecidableEq

/-- The test `fieldComments && Object.keys(fieldComments).length > 0` of line
208: the keys of a string are the indices of its characters. -/
def FieldCommentsParam.hasKeys : FieldCommentsParam → Bool
  | .absent => false
  | .text s => s.length > 0
  | .entries comments => comments.length > 0

/-- The body of `POST /save-application-comments/:applicationId`. -/
structure CommentsRequest where
  comments : Option String
  fieldComments : FieldCommentsParam
  deriving DecidableEq

/-- The write `application.studentId.save()` of the populated student: the
two mirrored fields of the user with that id. -/
def Db.saveStudentVerification (db : Db) (studentId : ObjectId) (verified : Bool)
    (verifiedBy : Option ObjectId) : Db :=
  let users := updateFirst (fun u => u.id == studentId)
    (fun u => { u with verified := verified, verifiedBy := verifiedBy }) db.users
  { db with users := users }

/-- The test `!payment || payment.status !== "completed"` on the result of
`PaymentModel.findOne({ applicationId })`. -/
def Db.completedPaymentMissing (db : Db) (applicationId : ObjectId) : Bool :=
  match db.findPaymentByApplication applicationId with
  | none => true
  | some payment => payment.status ≠ .completed

/-- The assignments made to the loaded application by Decide before it is
saved. -/
def applyDecision (application : ApplicationForm) (userId : ObjectId) (verified : Bool)
    (body : VerifyRequest) : ApplicationForm :=
  let formData :=
    { application.formData with
      verificationStatus := some (if verified then "verified" else "rejected"),
      verificationComments := some (if falsy body.comments then "" else body.comments.getD "") }
  let application :=
    { application with
      formData := formData, verified := verified,
      verifiedBy := if verified then some userId else none,
      status := if verified then .verified else .rejected }
  match body.fieldComments with
  | none => application
  | some fieldComments =>
    { application with
      fieldComments := fieldComments,
      commentsRead :=
        if fieldComments.length > 0 || !falsy body.comments then false
        else application.commentsRead }

/-- The handler of `POST /verify-application/:applicationId` (Decide). -/
def verifyApplication (db : Db) (user : Identity) (applicationId : IdParam)
    (body : VerifyRequest) : Db × Response :=
  match body.verified with
  | none => (db, reply 400 "Verified status must be a boolean")
  | some verified =>
    match applicationId with
    | .malformed => (db, reply 500 "Failed to verify application")
    | .missing => (db, reply 404 "Application not found")
    | .oid applicationId =>
    match db.findApplicationById applicationId with
    | none => (db, reply 404 "Application not found")
    | some application =>
    match db.findUserById application.studentId with
    | none => (db, reply 400 "Invalid application: No student associated")
    | some student =>
    if application.assignedOfficer ≠ some user.userId then
      (db, reply 403 "Not authorized to verify this application")
    else if verified && db.completedPaymentMissing applicationId then
      (db, reply 400 "Cannot verify application: No completed payment found")
    else
      match db.saveApplication (applyDecision application user.userId verified body) with
      | none => (db, reply 500 "Failed to verify application")
      | some db1 =>
        (db1.saveStudentVerification student.id verified
            (if verified then some user.userId else none),
          reply 200 (if verified then "Application verified successfully"
                     else "Application rejected successfully"))

/-- The assignments made to the loaded application by SaveComments before it
is saved. -/
def applyComments (application : ApplicationForm) (body : CommentsRequest) : ApplicationForm :=
  let application :=
    if !falsy body.comments then
      { application with
        formData := { application.formData with verificationComments := body.comments } }
    else application
  let application :=
    match body.fieldComments with
    | .entries fieldComments => { application with fieldComments := fieldComments }
    | _ => application
  if !falsy body.comments || body.fieldComments.hasKeys then
    { application with commentsRead := false }
  else application

/-- The handler of `POST /save-application-comments/:applicationId`
(SaveComments). -/
def saveApplicationComments (db : Db) (user : Identity) (applicationId : IdParam)
    (body : CommentsRequest) : Db × Response :=
  match applicationId with
  | .malformed => (db, reply 500 "Failed to save comments")
  | .missing => (db, reply 404 "Application not found")
  | .oid applicationId =>
  match db.findApplicationById applicationId with
  | none => (db, reply 404 "Application not found")
  | some application =>
  if application.assignedOfficer ≠ some user.userId then
    (db, reply 403 "Not authorized to modify this application")
  else
    match db.saveApplication (applyComments application body) with
    | none => (db, reply 500 "Failed to save comments")
    | some db1 => (db1, reply 200 "Comments saved successfully")

/-! ## `routes/StudentNotificationRoutes.js` -/

/-- The handler of `POST /mark-comments-read/:applicationId`. -/
def markCommentsRead (db : Db) (user : Identity) (applicationId : IdParam) : Db × Response :=
  match applicationId with
  | .malformed => (db, reply 500 "Failed to mark comments as read")
  | .missing => (db, reply 404 "Application not found or not authorized")
  | .oid applicationId =>
  match db.applications.find? (fun a => a.id == applicationId && a.studentId == user.userId) with
  | none => (db, reply 404 "Application not found or not authorized")
  | some application =>
    match db.saveApplication { application with commentsRead := true } with
    | none => (db, reply 500 "Failed to mark comments as read")
    | some db1 => (db1, reply 200 "Comments marked as read")

/-! ## `routes/paymentRoutes.js` -/

/-- The body of `POST /process`. An absent string field is the empty string,
an absent `amount` is `0`. -/
structure ProcessRequest where
  applicationId : IdParam
  courseId : IdParam
  courseName : String
  amount : Nat
  paymentMethod : String
  lastDate : String
  deriving DecidableEq

/-- The handler of `POST /process` (payment Process). -/
def processPayment (db : Db) (user : Identity) (req : ProcessRequest) : Db × Response :=
  if req.applicationId = .missing || req.courseId = .missing || req.courseName == "" ||
      req.amount == 0 || req.paymentMethod == "" || req.lastDate == "" then
    (db, reply 400 "All fields are required.")
  else
  match req.applicationId with
  | .missing => (db, reply 400 "All fields are required.")
  | .malformed => (db, reply 500 "Error processing payment")
  | .oid applicationId =>
  match db.payments.find? (fun p => p.userId == user.userId && p.applicationId == applicationId) with
  | some _ => (db, reply 400 "Payment already processed for this application.")
  | none =>
  match db.applications.find? (fun a => a.id == applicationId && a.studentId == user.userId) with
  | none => (db, reply 404 "Application not found.")
  | some _ =>
  match db.findUserById user.userId with
  | none => (db, reply 404 "User not found.")
  | some u =>
  match req.courseId with
  | .missing => (db, reply 500 "Error processing payment")
  | .malformed => (db, reply 500 "Error processing payment")
  | .oid courseId =>
    let payment : Payment :=
      { id := db.nextId, userId := user.userId, name := u.name, email := u.email,
        applicationId := applicationId, courseId := courseId, courseName := req.courseName,
        amount := req.amount, paymentMethod := req.paymentMethod, lastDate := req.lastDate,
        status := .completed }
    let users := updateFirst (fun x => x.id == u.id)
      (fun x => { x with payments := x.payments ++ [payment.id] }) db.users
    ({ db with payments := db.payments ++ [payment], users := users, nextId := db.nextId + 1 },
      reply 201 "Payment processed successfully")

/-! ## `routes/VerificationAdminRoutes.js` -/

/-- The handler of `PUT /students/:studentId/assign` (AssignOfficer). -/
def assignStudent (db : Db) (studentId : IdParam) (officerId : IdParam) : Db × Response :=
  match officerId with
  | .missing => (db, reply 400 "Invalid officer ID")
  | .malformed => (db, reply 400 "Invalid officer ID")
  | .oid officerId =>
  match db.findUserById officerId with
  | none => (db, reply 400 "Invalid officer ID")
  | some officer =>
  if officer.role ≠ .verification_officer then (db, reply 400 "Invalid officer ID")
  else
  match studentId with
  | .malformed => (db, reply 500 "Error assigning student")
  | .missing => (db, reply 404 "Application not found for student")
  | .oid studentId =>
  match db.applications.find? (fun a => a.studentId == studentId) with
  | none => (db, reply 404 "Application not found for student")
  | some _ =>
    let applications := updateFirst (fun a => a.studentId == studentId)
      (fun a => { a with assignedOfficer := some officerId }) db.applications
    ({ db with applications := applications }, reply 200 "Student assigned")

/-- The applications of a course whose populated `studentId` is not null
(`validApplications`). -/
def Db.validApplications (db : Db) (courseId : ObjectId) : List ApplicationForm :=
  (db.applications.filter (fun a => a.courseId == courseId)).filter
    (fun app => (db.findUserById app.studentId).isSome)

/-- The verification officers who list the course (`officers`). -/
def Db.courseOfficers (db : Db) (courseId : ObjectId) : List User :=
  db.users.filter (fun u => u.role = .verification_officer && u.courses.contains courseId)

/-- The inner loop `for (const app of batch)`: one update and one entry of
`assignments` per application. -/
def assignBatch (officerId : ObjectId) (batch : List ApplicationForm) (acc : Db × Nat) : Db × Nat :=
  batch.foldl (fun st app => (st.1.setAssignedOfficer app.id officerId, st.2 + 1)) acc

/-- The outer loop `for (let i = 0; i < validApplications.length; i += batchSize)`
started at `i` with `officerIndex`, run for at most `fuel` iterations; `none`
when the iterations are used up before the loop condition fails. -/
def distribute (validApplications : List ApplicationForm) (officers : List User)
    (hofficers : 0 < officers.length) (batchSize : Nat) :
    Nat → Nat → Nat → Db × Nat → Option (Db × Nat)
  | 0, _, _, _ => none
  | fuel + 1, i, officerIndex, acc =>
    if i < validApplications.length then
      let currentOfficer :=
        officers.get ⟨officerIndex % officers.length, Nat.mod_lt officerIndex hofficers⟩
      let batch := (validApplications.drop i).take batchSize
      distribute validApplications officers hofficers batchSize fuel (i + batchSize)
        (officerIndex + 1) (assignBatch currentOfficer.id batch acc)
    else some acc

/-- The same loop for a batch size that is the fraction `p / q` of whole
numbers with `q ≥ 1`, such as `1.5`: the loop index is kept in units of
`1 / q`, so `i` stands for the number `i / q`, and `slice(i, i + batchSize)`
truncates both bounds. For `q = 1` it is `distribute`. -/
def distributeFrac (validApplications : List ApplicationForm) (officers : List User)
    (hofficers : 0 < officers.length) (p q : Nat) :
    Nat → Nat → Nat → Db × Nat → Option (Db × Nat)
  | 0, _, _, _ => none
  | fuel + 1, i, officerIndex, acc =>
    if i < validApplications.length * q then
      let currentOfficer :=
        officers.get ⟨officerIndex % officers.length, Nat.mod_lt officerIndex hofficers⟩
      let batch := (validApplications.drop (i / q)).take ((i + p) / q - i / q)
      distributeFrac validApplications officers hofficers p q fuel (i + p)
        (officerIndex + 1) (assignBatch currentOfficer.id batch acc)
    else some acc

/-- The handler of `POST /courses/:courseId/assign-officers`
(BatchAssignOfficers) for a `batchSize` that is a whole number. The result is
`none` when the distribution loop does not terminate. The body may carry any
JSON value as `batchSize`; the loop for a fraction is `distributeFrac`, and
other values (a string, a negative number, no value) are outside the
model. -/
def assignOfficers (db : Db) (courseId : IdParam) (batchSize : Nat) : Option (Db × Response) :=
  match courseId with
  | .missing => some (db, reply 400 "Invalid course ID")
  | .malformed => some (db, reply 400 "Invalid course ID")
  | .oid courseId =>
  match db.findCourseById courseId with
  | none => some (db, reply 404 "Course not found")
  | some _ =>
  let validApplications := db.validApplications courseId
  if validApplications.length = 0 then
    some (db, reply 404 "No valid applications found for this course")
  else
  let officers := db.courseOfficers courseId
  if hofficers : officers.length = 0 then
    some (db, reply 400 "No verification officers assigned to this course")
  else
    match distribute validApplications officers (Nat.pos_of_ne_zero hofficers) batchSize
        (validApplications.length + 1) 0 0 (db, 0) with
    | none => none
    | some (db1, totalAssigned) =>
      some (db1,
        { status := 200,
          message := "Applications distributed successfully among " ++
            toString officers.length ++ " officers",
          totalAssigned := totalAssigned })

/-! ## Specification vocabulary -/

/-- Follows the spec's words: a string of exactly twelve decimal digits
(characters `0` to `9`, nothing else). -/
def TwelveDigits (s : String) : Prop :=
  s.toList.length = 12 ∧ ∀ c ∈ s.toList, 48 ≤ c.toNat ∧ c.toNat ≤ 57

/-- An uploaded file every descriptor field of which is truthy. -/
def fileComplete (file : UploadedFile) : Bool :=
  file.filename != "" && file.path != "" && file.originalname != "" && file.mimetype != "" &&
    file.size != 0

/-- A valid Submit request: well-formed ids, parsed payloads, an existing
course, an identifier whose text is twelve digits, an email the handler
accepts, at least one file, as many files as declared documents and a
declared type for each file. `documents` are the descriptors built from the
files. -/
structure ValidSubmit (db : Db) (req : SubmitRequest) (courseId studentId : ObjectId)
    (formData : FormData) (programType : ProgramType) (documents : List Document) : Prop where
  courseId_eq : req.courseId = .oid courseId
  studentId_eq : req.studentId = .oid studentId
  formData_eq : req.formData = .object formData
  educationDetails_parsed : req.educationDetails ≠ .invalid
  programType_eq : req.programType = some programType
  aadhaar : formData.aadhaarNumber.falsy = false ∧ TwelveDigits formData.aadhaarNumber.shown
  email : emailRejected formData.email = false
  course : (db.findCourseById courseId).isSome = true
  files : req.files ≠ []
  count : ∃ declared, formData.documents = some declared ∧ req.files.length = declared.length
  types : mapFiles formData.documents req.files = some documents

/-- A valid SaveDraft request: well-formed ids, parsed payloads, an existing
course, and a `formData` for which lines 115 to 131 do not throw: it is not
`null` and, when files are attached, it is an object that declares a document
type for each of them. `formData` is the form data these lines leave. -/
structure ValidSaveDraft (db : Db) (req : SaveDraftRequest) (courseId studentId : ObjectId)
    (formData : FormData) (programType : ProgramType) (lastActiveSection : Nat) : Prop where
  courseId_eq : req.courseId = .oid courseId
  studentId_eq : req.studentId = .oid studentId
  formData_eq : draftFormData req.formData req.files = some formData
  educationDetails_parsed : req.educationDetails ≠ .invalid
  programType_eq : req.programType = some programType
  lastActiveSection_eq : req.lastActiveSection = some lastActiveSection
  course : (db.findCourseById courseId).isSome = true

/-- The `assignedOfficer` of the application with the given id, when there is
one. -/
def Db.officerOf (db : Db) (applicationId : ObjectId) : Option (Option ObjectId) :=
  (db.findApplicationById applicationId).map (fun a => a.assignedOfficer)

/-- The invariant of the data model: every verified application has a
completed payment recorded for it. -/
def VerifiedPaid (db : Db) : Prop :=
  ∀ a ∈ db.applications, a.status = .verified →
    ∃ p ∈ db.payments, p.applicationId = a.id ∧ p.status = .completed

/-- One call of an operation of the workflow, with any caller and any
arguments. -/
inductive Step : Db → Db → Prop where
  | saveDraft (db : Db) (req : SaveDraftRequest) : Step db (saveDraft db req).1
  | submit (db : Db) (req : SubmitRequest) : Step db (submitApplication db req).1
  | assignOfficer (db : Db) (studentId officerId : IdParam) :
      Step db (assignStudent db studentId officerId).1
  | batchAssignOfficers (db : Db) (courseId : IdParam) (batchSize : Nat) (db1 : Db)
      (response : Response) :
      assignOfficers db courseId batchSize = some (db1, response) → Step db db1
  | verify (db : Db) (user : Identity) (applicationId : IdParam) (body : VerifyRequest) :
      Step db (verifyApplication db user applicationId body).1
  | saveComments (db : Db) (user : Identity) (applicationId : IdParam) (body : CommentsRequest) :
      Step db (saveApplicationComments db user applicationId body).1
  | markCommentsRead (db : Db) (user : Identity) (applicationId : IdParam) :
      Step db (markCommentsRead db user applicationId).1
  | process (db : Db) (user : Identity) (req : ProcessRequest) :
      Step db (processPayment db user req).1

/-- The states reached from `db0` by a sequence of operation calls. -/
inductive Reachable (db0 : Db) : Db → Prop where
  | start : Reachable db0 db0
  | step {db db1 : Db} : Reachable db0 db → Step db db1 → Reachable db0 db1

/-! ## Sample data -/

/-- A student. -/
def sampleStudent : User :=
  { id := 1, email := "student@example.org", name := "Asha", role := .student,
    verified := false, verifiedBy := none, courses := [], payments := [] }

/-- A verification officer who lists course 10. -/
def sampleOfficer : User :=
  { id := 2, email := "officer@example.org", name := "Ravi", role := .verification_officer,
    verified := false, verifiedBy := none, courses := [10], payments := [] }

/-- A second verification officer who lists course 10. -/
def secondOfficer : User :=
  { id := 3, email := "second@example.org", name := "Mira", role := .verification_officer,
    verified := false, verifiedBy := none, courses := [10], payments := [] }

/-- A database with three users, one course and no application. -/
def sampleDb : Db :=
  { users := [sampleStudent, sampleOfficer, secondOfficer], courses := [⟨10, "Mathematics"⟩],
    applications := [], payments := [], nextId := 100 }

/-- The identity of the student. -/
def studentIdentity : Identity := ⟨1, "student@example.org", .student⟩

/-- The identity of the first officer. -/
def officerIdentity : Identity := ⟨2, "officer@example.org", .verification_officer⟩

/-- The identity of the second officer. -/
def otherIdentity : Identity := ⟨3, "second@example.org", .verification_officer⟩

/-- A form payload declaring one document. -/
def sampleFormData : FormData :=
  { aadhaarNumber := .str "123456789012", email := .str "student@example.org",
    documents := some [⟨"photo", "", "", "", "", 0⟩], verificationStatus := none,
    verificationComments := none, fields := "name=Asha" }

/-- An uploaded file of ten bytes. -/
def sampleFile : UploadedFile :=
  ⟨"documents-1.pdf", "Uploads/applications/documents-1.pdf", "photo.pdf", "application/pdf", 10⟩

/-- The descriptor built from `sampleFile`. -/
def sampleDocument : Document :=
  ⟨"photo", "documents-1.pdf", "Uploads/applications/documents-1.pdf", "photo.pdf",
    "application/pdf", 10⟩

/-- A valid Submit request of the student for course 10. -/
def sampleSubmit : SubmitRequest :=
  { courseId := .oid 10, studentId := .oid 1, formData := .object sampleFormData,
    educationDetails := .value "school=Central", programType := some .UG, files := [sampleFile] }

/-- The same request with an empty file. -/
def emptyFileSubmit : SubmitRequest :=
  { sampleSubmit with files := [{ sampleFile with size := 0 }] }

/-- The same request with an email that is a sentence around an address. -/
def looseEmailSubmit : SubmitRequest :=
  { sampleSubmit with
    formData := .object { sampleFormData with email := .str "write to a@b.c today" } }

/-- The same request with an eleven-digit identifier. -/
def shortAadhaarSubmit : SubmitRequest :=
  { sampleSubmit with
    formData := .object { sampleFormData with aadhaarNumber := .str "12345678901" } }

/-- A valid SaveDraft request of the student for course 10, without files. -/
def sampleDraft : SaveDraftRequest :=
  { courseId := .oid 10, studentId := .oid 1, formData := .object sampleFormData,
    educationDetails := .value "school=Central", programType := some .PG,
    lastActiveSection := some 2, files := [] }

/-- A SaveDraft request with a file and no declared document. -/
def untypedDraft : SaveDraftRequest :=
  { sampleDraft with
    formData := .object { sampleFormData with documents := some [] }, files := [sampleFile] }

/-- The database after the student saved a draft. -/
def draftDb : Db := (saveDraft sampleDb sampleDraft).1

/-- The application stored by `sampleDraft`. -/
def draftApplication : ApplicationForm :=
  { id := 100, courseId := 10, studentId := 1,
    formData := { sampleFormData with documents := some [] },
    educationDetails := "school=Central", programType := .PG, assignedOfficer := none,
    verified := false, verifiedBy := none, status := .draft, lastActiveSection := 2,
    fieldComments := [], commentsRead := false }

/-- The database after the student submitted. -/
def submittedDb : Db := (submitApplication sampleDb sampleSubmit).1

/-- The application stored by `sampleSubmit`. -/
def submittedApplication : ApplicationForm :=
  { id := 100, courseId := 10, studentId := 1,
    formData := { sampleFormData with documents := some [sampleDocument] },
    educationDetails := "school=Central", programType := .UG, assignedOfficer := none,
    verified := false, verifiedBy := none, status := .pending, lastActiveSection := 0,
    fieldComments := [], commentsRead := false }

/-- The submitted state after course 10 was deleted. -/
def courseDeletedDb : Db := { submittedDb with courses := [] }

/-- The submitted state after the student's user record was deleted. -/
def orphanDb : Db := { submittedDb with users := [sampleOfficer, secondOfficer] }

/-- The database after the application was assigned to the first officer. -/
def assignedDb : Db := (assignStudent submittedDb (.oid 1) (.oid 2)).1

/-- The application after the assignment. -/
def assignedApplication : ApplicationForm :=
  { submittedApplication with assignedOfficer := some 2 }

/-- The payment request of the student for application 100. -/
def sampleProcess : ProcessRequest :=
  ⟨.oid 100, .oid 10, "Mathematics", 50000, "card", "March 31, 2025"⟩

/-- The database after the payment. -/
def paidDb : Db := (processPayment assignedDb studentIdentity sampleProcess).1

/-- The database after the officer verified the paid application. -/
def verifiedDb : Db :=
  (verifyApplication paidDb officerIdentity (.oid 100) ⟨some true, none, none⟩).1

/-- Three applications for course 10 by three students, two officers. -/
def batchDb : Db :=
  { users :=
      [sampleStudent, sampleOfficer, secondOfficer,
        { sampleStudent with id := 4, email := "fourth@example.org" },
        { sampleStudent with id := 5, email := "fifth@example.org" }],
    courses := [⟨10, "Mathematics"⟩],
    applications :=
      [submittedApplication, { submittedApplication with id := 101, studentId := 4 },
        { submittedApplication with id := 102, studentId := 5 }],
    payments := [], nextId := 103 }

/-! ## `middleware/auth.js` and the token issued by `index.js` -/

/-- The token primitive `jsonwebtoken`, taken as a parameter. `sign payload
secret issuedAt` is `jwt.sign(payload, secret, { expiresIn: "1h" })` called
at time `issuedAt`; `verify token key now` is `jwt.verify(token, key)` called
at time `now`, `none` when it throws, and its `key` is `none` when the
argument is `undefined`. The two laws are the part of its contract the
middleware depends on: a signed token is not verified without a key, and a
token holds no space. -/
structure Jwt where
  sign : Identity → String → Nat → String
  verify : String → Option String → Nat → Option Identity
  key_required : ∀ (payload : Identity) (secret : String) (issuedAt now : Nat)
    (key : Option String), falsy key = true →
    verify (sign payload secret issuedAt) key now = none
  sign_no_space : ∀ (payload : Identity) (secret : String) (issuedAt : Nat),
    ' ' ∉ (sign payload secret issuedAt).toList

/-- What a middleware does: it calls `next()`, here with the value it stored
on the request, or it sends a response and the chain stops. -/
inductive Outcome (α : Type) where
  | next (value : α)
  | respond (response : Response)

/-- The pieces of `s.split(sep)` for a one-character separator. -/
def splitOnChar (sep : Char) : List Char → List (List Char)
  | [] => [[]]
  | c :: cs =>
    if c = sep then [] :: splitOnChar sep cs
    else
      match splitOnChar sep cs with
      | [] => [[c]]
      | piece :: pieces => (c :: piece) :: pieces

/-- The test `s.startsWith(p)`. -/
def startsWith (s p : String) : Bool := p.toList.isPrefixOf s.toList

/-- The expression `authHeader.split(" ")[1]`; an `undefined` result is the
empty string, which `jwt.verify` rejects as well. -/
def bearerToken (authHeader : String) : String :=
  String.mk (((splitOnChar ' ' authHeader.toList)[1]?).getD [])

/-- The middleware `auth`: `authorization` is the header of the request,
`envSecret` is `process.env.JWT_SECRET`. `next user` stands for
`req.user = user; next()`. -/
def auth (jwt : Jwt) (envSecret : Option String) (now : Nat) (authorization : Option String) :
    Outcome Identity :=
  match authorization with
  | none => .respond (reply 401 "Access Denied: No Token Provided")
  | some authHeader =>
    if authHeader == "" || !startsWith authHeader "Bearer " then
      .respond (reply 401 "Access Denied: No Token Provided")
    else
      match jwt.verify (bearerToken authHeader) envSecret now with
      | some decoded => .next decoded
      | none => .respond (reply 401 "Invalid Token")

/-- The middleware `authorize(roles)`; `user` is `req.user`. -/
def authorize (roles : List Role) (user : Option Identity) : Outcome Unit :=
  match user with
  | none => .respond (reply 403 "Access Denied: Insufficient Permissions")
  | some u =>
    if !roles.contains u.role then
      .respond (reply 403 "Access Denied: Insufficient Permissions")
    else .next ()

/-- The constant `JWT_SECRET` of `index.js`:
`process.env.JWT_SECRET || "your_secret_key"`. -/
def signingSecret (envSecret : Option String) : String :=
  if falsy envSecret then "your_secret_key" else envSecret.getD ""

/-- The token that `/login` and `/register` sign for a user at time
`issuedAt`. -/
def issueToken (jwt : Jwt) (envSecret : Option String) (user : User) (issuedAt : Nat) : String :=
  jwt.sign { userId := user.id, email := user.email, role := user.role }
    (signingSecret envSecret) issuedAt

/-! ## `GET /student-notifications` -/

/-- A value of the `fieldComments` object of a notification. -/
structure FieldCommentEntry where
  comment : String
  documentType : Option String
  deriving DecidableEq

/-- An element of the `notifications` array. -/
structure Notification where
  applicationId : ObjectId
  courseTitle : String
  officerName : String
  generalComment : String
  fieldComments : List (String × FieldCommentEntry)
  read : Bool
  updatedAt : Nat
  deriving DecidableEq

/-- The body of the response of `GET /student-notifications`. -/
structure NotificationsResponse where
  notifications : List Notification
  unreadCount : Nat
  deriving DecidableEq

/-- The array index denoted by `parseInt(s, 10)`: leading white space, a sign
and the longest run of digits; `none` when the result is `NaN` or a negative
number, which index no element. -/
def parseIndex (s : List Char) : Option Nat :=
  let s := s.dropWhile isJsSpace
  let signed : Bool × List Char :=
    match s with
    | '-' :: rest => (true, rest)
    | '+' :: rest => (false, rest)
    | rest => (false, rest)
  let digits := signed.2.takeWhile isJsDigit
  if digits.isEmpty then none
  else
    let n := digits.foldl (fun acc c => 10 * acc + (c.toNat - 48)) 0
    if signed.1 && n != 0 then none else some n

/-- The entry built for one pair of `Object.entries(app.fieldComments)` whose
value is not empty. -/
def fieldCommentEntry (app : ApplicationForm) (key value : String) : FieldCommentEntry :=
  if startsWith key "document_" then
    let index := parseIndex (((splitOnChar '_' key.toList)[1]?).getD [])
    let doc :=
      match index, app.formData.documents with
      | some i, some documents => documents[i]?
      | _, _ => none
    match doc with
    | some d =>
      if d.type != "" then { comment := value, documentType := some d.type }
      else { comment := value, documentType := some "Unknown Document" }
    | none => { comment := value, documentType := some "Unknown Document" }
  else { comment := value, documentType := none }

/-- The object `fieldCommentsObj`: the entries of `fieldComments` whose value
is not empty. -/
def fieldCommentsObj (app : ApplicationForm) : List (String × FieldCommentEntry) :=
  app.fieldComments.filterMap
    (fun kv => if kv.2 == "" then none else some (kv.1, fieldCommentEntry app kv.1 kv.2))

/-- The object returned by the callback of `applications.map` when it does
not return `null`. Timestamps are kept by Mongoose and are not part of the
stored documents of this model: `updatedAt` gives the stored `updatedAt` of
each application. -/
def buildNotification (db : Db) (updatedAt : ObjectId → Nat) (app : ApplicationForm) :
    Notification :=
  { applicationId := app.id
    courseTitle :=
      match db.findCourseById app.courseId with
      | some course => if course.title == "" then "Unknown Course" else course.title
      | none => "Unknown Course"
    officerName :=
      match app.verifiedBy.bind db.findUserById with
      | some officer => if officer.name == "" then "Verification Officer" else officer.name
      | none => "Verification Officer"
    generalComment :=
      if falsy app.formData.verificationComments then ""
      else app.formData.verificationComments.getD ""
    fieldComments := fieldCommentsObj app
    read := app.commentsRead
    updatedAt := updatedAt app.id }

/-- The callback of `applications.map`: `none` is `null`. -/
def notificationOf (db : Db) (updatedAt : ObjectId → Nat) (app : ApplicationForm) :
    Option Notification :=
  if !falsy app.formData.verificationComments || (fieldCommentsObj app).length > 0 then
    some (buildNotification db updatedAt app)
  else none

/-- The handler of `GET /student-notifications`. -/
def studentNotifications (db : Db) (updatedAt : ObjectId → Nat) (user : Identity) :
    NotificationsResponse :=
  let applications := db.applications.filter
    (fun a => a.studentId == user.userId &&
      (a.formData.verificationComments != some "" || a.fieldComments != []))
  let notifications := applications.filterMap (notificationOf db updatedAt)
  { notifications := notifications
    unreadCount := (notifications.filter (fun n => !n.read)).length }

/-! ## Specification vocabulary, continued -/

/-- Whether `formData.documents` has an entry with a type at index `i`. -/
def hasDeclaredType (declared : Option (List Document)) (i : Nat) : Bool :=
  match declared with
  | none => false
  | some documents =>
    match documents[i]? with
    | none => false
    | some d => d.type != ""

/-- An application that has something to notify: a field comment with text,
or a general verification comment. -/
def hasComments (app : ApplicationForm) : Bool :=
  app.fieldComments.any (fun kv => kv.2 != "") || !falsy app.formData.verificationComments

/-- Every required field of the body of `POST /process` is present. -/
def ProcessRequest.complete (req : ProcessRequest) : Bool :=
  req.applicationId != .missing && req.courseId != .missing && req.courseName != "" &&
    req.amount != 0 && req.paymentMethod != "" && req.lastDate != ""

/-- At most one payment per pair of user and application. -/
def UniquePayments (db : Db) : Prop :=
  (db.payments.map (fun p => (p.userId, p.applicationId))).Nodup

/-- The states reached from `db0` by a sequence of Process calls. -/
inductive ProcessReachable (db0 : Db) : Db → Prop where
  | start : ProcessReachable db0 db0
  | step {db : Db} (user : Identity) (req : ProcessRequest) :
      ProcessReachable db0 db → ProcessReachable db0 (processPayment db user req).1

/-- Every stored application passes the validator of its schema. -/
def SchemaValid (db : Db) : Prop :=
  ∀ a ∈ db.applications, formDataValidator a.status a.formData = true

/-! ## Sample data, continued -/

/-- The assigned state after an officer stored a field comment without
text. -/
def blankCommentDb : Db :=
  { assignedDb with
    applications := [{ assignedApplication with fieldComments := [("name", "")] }] }

/-- A token primitive used for instances: every token is the same text and a
key is all that verification asks for. -/
def sampleJwt : Jwt where
  sign := fun _ _ _ => "header.payload.signature"
  verify := fun _ key _ => if falsy key then none else some ⟨1, "student@example.org", .student⟩
  key_required := by
    intro payload secret issuedAt now key hkey
    simp [hkey]
  sign_no_space := by
    intro payload secret issuedAt
    show ' ' ∉ "header.payload.signature".toList
    decide

/-! ## `index.js`: creation of users -/

/-- The role named by a string, for the strings of the `enum` of
`UserSchema.role`. -/
def Role.ofString : String → Option Role
  | "student" => some .student
  | "admin" => some .admin
  | "content_admin" => some .content_admin
  | "faculty" => some .faculty
  | "verification_admin" => some .verification_admin
  | "verification_officer" => some .verification_officer
  | _ => none

/-- The middleware `authorizeAdminOrVerificationAdmin`; `user` is `req.user`,
set by `auth`. -/
def authorizeAdminOrVerificationAdmin (user : Identity) : Outcome Unit :=
  if !([Role.admin, Role.verification_admin].contains user.role) then
    .respond (reply 403 "Access denied. Admins or Verification Admins only.")
  else .next ()

/-- The body of `POST /api/users/create`. An absent string field is the empty
string. -/
structure CreateUserRequest where
  name : String
  email : String
  password : String
  role : String
  courseId : IdParam
  deriving DecidableEq

/-- The constant `allowedRolesForAdmin`. -/
def allowedRolesForAdmin : List String :=
  ["admin", "content_admin", "verification_admin", "student", "faculty"]

/-- The constant `allowedRolesForVerificationAdmin`. -/
def allowedRolesForVerificationAdmin : List String := ["verification_officer"]

/-- The check of a `courseId` that was supplied: its format, then the
course. -/
def checkCourse (db : Db) (courseId : IdParam) : Except Response (Option ObjectId) :=
  match courseId with
  | .missing => .ok none
  | .malformed => .error (reply 400 "Invalid course ID format.")
  | .oid courseId =>
    match db.findCourseById courseId with
    | none => .error (reply 404 "Course not found.")
    | some _ => .ok (some courseId)

/-- The handler of `POST /api/users/create`, after the two middlewares. The
password is hashed and stored by the source; the user record of this model
has no field for it. A role outside the `enum` of the schema makes
`UserModel.create` throw. -/
def createUser (db : Db) (requester : Identity) (body : CreateUserRequest) : Db × Response :=
  if body.name == "" || body.email == "" || body.password == "" || body.role == "" then
    (db, reply 400 "Name, email, password, and role are required.")
  else
  let allowedRoles :=
    if requester.role = .admin then allowedRolesForAdmin else allowedRolesForVerificationAdmin
  if !allowedRoles.contains body.role then
    (db, reply 400 ("Invalid role. Allowed roles: " ++ ", ".intercalate allowedRoles))
  else
  match db.users.find? (fun u => u.email == body.email) with
  | some _ => (db, reply 400 "User already registered.")
  | none =>
  let validated : Except Response (Option ObjectId) :=
    if requester.role = .verification_admin && body.role == "verification_officer" then
      if body.courseId = .missing then
        .error (reply 400 "Course ID is required for creating a verification officer.")
      else checkCourse db body.courseId
    else checkCourse db body.courseId
  match validated with
  | .error response => (db, response)
  | .ok validatedCourseId =>
    match Role.ofString body.role with
    | none => (db, reply 500 "Failed to create user")
    | some role =>
      let newUser : User :=
        { id := db.nextId, email := body.email, name := body.name, role := role,
          verified := false, verifiedBy := none,
          courses := match validatedCourseId with
            | some courseId => [courseId]
            | none => [],
          payments := [] }
      ({ db with users := db.users ++ [newUser], nextId := db.nextId + 1 },
        reply 201 ("User created successfully as " ++ body.role))

/-- The route `POST /api/users/create`: `authorizeAdminOrVerificationAdmin`,
then the handler. -/
def createUserRoute (db : Db) (user : Identity) (body : CreateUserRequest) : Db × Response :=
  match authorizeAdminOrVerificationAdmin user with
  | .respond response => (db, response)
  | .next _ => createUser db user body

/-! ## Specification vocabulary for the last claims -/

/-- At most one application per pair of student and course. -/
def UniqueApplications (db : Db) : Prop :=
  (db.applications.map (fun a => (a.studentId, a.courseId))).Nodup

/-- The `_id`s of the stored applications are distinct and were issued before
the next one (what the database guarantees of `_id`). -/
def DistinctIds (db : Db) : Prop :=
  (db.applications.map (fun a => a.id)).Nodup ∧ ∀ a ∈ db.applications, a.id < db.nextId

/-- The states reached from `db0` by a sequence of SaveDraft and Submit
calls. -/
inductive DraftSubmitReachable (db0 : Db) : Db → Prop where
  | start : DraftSubmitReachable db0 db0
  | saveDraft {db : Db} (req : SaveDraftRequest) :
      DraftSubmitReachable db0 db → DraftSubmitReachable db0 (saveDraft db req).1
  | submit {db : Db} (req : SubmitRequest) :
      DraftSubmitReachable db0 db → DraftSubmitReachable db0 (submitApplication db req).1

/-- A comment is supplied to SaveComments, in the words of the spec: a
general comment that is not empty, or a `fieldComments` object with an
entry. -/
def commentSupplied (comments : Option String) (fieldComments : FieldCommentsParam) : Bool :=
  !falsy comments ||
    (match fieldComments with
     | .entries entries => entries.length > 0
     | _ => false)

/-- A role the caller may give to a user it creates, in the words of the
spec: a verification admin creates verification officers, an admin creates
the five other roles. -/
def mayCreate (caller : Role) (role : String) : Bool :=
  (caller == .verification_admin && role == "verification_officer") ||
    (caller == .admin &&
      (role == "admin" || role == "content_admin" || role == "verification_admin" ||
        role == "student" || role == "faculty"))

/-- No application of `db1` has a decided status (verified or rejected) that
the application with its id did not already have in `db`. -/
def DecisionsKept (db db1 : Db) : Prop :=
  ∀ a1 ∈ db1.applications, (a1.status = .verified ∨ a1.status = .rejected) →
    ∃ a ∈ db.applications, a.id = a1.id ∧ a.status = a1.status

/-- Every application of the list is an application of `db`, or one of them
with the id of a user of `officers` written to `assignedOfficer`. -/
def AssignedFrom (db : Db) (officers : List User) (applications : List ApplicationForm) : Prop :=
  ∀ a1 ∈ applications, a1 ∈ db.applications ∨
    ∃ a ∈ db.applications, ∃ u ∈ officers, a1 = { a with assignedOfficer := some u.id }

/-! ## Sample data for the last claims -/

/-- The Submit request of the student with the identifier sent as the array
`["123456789012"]`. -/
def arrayAadhaarSubmit : SubmitRequest :=
  { sampleSubmit with
    formData := .object { sampleFormData with aadhaarNumber := .strs ["123456789012"] } }

/-- The Submit request of the student with `educationDetails` sent as
`null`. -/
def nullEducationSubmit : SubmitRequest := { sampleSubmit with educationDetails := .null }

/-- The SaveDraft request of the student with `formData` sent as `null`. -/
def nullFormDraft : SaveDraftRequest := { sampleDraft with formData := .null }

/-- The SaveDraft request of the student with `educationDetails` sent as
`null`. -/
def nullEducationDraft : SaveDraftRequest := { sampleDraft with educationDetails := .null }

/-- The assigned state after the student read the comments of the
application. -/
def readDb : Db := (markCommentsRead assignedDb studentIdentity (.oid 100)).1

/-- A Decide request that rejects with a general comment and no
`fieldComments`. -/
def rejectWithComment : VerifyRequest := ⟨some false, some "The marks sheet is not legible", none⟩

/-- A SaveDraft request of the student with a file of no bytes. -/
def emptyFileDraft : SaveDraftRequest :=
  { sampleDraft with files := [{ sampleFile with size := 0 }] }

/-- The database after the student saved the draft with the empty file and an
admin assigned it to the first officer. -/
def emptyDraftDb : Db := (assignStudent (saveDraft sampleDb emptyFileDraft).1 (.oid 1) (.oid 2)).1

/-- The database after the student saved a draft without files and an admin
assigned it to the first officer. -/
def assignedDraftDb : Db := (assignStudent draftDb (.oid 1) (.oid 2)).1

/-- An admin. -/
def adminIdentity : Identity := ⟨7, "admin@example.org", .admin⟩

/-- A verification admin. -/
def verificationAdminIdentity : Identity := ⟨8, "vadmin@example.org", .verification_admin⟩

/-- A request to create a verification officer for course 10. -/
def officerRequest : CreateUserRequest :=
  ⟨"Dev", "dev@example.org", "secret", "verification_officer", .oid 10⟩

/-- The student of `sampleDb` with a submitted application for course 10 and a
draft for course 11. -/
def twoCourseDb : Db :=
  { sampleDb with
    courses := [⟨10, "Mathematics"⟩, ⟨11, "Physics"⟩]
    applications := [submittedApplication, { draftApplication with id := 101, courseId := 11 }]
    nextId := 102 }

/-! # Theorems -/

/-! ## Regular expressions and the validator chain -/

/-- A run of `n` digit classes matches exactly the inputs of `n` digits. -/
theorem matchHere_digits (n : Nat) (cs : List Char) :
    matchHere true cs (List.replicate n ⟨.digit, false⟩) = true ↔
      cs.length = n ∧ ∀ c ∈ cs, isJsDigit c = true := by
  induction n generalizing cs with
  | zero =>
    cases cs with
    | nil => simp [matchHere]
    | cons c cs => simp [matchHere]
  | succ n ih =>
    cases cs with
    | nil => simp [matchHere, List.replicate_succ]
    | cons c cs =>
      simp only [List.replicate_succ, matchHere, Atom.test, Bool.false_and, Bool.or_false,
        Bool.and_eq_true, ih, List.length_cons, List.mem_cons, forall_eq_or_imp,
        Nat.add_right_cancel_iff]
      tauto

/-- The class `\d` is the range of characters `0` to `9`. -/
theorem isJsDigit_iff (c : Char) : isJsDigit c = true ↔ 48 ≤ c.toNat ∧ c.toNat ≤ 57 := by
  simp [isJsDigit]

/-- The pattern `/^\d{12}$/` accepts exactly the strings of twelve decimal
digits. -/
theorem aadhaarRegexTest_iff (s : String) : aadhaarRegexTest s = true ↔ TwelveDigits s := by
  unfold aadhaarRegexTest aadhaarPattern TwelveDigits
  rw [matchHere_digits]
  simp only [isJsDigit_iff]

/-- The Aadhaar check rejects a falsy value and every value whose text is not
twelve digits. -/
theorem aadhaarRejected_of_not_twelve (v : JsonField)
    (h : v.falsy = true ∨ ¬ TwelveDigits v.shown) : aadhaarRejected v = true := by
  unfold aadhaarRejected
  rcases h with h | h
  · simp [h]
  · rw [← aadhaarRegexTest_iff] at h
    simp [h]

/-- The Aadhaar check accepts a truthy value whose text is twelve digits. -/
theorem aadhaarRejected_of_twelve (v : JsonField) (hv : v.falsy = false)
    (h : TwelveDigits v.shown) : aadhaarRejected v = false := by
  have h12 := (aadhaarRegexTest_iff v.shown).2 h
  simp [aadhaarRejected, hv, h12]

/-- A valid Submit request passes the validator chain. -/
theorem ValidSubmit.submitValidation_isEmpty {db : Db} {req : SubmitRequest} {c s : ObjectId}
    {fd : FormData} {pt : ProgramType} {docs : List Document}
    (h : ValidSubmit db req c s fd pt docs) : (submitValidation req).isEmpty = true := by
  have h1 := aadhaarRejected_of_twelve _ h.aadhaar.1 h.aadhaar.2
  have h2 := h.email
  simp [submitValidation, h.courseId_eq, h.studentId_eq, h.formData_eq, h.educationDetails_parsed,
    h.programType_eq, submitFormDataCheck, h1, h2]

/-- The handler on a valid request, up to the lookup of the existing
application. -/
theorem submitApplication_valid {db : Db} {req : SubmitRequest} {c s : ObjectId} {fd : FormData}
    {pt : ProgramType} {docs : List Document}
    (h : ValidSubmit db req c s fd pt docs) :
    submitApplication db req =
      match db.findApplication s c with
      | some application =>
        if application.status ≠ .draft then
          (db, reply 400 "An application for this course has already been submitted")
        else
          match requiredEducationDetails req.educationDetails with
          | none => (db, reply 400 "Validation error")
          | some ed =>
          match db.saveApplication
            { application with
              formData := { fd with documents := some docs }, educationDetails := ed,
              programType := pt, status := .pending, lastActiveSection := 0 } with
          | none => (db, reply 400 "Validation error")
          | some db1 => (db1, reply 201 "Application submitted successfully")
      | none =>
        match requiredEducationDetails req.educationDetails with
        | none => (db, reply 400 "Validation error")
        | some ed =>
        match db.insertApplication
          { id := 0, courseId := c, studentId := s, formData := { fd with documents := some docs },
            educationDetails := ed, programType := pt, assignedOfficer := none, verified := false,
            verifiedBy := none, status := .pending, lastActiveSection := 0, fieldComments := [],
            commentsRead := false } with
        | none => (db, reply 400 "Validation error")
        | some db1 => (db1, reply 201 "Application submitted successfully") := by
  have h1 := aadhaarRejected_of_twelve _ h.aadhaar.1 h.aadhaar.2
  have h2 := h.email
  obtain ⟨declared, hdecl, hcount⟩ := h.count
  obtain ⟨course, hcourse⟩ := Option.isSome_iff_exists.1 h.course
  have hlen : req.files.length ≠ 0 := by
    intro h0
    exact h.files (List.length_eq_zero.1 h0)
  have htypes := h.types
  rw [hdecl] at htypes
  unfold submitApplication
  have hdne : declared ≠ [] := by
    intro h0
    rw [h0] at hcount
    exact hlen hcount
  simp only [h.submitValidation_isEmpty, h.formData_eq, h.programType_eq, h1, h2,
    h.courseId_eq, h.studentId_eq, hcourse, hdecl, hcount, htypes]
  simp [hdne]

/-- C6. When an application of the pair exists with status pending, verified
or rejected, Submit with otherwise valid input answers 400 and leaves the
database unchanged. -/
theorem submitApplication_conflict (db : Db) (req : SubmitRequest) (courseId studentId : ObjectId)
    (formData : FormData) (programType : ProgramType)
    (documents : List Document) (application : ApplicationForm)
    (hvalid : ValidSubmit db req courseId studentId formData programType documents)
    (hexists : db.findApplication studentId courseId = some application)
    (hstatus : application.status = .pending ∨ application.status = .verified ∨
      application.status = .rejected) :
    (submitApplication db req).2.status = 400 ∧ (submitApplication db req).1 = db := by
  have hne : application.status ≠ .draft := by
    rcases hstatus with h | h | h <;> simp [h]
  rw [submitApplication_valid hvalid, hexists]
  simp [hne, reply]

/-! ## Submit -/

/-- The descriptor of a complete file is complete. -/
theorem describeFile_complete {declared : Option (List Document)} {index : Nat}
    {file : UploadedFile} {d : Document} (h : describeFile declared index file = some d)
    (hfile : fileComplete file = true) : documentComplete d = true := by
  unfold describeFile at h
  cases declared with
  | none => simp at h
  | some documents =>
    simp only at h
    cases hget : documents[index]? with
    | none => simp [hget] at h
    | some e =>
      simp only [hget] at h
      by_cases ht : e.type = ""
      · simp [ht] at h
      · simp only [beq_iff_eq, ht, if_false, Option.some.injEq] at h
        subst h
        simp only [fileComplete, Bool.and_eq_true, bne_iff_ne, ne_eq] at hfile
        simp [documentComplete, ht, hfile]

/-- The descriptors of complete files pass the schema test. -/
theorem mapFilesFrom_complete (declared : Option (List Document)) (files : List UploadedFile) :
    ∀ (index : Nat) (documents : List Document),
      mapFilesFrom declared index files = some documents →
      (∀ f ∈ files, fileComplete f = true) → documents.all documentComplete = true := by
  induction files with
  | nil =>
    intro index documents h _
    simp only [mapFilesFrom, Option.some.injEq] at h
    subst h
    rfl
  | cons file files ih =>
    intro index documents h hfiles
    simp only [mapFilesFrom] at h
    cases hd : describeFile declared index file with
    | none => simp [hd] at h
    | some d =>
      simp only [hd] at h
      cases hrest : mapFilesFrom declared (index + 1) files with
      | none => simp [hrest] at h
      | some ds =>
        simp only [hrest, Option.some.injEq] at h
        subst h
        have h1 := describeFile_complete hd (hfiles file (List.mem_cons_self _ _))
        have h2 := ih (index + 1) ds hrest (fun f hf => hfiles f (List.mem_cons_of_mem _ hf))
        simp [h1, h2]

/-- After the first match of `q` is replaced by `y`, a query `p` that found an
element matching `q` finds `y`, provided `y` matches `p`. -/
theorem find_updateFirst_const {α : Type} (p q : α → Bool) (a y : α) (l : List α)
    (hfind : l.find? p = some a) (hq : q a = true) (hp : p y = true) :
    (updateFirst q (fun _ => y) l).find? p = some y := by
  induction l with
  | nil => simp at hfind
  | cons x xs ih =>
    simp only [updateFirst]
    by_cases hqx : q x = true
    · simp [hqx, hp]
    · simp only [hqx, if_false, Bool.false_eq_true]
      by_cases hpx : p x = true
      · simp only [List.find?_cons, hpx, Option.some.injEq] at hfind
        subst hfind
        exact absurd hq hqx
      · simp only [List.find?_cons, hpx] at hfind ⊢
        exact ih hfind

/-- A query without result finds the appended document that matches it. -/
theorem find_append_singleton {α : Type} (p : α → Bool) (y : α) (l : List α)
    (hfind : l.find? p = none) (hp : p y = true) : (l ++ [y]).find? p = some y := by
  simp [List.find?_append, hfind, hp]

/-- C7, as amended. For every valid Submit request whose `educationDetails`
is not `null` and whose uploaded files all have a complete descriptor
(non-empty names, path and mimetype, non-zero size), made when the pair has
no application or a draft, the request is answered 201 and the application of
the pair carries the submitted formData with `documents` replaced by the
descriptors of the uploaded files, the submitted educationDetails and
programType, status pending and `lastActiveSection = 0`. -/
theorem submitApplication_success (db : Db) (req : SubmitRequest) (courseId studentId : ObjectId)
    (formData : FormData) (educationDetails : String) (programType : ProgramType)
    (documents : List Document)
    (hvalid : ValidSubmit db req courseId studentId formData programType documents)
    (heducation : req.educationDetails = .value educationDetails)
    (hfiles : ∀ f ∈ req.files, fileComplete f = true)
    (hprior : db.findApplication studentId courseId = none ∨
      ∃ a, db.findApplication studentId courseId = some a ∧ a.status = .draft) :
    (submitApplication db req).2.status = 201 ∧
      ∃ a, (submitApplication db req).1.findApplication studentId courseId = some a ∧
        a.formData = { formData with documents := some documents } ∧
        a.educationDetails = educationDetails ∧ a.programType = programType ∧
        a.status = .pending ∧ a.lastActiveSection = 0 := by
  have hdocs : documents.all documentComplete = true :=
    mapFilesFrom_complete formData.documents req.files 0 documents hvalid.types hfiles
  have hval : formDataValidator .pending { formData with documents := some documents } = true := by
    simp only [formDataValidator]
    simpa using hdocs
  rw [submitApplication_valid hvalid, heducation]
  simp only [requiredEducationDetails]
  rcases hprior with hnone | ⟨a, hsome, hdraft⟩
  · rw [hnone]
    simp only [Db.insertApplication, hval, if_true]
    refine ⟨rfl, _, find_append_singleton _ _ _ hnone (by simp), rfl, rfl, rfl, rfl, rfl⟩
  · rw [hsome]
    simp only [hdraft, ne_eq, not_true_eq_false, if_false, Db.saveApplication, hval, if_true]
    have hpa := List.find?_some hsome
    refine ⟨rfl, _, find_updateFirst_const _ _ a _ _ hsome (by simp) (by simpa using hpa),
      rfl, rfl, rfl, rfl, rfl⟩

/-! ## SaveDraft -/

/-- A valid SaveDraft request passes the validator chain. -/
theorem ValidSaveDraft.saveDraftValidation_isEmpty {db : Db} {req : SaveDraftRequest} {c s : ObjectId}
    {fd : FormData} {pt : ProgramType} {las : Nat}
    (h : ValidSaveDraft db req c s fd pt las) :
    (saveDraftValidation req).isEmpty = true := by
  have hfd : req.formData ≠ .invalid := by
    intro hinv
    have := h.formData_eq
    rw [hinv] at this
    simp [draftFormData] at this
  simp [saveDraftValidation, h.courseId_eq, h.studentId_eq, hfd, h.educationDetails_parsed,
    h.programType_eq, h.lastActiveSection_eq]

/-- The handler on a valid request, up to the lookup of the existing
application. -/
theorem saveDraft_valid {db : Db} {req : SaveDraftRequest} {c s : ObjectId}
    {fd : FormData} {pt : ProgramType} {las : Nat}
    (h : ValidSaveDraft db req c s fd pt las) :
    saveDraft db req =
      match db.findApplication s c with
      | some application =>
        if application.status ≠ .draft then
          (db, reply 400 "An application for this course has already been submitted")
        else
          match requiredEducationDetails req.educationDetails with
          | none => (db, reply 500 "Server error")
          | some ed =>
          match db.saveApplication
            { application with
              formData := fd, educationDetails := ed,
              programType := pt, lastActiveSection := las, status := .draft } with
          | none => (db, reply 500 "Server error")
          | some db1 => (db1, reply 200 "Draft saved successfully")
      | none =>
        match requiredEducationDetails req.educationDetails with
        | none => (db, reply 500 "Server error")
        | some ed =>
        match db.insertApplication
          { id := 0, courseId := c, studentId := s, formData := fd,
            educationDetails := ed, programType := pt, assignedOfficer := none, verified := false,
            verifiedBy := none, status := .draft, lastActiveSection := las, fieldComments := [],
            commentsRead := false } with
        | none => (db, reply 500 "Server error")
        | some db1 => (db1, reply 200 "Draft saved successfully") := by
  obtain ⟨course, hcourse⟩ := Option.isSome_iff_exists.1 h.course
  unfold saveDraft
  simp only [h.saveDraftValidation_isEmpty, h.formData_eq, h.programType_eq,
    h.lastActiveSection_eq, h.courseId_eq, h.studentId_eq, hcourse]
  simp

/-- A SaveDraft call for a pair whose application is past `draft` writes
nothing and answers 400, 404 or 500. -/
theorem saveDraft_nondraft_fails (db : Db) (req : SaveDraftRequest) (c s : ObjectId)
    (a : ApplicationForm) (hc : req.courseId = .oid c) (hs : req.studentId = .oid s)
    (hfind : db.findApplication s c = some a) (hstatus : a.status ≠ .draft) :
    (saveDraft db req).1 = db ∧ (saveDraft db req).2.status ∈ [400, 404, 500] := by
  unfold saveDraft
  by_cases hval : (saveDraftValidation req).isEmpty = true
  · simp only [hval, Bool.not_true, Bool.false_eq_true, if_false, hc, hs]
    cases req.programType <;> cases req.lastActiveSection <;> try (simp [reply])
    cases db.findCourseById c with
    | none => simp [reply]
    | some course =>
      simp only
      cases draftFormData req.formData req.files with
      | none => simp [reply]
      | some formData => simp [hfind, hstatus, reply]
  · simp [hval]

/-- C8, as amended. For a pair whose application is past draft, SaveDraft
never succeeds and leaves the database unchanged, and answers 400 when the
request is otherwise valid (validator chain passed, course exists, a
`formData` that is not `null` and, when files are attached, is an object
declaring a document type for each of them); when the application is a draft,
the request is valid in that sense and its `educationDetails` is not `null`,
SaveDraft replaces its formData (by the form data of the request with
`documents` the descriptors of the uploaded files), educationDetails,
programType and lastActiveSection, and keeps every other field, status draft
included. -/
theorem saveDraft_existing (db : Db) (req : SaveDraftRequest) (courseId studentId : ObjectId)
    (application : ApplicationForm)
    (hc : req.courseId = .oid courseId) (hs : req.studentId = .oid studentId)
    (hfind : db.findApplication studentId courseId = some application) :
    (application.status ≠ .draft →
      (saveDraft db req).1 = db ∧ (saveDraft db req).2.status ≠ 200 ∧
      ∀ formData programType lastActiveSection,
        ValidSaveDraft db req courseId studentId formData programType lastActiveSection →
        (saveDraft db req).2.status = 400) ∧
    (application.status = .draft →
      ∀ formData educationDetails programType lastActiveSection,
        ValidSaveDraft db req courseId studentId formData programType lastActiveSection →
        req.educationDetails = .value educationDetails →
        (saveDraft db req).2.status = 200 ∧
        (saveDraft db req).1.findApplication studentId courseId =
          some { application with
            formData := formData,
            educationDetails := educationDetails, programType := programType,
            lastActiveSection := lastActiveSection } ∧
        ∀ value, req.formData = .object value →
          ∃ documents,
            (if req.files.length > 0 then mapFiles value.documents req.files else some []) =
              some documents ∧
            formData = { value with documents := some documents }) := by
  constructor
  · intro hstatus
    obtain ⟨h1, h2⟩ := saveDraft_nondraft_fails db req courseId studentId application hc hs hfind hstatus
    refine ⟨h1, ?_, ?_⟩
    · intro h200
      rw [h200] at h2
      simp at h2
    intro fd pt las hvalid
    rw [saveDraft_valid hvalid, hfind]
    simp [hstatus, reply]
  · intro hdraft fd ed pt las hvalid hed
    rw [saveDraft_valid hvalid, hfind, hed]
    have hval : formDataValidator .draft fd = true := by
      simp [formDataValidator]
    simp only [requiredEducationDetails, hdraft, ne_eq, not_true_eq_false, if_false,
      Db.saveApplication, hval, if_true]
    have hpa := List.find?_some hfind
    have hrec : ({ application with
        formData := fd, educationDetails := ed,
        programType := pt, lastActiveSection := las, status := Status.draft } : ApplicationForm) =
        { application with
        formData := fd, educationDetails := ed,
        programType := pt, lastActiveSection := las } := by
      cases application
      simp only at hdraft
      simp [hdraft]
    rw [hrec]
    refine ⟨rfl, find_updateFirst_const _ _ application _ _ hfind (by simp) (by simpa using hpa), ?_⟩
    intro value hvalue
    have hfd := hvalid.formData_eq
    rw [hvalue] at hfd
    unfold draftFormData at hfd
    simp only at hfd
    cases hmap : (if req.files.length > 0 then mapFiles value.documents req.files else some []) with
    | none => simp [hmap] at hfd
    | some documents =>
      simp only [hmap, Option.some.injEq] at hfd
      exact ⟨documents, rfl, hfd.symm⟩

/-! ## Decide and SaveComments -/

/-- C1. For every application and every caller who is its assigned officer,
Decide with `verified = true` answers 400 when no payment exists for the
application or the payment found is not completed, and the database (the
application and every user record) is left unchanged. -/
theorem verifyApplication_requires_completed_payment (db : Db) (user : Identity)
    (applicationId : ObjectId) (application : ApplicationForm) (body : VerifyRequest)
    (happ : db.findApplicationById applicationId = some application)
    (hofficer : application.assignedOfficer = some user.userId)
    (hverified : body.verified = some true)
    (hpay : (∀ p ∈ db.payments, p.applicationId ≠ applicationId) ∨
      ∃ p, db.findPaymentByApplication applicationId = some p ∧ p.status ≠ .completed) :
    (verifyApplication db user (.oid applicationId) body).2.status = 400 ∧
      (verifyApplication db user (.oid applicationId) body).1 = db := by
  have hmissing : db.completedPaymentMissing applicationId = true := by
    unfold Db.completedPaymentMissing
    rcases hpay with h | ⟨p, hp, hs⟩
    · have : db.findPaymentByApplication applicationId = none := by
        unfold Db.findPaymentByApplication
        rw [List.find?_eq_none]
        intro p hp
        simpa using h p hp
      rw [this]
    · rw [hp]; simpa using hs
  unfold verifyApplication
  simp only [hverified, happ]
  cases hstu : db.findUserById application.studentId with
  | none => simp [reply]
  | some student => simp [hofficer, hmissing, reply]

/-- C3, as amended. For every application and every caller whose id differs
from the application's `assignedOfficer` (including when it is null), Decide
leaves the database unchanged whatever `verified`, `comments` and
`fieldComments` are; it answers 403 when `verified` is a boolean and the
student of the application exists, and 400 otherwise. -/
theorem verifyApplication_other_officer (db : Db) (user : Identity)
    (applicationId : ObjectId) (application : ApplicationForm) (body : VerifyRequest)
    (happ : db.findApplicationById applicationId = some application)
    (hother : application.assignedOfficer ≠ some user.userId) :
    (verifyApplication db user (.oid applicationId) body).1 = db ∧
      (verifyApplication db user (.oid applicationId) body).2.status =
        (if body.verified.isSome ∧ (db.findUserById application.studentId).isSome then 403
         else 400) := by
  unfold verifyApplication
  cases hv : body.verified with
  | none => simp [reply]
  | some verified =>
    simp only [happ]
    cases hstu : db.findUserById application.studentId with
    | none => simp [reply]
    | some student => simp [hother, reply]

/-- C4. For every application and every caller whose id differs from the
application's `assignedOfficer` (including when it is null), SaveComments
answers 403 and leaves the database unchanged. -/
theorem saveApplicationComments_other_officer (db : Db) (user : Identity)
    (applicationId : ObjectId) (application : ApplicationForm) (body : CommentsRequest)
    (happ : db.findApplicationById applicationId = some application)
    (hother : application.assignedOfficer ≠ some user.userId) :
    (saveApplicationComments db user (.oid applicationId) body).2.status = 403 ∧
      (saveApplicationComments db user (.oid applicationId) body).1 = db := by
  unfold saveApplicationComments
  simp [happ, hother, reply]

/-! ## Batch assignment -/

/-- Lookup by id after an officer was set on the first document with a given
id. -/
theorem find_setOfficer (id o id2 : ObjectId) (l : List ApplicationForm) :
    ((updateFirst (fun a => a.id == id)
        (fun a => { a with assignedOfficer := some o }) l).find? (fun a => a.id == id2)).map
        (fun a => a.assignedOfficer) =
      if id2 = id then
        ((l.find? (fun a => a.id == id2)).map (fun a => a.assignedOfficer)).map (fun _ => some o)
      else (l.find? (fun a => a.id == id2)).map (fun a => a.assignedOfficer) := by
  induction l with
  | nil => simp [updateFirst]
  | cons x xs ih =>
    by_cases hx : x.id = id
    · subst hx
      by_cases h2 : id2 = x.id
      · subst h2
        simp [updateFirst]
      · have h3 : ¬ x.id = id2 := fun h => h2 h.symm
        simp [updateFirst, h2, h3]
    · by_cases hx2 : x.id = id2
      · subst hx2
        simp [updateFirst, hx]
      · have e1 : (x.id == id) = false := by simpa using hx
        have e2 : (x.id == id2) = false := by simpa using hx2
        simp only [updateFirst, e1, Bool.false_eq_true, if_false, List.find?_cons, e2]
        exact ih

/-- The officer of an application after `setAssignedOfficer`. -/
theorem officerOf_setAssignedOfficer (db : Db) (id o id2 : ObjectId) :
    (db.setAssignedOfficer id o).officerOf id2 =
      if id2 = id then (db.officerOf id2).map (fun _ => some o) else db.officerOf id2 := by
  unfold Db.officerOf Db.findApplicationById Db.setAssignedOfficer
  exact find_setOfficer id o id2 db.applications

/-- One iteration of the inner loop. -/
theorem assignBatch_cons (o : ObjectId) (b : ApplicationForm) (bs : List ApplicationForm)
    (acc : Db × Nat) :
    assignBatch o (b :: bs) acc =
      assignBatch o bs (acc.1.setAssignedOfficer b.id o, acc.2 + 1) := by
  simp [assignBatch]

/-- The officer of an application after the inner loop ran over a batch. -/
theorem assignBatch_officerOf (o : ObjectId) (batch : List ApplicationForm) :
    ∀ (acc : Db × Nat) (id : ObjectId),
      (assignBatch o batch acc).1.officerOf id =
        if id ∈ batch.map (fun a => a.id) then (acc.1.officerOf id).map (fun _ => some o)
        else acc.1.officerOf id := by
  induction batch with
  | nil => intro acc id; simp [assignBatch]
  | cons b bs ih =>
    intro acc id
    rw [assignBatch_cons, ih, officerOf_setAssignedOfficer]
    by_cases h1 : id = b.id
    · subst h1
      by_cases h2 : b.id ∈ bs.map (fun a => a.id)
      · cases hq : acc.1.officerOf b.id <;> simp [h2]
      · simp [h2]
    · by_cases h2 : id ∈ bs.map (fun a => a.id)
      · simp [h1, h2]
      · simp [h1, h2]

/-- The inner loop adds one entry of `assignments` per application. -/
theorem assignBatch_count (o : ObjectId) (batch : List ApplicationForm) :
    ∀ acc : Db × Nat, (assignBatch o batch acc).2 = acc.2 + batch.length := by
  induction batch with
  | nil => intro acc; simp [assignBatch]
  | cons b bs ih =>
    intro acc
    rw [assignBatch_cons, ih]
    simp only [List.length_cons]
    omega

/-- The elements of `validApplications.slice(i, i + batchSize)`. -/
theorem batch_getElem_opt (V : List ApplicationForm) (i B t : Nat) :
    ((V.drop i).take B)[t]? = if t < B then V[i + t]? else none := by
  rw [List.getElem?_take, List.getElem?_drop]

/-- The application at an index inside the slice belongs to the batch. -/
theorem mem_batch_of_index (V : List ApplicationForm) (i B j : Nat) (a : ApplicationForm)
    (hj : V[j]? = some a) (h1 : i ≤ j) (h2 : j < i + B) :
    a.id ∈ ((V.drop i).take B).map (fun a => a.id) := by
  have hget : ((V.drop i).take B)[j - i]? = some a := by
    rw [batch_getElem_opt, if_pos (by omega)]
    have : i + (j - i) = j := by omega
    rw [this, hj]
  exact List.mem_map_of_mem _ (List.mem_iff_getElem?.2 ⟨_, hget⟩)

/-- With pairwise distinct ids, an application of the batch sits at an index
inside the slice. -/
theorem index_of_mem_batch (V : List ApplicationForm) (i B j : Nat) (a : ApplicationForm)
    (hnodup : (V.map (fun a => a.id)).Nodup)
    (hj : V[j]? = some a) (hmem : a.id ∈ ((V.drop i).take B).map (fun a => a.id)) :
    i ≤ j ∧ j < i + B := by
  obtain ⟨b, hb, hid⟩ := List.mem_map.1 hmem
  obtain ⟨t, ht⟩ := List.mem_iff_getElem?.1 hb
  rw [batch_getElem_opt] at ht
  by_cases htB : t < B
  · rw [if_pos htB] at ht
    have hlt : i + t < (V.map (fun a => a.id)).length := by
      rw [List.length_map]
      exact (List.getElem?_eq_some.1 ht).1
    have heq : (V.map (fun a => a.id))[i + t]? = (V.map (fun a => a.id))[j]? := by
      rw [List.getElem?_map, List.getElem?_map, ht, hj]
      simp [hid]
    have := List.getElem?_inj hlt hnodup heq
    omega
  · rw [if_neg htB] at ht
    cases ht

/-- The distribution loop started at a batch boundary with enough iterations
left returns, and every valid application then carries the officer of its
batch. -/
theorem distribute_spec (V : List ApplicationForm) (O : List User) (hO : 0 < O.length)
    (B : Nat) (hB : 1 ≤ B) (hnodup : (V.map (fun a => a.id)).Nodup) :
    ∀ (fuel i k : Nat) (acc : Db × Nat), i = k * B → V.length + 1 ≤ i + fuel → 1 ≤ fuel →
      (∀ (j : Nat) (a : ApplicationForm), V[j]? = some a → (acc.1.officerOf a.id).isSome = true) →
      (∀ (j : Nat) (a : ApplicationForm), j < i → V[j]? = some a →
        ∃ o, O[(j / B) % O.length]? = some o ∧ acc.1.officerOf a.id = some (some o.id)) →
      ∃ res, distribute V O hO B fuel i k acc = some res ∧
        ∀ (j : Nat) (a : ApplicationForm), V[j]? = some a →
          ∃ o, O[(j / B) % O.length]? = some o ∧ res.1.officerOf a.id = some (some o.id) := by
  intro fuel
  induction fuel with
  | zero => intro i k acc _ _ h1; omega
  | succ fuel ih =>
    intro i k acc hik hfuel _ hdom hinv
    unfold distribute
    by_cases hi : i < V.length
    · simp only [hi, if_true]
      apply ih (i + B) (k + 1)
      · rw [hik, Nat.succ_mul]
      · omega
      · omega
      · intro j a hj
        rw [assignBatch_officerOf]
        have := hdom j a hj
        split
        · cases hq : acc.1.officerOf a.id with
          | none => rw [hq] at this; cases this
          | some v => rfl
        · exact this
      · intro j a hjlt hj
        rw [assignBatch_officerOf]
        by_cases hji : j < i
        · have hnot : a.id ∉ ((V.drop i).take B).map (fun a => a.id) := by
            intro hmem
            have := index_of_mem_batch V i B j a hnodup hj hmem
            omega
          rw [if_neg hnot]
          exact hinv j a hji hj
        · have hmem := mem_batch_of_index V i B j a hj (by omega) hjlt
          rw [if_pos hmem]
          have hdiv : j / B = k := by
            apply Nat.div_eq_of_lt_le
            · omega
            · rw [Nat.succ_mul]; omega
          refine ⟨O.get ⟨k % O.length, Nat.mod_lt k hO⟩, ?_, ?_⟩
          · rw [hdiv, List.get_eq_getElem]
            exact List.getElem?_eq_getElem _
          · have := hdom j a hj
            cases hq : acc.1.officerOf a.id with
            | none => rw [hq] at this; cases this
            | some v => rfl
    · simp only [hi, if_false]
      refine ⟨acc, rfl, ?_⟩
      intro j a hj
      have hjlt : j < V.length := (List.getElem?_eq_some.1 hj).1
      exact hinv j a (by omega) hj

/-- The valid applications are a sublist of the collection. -/
theorem validApplications_sublist (db : Db) (courseId : ObjectId) :
    (db.validApplications courseId).Sublist db.applications :=
  (List.filter_sublist _).trans (List.filter_sublist _)

/-- C5, as amended. For every course with at least one valid application, at
least one officer listing the course and a batch size `B` that is a whole
number with `B ≥ 1`, BatchAssignOfficers returns and sets the `assignedOfficer` of the valid
application at index `i` to the officer at index `⌊i / B⌋ mod M` of the
officer list (application ids being pairwise distinct). -/
theorem assignOfficers_round_robin (db : Db) (courseId : ObjectId) (batchSize : Nat)
    (hcourse : (db.findCourseById courseId).isSome = true)
    (hids : (db.applications.map (fun a => a.id)).Nodup)
    (hN : 1 ≤ (db.validApplications courseId).length)
    (hM : 1 ≤ (db.courseOfficers courseId).length)
    (hB : 1 ≤ batchSize) :
    ∃ db1 response, assignOfficers db (.oid courseId) batchSize = some (db1, response) ∧
      response.status = 200 ∧
      ∀ (i : Nat) (application : ApplicationForm), (db.validApplications courseId)[i]? = some application →
        ∃ officer,
          (db.courseOfficers courseId)[(i / batchSize) % (db.courseOfficers courseId).length]? =
            some officer ∧
          (db1.findApplicationById application.id).map (fun a => a.assignedOfficer) =
            some (some officer.id) := by
  obtain ⟨course, hc⟩ := Option.isSome_iff_exists.1 hcourse
  have hnodup : ((db.validApplications courseId).map (fun a => a.id)).Nodup :=
    List.Nodup.sublist ((validApplications_sublist db courseId).map _) hids
  have hN0 : ¬ (db.validApplications courseId).length = 0 := by omega
  have hM0 : ¬ (db.courseOfficers courseId).length = 0 := by omega
  have hdom : ∀ (j : Nat) (a : ApplicationForm), (db.validApplications courseId)[j]? = some a →
      ((db, 0).1.officerOf a.id).isSome = true := by
    intro j a hj
    have hmem : a ∈ db.applications :=
      (validApplications_sublist db courseId).subset (List.mem_iff_getElem?.2 ⟨_, hj⟩)
    simp only [Db.officerOf, Db.findApplicationById, Option.isSome_map']
    rw [List.find?_isSome]
    exact ⟨a, hmem, by simp⟩
  obtain ⟨res, hres, hspec⟩ := distribute_spec (db.validApplications courseId)
    (db.courseOfficers courseId) (Nat.pos_of_ne_zero hM0) batchSize hB hnodup
    ((db.validApplications courseId).length + 1) 0 0 (db, 0) (by simp) (by omega) (by omega)
    hdom (by intro j a hj; omega)
  obtain ⟨db1, totalAssigned⟩ := res
  refine ⟨db1,
    { status := 200,
      message := "Applications distributed successfully among " ++
        toString (db.courseOfficers courseId).length ++ " officers",
      totalAssigned := totalAssigned }, ?_, rfl, hspec⟩
  unfold assignOfficers
  simp only [hc, hN0, if_false, dif_neg hM0, hres]

/-! ## The payment invariant -/

/-- An element of an updated list is an old element or the image of one. -/
theorem mem_updateFirst {α : Type} (p : α → Bool) (f : α → α) (l : List α) (x : α)
    (h : x ∈ updateFirst p f l) : x ∈ l ∨ ∃ a ∈ l, p a = true ∧ x = f a := by
  induction l with
  | nil => simp [updateFirst] at h
  | cons y ys ih =>
    simp only [updateFirst] at h
    by_cases hy : p y = true
    · simp only [hy, if_true, List.mem_cons] at h
      rcases h with h | h
      · exact Or.inr ⟨y, List.mem_cons_self _ _, hy, h⟩
      · exact Or.inl (List.mem_cons_of_mem _ h)
    · simp only [hy, if_false, List.mem_cons, Bool.false_eq_true] at h
      rcases h with h | h
      · exact Or.inl (h ▸ List.mem_cons_self _ _)
      · rcases ih h with h1 | ⟨a, ha, hpa, hx⟩
        · exact Or.inl (List.mem_cons_of_mem _ h1)
        · exact Or.inr ⟨a, List.mem_cons_of_mem _ ha, hpa, hx⟩

/-- A write that keeps every payment and introduces no unpaid verified
application keeps the invariant. -/
theorem VerifiedPaid.of_writes {db db1 : Db} (hinv : VerifiedPaid db)
    (hpay : ∀ p ∈ db.payments, p ∈ db1.payments)
    (happ : ∀ a ∈ db1.applications, a.status = .verified →
      (∃ b ∈ db.applications, b.id = a.id ∧ b.status = .verified) ∨
      ∃ p ∈ db1.payments, p.applicationId = a.id ∧ p.status = .completed) :
    VerifiedPaid db1 := by
  intro a ha hs
  rcases happ a ha hs with ⟨b, hb, hid, hbs⟩ | h
  · obtain ⟨p, hp, hpa, hps⟩ := hinv b hb hbs
    exact ⟨p, hpay p hp, hpa.trans hid, hps⟩
  · exact h

/-- Saving a loaded application keeps the invariant when the saved document
is not verified or has a completed payment. -/
theorem VerifiedPaid.of_saveApplication {db db1 : Db} {doc : ApplicationForm}
    (hinv : VerifiedPaid db) (hsave : db.saveApplication doc = some db1)
    (hdoc : doc.status = .verified →
      ∃ p ∈ db.payments, p.applicationId = doc.id ∧ p.status = .completed) :
    VerifiedPaid db1 := by
  unfold Db.saveApplication at hsave
  split at hsave
  · simp only [Option.some.injEq] at hsave
    subst hsave
    refine hinv.of_writes ?_ ?_
    · exact fun p hp => hp
    intro a ha hs
    rcases mem_updateFirst _ _ _ _ ha with h | ⟨b, _, _, hx⟩
    · exact Or.inl ⟨a, h, rfl, hs⟩
    · subst hx
      exact Or.inr (hdoc hs)
  · cases hsave

/-- Inserting an application that is not verified keeps the invariant. -/
theorem VerifiedPaid.of_insertApplication {db db1 : Db} {doc : ApplicationForm}
    (hinv : VerifiedPaid db) (hsave : db.insertApplication doc = some db1)
    (hdoc : doc.status ≠ .verified) : VerifiedPaid db1 := by
  unfold Db.insertApplication at hsave
  split at hsave
  · simp only [Option.some.injEq] at hsave
    subst hsave
    refine hinv.of_writes ?_ ?_
    · exact fun p hp => hp
    intro a ha hs
    simp only [List.mem_append, List.mem_singleton] at ha
    rcases ha with h | h
    · exact Or.inl ⟨a, h, rfl, hs⟩
    · subst h
      exact absurd hs hdoc
  · cases hsave

/-- Setting an officer keeps the invariant. -/
theorem VerifiedPaid.of_setAssignedOfficer {db : Db} (hinv : VerifiedPaid db)
    (applicationId officerId : ObjectId) :
    VerifiedPaid (db.setAssignedOfficer applicationId officerId) := by
  refine hinv.of_writes ?_ ?_
  · exact fun p hp => hp
  intro a ha hs
  rcases mem_updateFirst _ _ _ _ ha with h | ⟨b, hb, _, hx⟩
  · exact Or.inl ⟨a, h, rfl, hs⟩
  · subst hx
    exact Or.inl ⟨b, hb, rfl, hs⟩

/-- Writing the mirrored fields of a user keeps the invariant. -/
theorem VerifiedPaid.of_saveStudentVerification {db : Db} (hinv : VerifiedPaid db)
    (studentId : ObjectId) (verified : Bool) (verifiedBy : Option ObjectId) :
    VerifiedPaid (db.saveStudentVerification studentId verified verifiedBy) := by
  refine hinv.of_writes ?_ ?_
  · exact fun p hp => hp
  · exact fun a ha hs => Or.inl ⟨a, ha, rfl, hs⟩

/-- SaveDraft keeps the invariant. -/
theorem saveDraft_preserves (db : Db) (req : SaveDraftRequest) (hinv : VerifiedPaid db) :
    VerifiedPaid (saveDraft db req).1 := by
  unfold saveDraft
  by_cases hval : (saveDraftValidation req).isEmpty = true
  · simp only [hval, Bool.not_true, Bool.false_eq_true, if_false]
    repeat' split
    all_goals first
      | exact hinv
      | exact hinv.of_saveApplication ‹_› (by intro h; cases h)
      | exact hinv.of_insertApplication ‹_› (by intro h; cases h)
  · simpa [hval] using hinv

/-- Submit keeps the invariant. -/
theorem submitApplication_preserves (db : Db) (req : SubmitRequest) (hinv : VerifiedPaid db) :
    VerifiedPaid (submitApplication db req).1 := by
  unfold submitApplication
  by_cases hval : (submitValidation req).isEmpty = true
  · simp only [hval, Bool.not_true, Bool.false_eq_true, if_false]
    repeat' split
    all_goals first
      | exact hinv
      | exact hinv.of_saveApplication ‹_› (by intro h; cases h)
      | exact hinv.of_insertApplication ‹_› (by intro h; cases h)
  · simpa [hval] using hinv

/-- AssignOfficer keeps the invariant. -/
theorem assignStudent_preserves (db : Db) (studentId officerId : IdParam)
    (hinv : VerifiedPaid db) : VerifiedPaid (assignStudent db studentId officerId).1 := by
  unfold assignStudent
  repeat' split
  all_goals first
    | exact hinv
    | skip
  refine hinv.of_writes ?_ ?_
  · exact fun p hp => hp
  · intro a ha hs
    rcases mem_updateFirst _ _ _ _ ha with h | ⟨b, hb, _, hx⟩
    · exact Or.inl ⟨a, h, rfl, hs⟩
    · subst hx
      exact Or.inl ⟨b, hb, rfl, hs⟩

/-- The inner loop keeps the invariant. -/
theorem assignBatch_preserves (o : ObjectId) (batch : List ApplicationForm) :
    ∀ acc : Db × Nat, VerifiedPaid acc.1 → VerifiedPaid (assignBatch o batch acc).1 := by
  induction batch with
  | nil => intro acc h; simpa [assignBatch] using h
  | cons b bs ih =>
    intro acc h
    rw [assignBatch_cons]
    exact ih _ (h.of_setAssignedOfficer b.id o)

/-- The distribution loop keeps the invariant. -/
theorem distribute_preserves (V : List ApplicationForm) (O : List User) (hO : 0 < O.length)
    (B : Nat) :
    ∀ (fuel i k : Nat) (acc res : Db × Nat), VerifiedPaid acc.1 →
      distribute V O hO B fuel i k acc = some res → VerifiedPaid res.1 := by
  intro fuel
  induction fuel with
  | zero => intro i k acc res _ h; simp [distribute] at h
  | succ fuel ih =>
    intro i k acc res hinv h
    unfold distribute at h
    by_cases hi : i < V.length
    · simp only [hi, if_true] at h
      exact ih _ _ _ _ (assignBatch_preserves _ _ _ hinv) h
    · simp only [hi, if_false, Option.some.injEq] at h
      exact h ▸ hinv

/-- BatchAssignOfficers keeps the invariant. -/
theorem assignOfficers_preserves (db : Db) (courseId : IdParam) (batchSize : Nat) (db1 : Db)
    (response : Response) (h : assignOfficers db courseId batchSize = some (db1, response))
    (hinv : VerifiedPaid db) : VerifiedPaid db1 := by
  unfold assignOfficers at h
  cases courseId with
  | missing => simp only [Option.some.injEq, Prod.mk.injEq] at h; exact h.1 ▸ hinv
  | malformed => simp only [Option.some.injEq, Prod.mk.injEq] at h; exact h.1 ▸ hinv
  | oid id =>
    simp only at h
    cases hcourse : db.findCourseById id with
    | none =>
      simp only [hcourse, Option.some.injEq, Prod.mk.injEq] at h
      exact h.1 ▸ hinv
    | some course =>
      simp only [hcourse] at h
      split at h
      · simp only [Option.some.injEq, Prod.mk.injEq] at h
        exact h.1 ▸ hinv
      · split at h
        · simp only [Option.some.injEq, Prod.mk.injEq] at h
          exact h.1 ▸ hinv
        · split at h
          · cases h
          · rename_i heq
            simp only [Option.some.injEq, Prod.mk.injEq] at h
            have := distribute_preserves _ _ _ _ _ _ _ _ _ hinv heq
            exact h.1 ▸ this

/-- Decide keeps the id of the loaded application. -/
theorem applyDecision_id (application : ApplicationForm) (userId : ObjectId) (verified : Bool)
    (body : VerifyRequest) : (applyDecision application userId verified body).id = application.id := by
  unfold applyDecision
  cases body.fieldComments <;> rfl

/-- The status written by Decide. -/
theorem applyDecision_status (application : ApplicationForm) (userId : ObjectId)
    (verified : Bool) (body : VerifyRequest) :
    (applyDecision application userId verified body).status =
      if verified then .verified else .rejected := by
  unfold applyDecision
  cases body.fieldComments <;> rfl

/-- SaveComments keeps the id of the loaded application. -/
theorem applyComments_id (application : ApplicationForm) (body : CommentsRequest) :
    (applyComments application body).id = application.id := by
  unfold applyComments
  cases body.fieldComments <;> cases falsy body.comments <;> simp
  all_goals split
  all_goals rfl

/-- SaveComments keeps the status of the loaded application. -/
theorem applyComments_status (application : ApplicationForm) (body : CommentsRequest) :
    (applyComments application body).status = application.status := by
  unfold applyComments
  cases body.fieldComments <;> cases falsy body.comments <;> simp
  all_goals split
  all_goals rfl

/-- The document found by id carries that id. -/
theorem findApplicationById_id {db : Db} {id : ObjectId} {a : ApplicationForm}
    (h : db.findApplicationById id = some a) : a.id = id := by
  have := List.find?_some h
  simpa using this

/-- When the payment test of Decide passes, a completed payment of the
application is stored. -/
theorem completedPayment_of_not_missing {db : Db} {id : ObjectId}
    (h : db.completedPaymentMissing id = false) :
    ∃ p ∈ db.payments, p.applicationId = id ∧ p.status = .completed := by
  unfold Db.completedPaymentMissing at h
  cases hp : db.findPaymentByApplication id with
  | none => simp [hp] at h
  | some p =>
    simp only [hp, ne_eq, decide_not, Bool.not_eq_false', decide_eq_true_eq] at h
    have := List.find?_some hp
    exact ⟨p, List.mem_of_find?_eq_some hp, by simpa using this, h⟩

/-- Decide keeps the invariant. -/
theorem verifyApplication_preserves (db : Db) (user : Identity) (applicationId : IdParam)
    (body : VerifyRequest) (hinv : VerifiedPaid db) :
    VerifiedPaid (verifyApplication db user applicationId body).1 := by
  unfold verifyApplication
  cases body.verified with
  | none => exact hinv
  | some verified =>
    cases applicationId with
    | missing => exact hinv
    | malformed => exact hinv
    | oid id =>
      simp only
      cases happ : db.findApplicationById id with
      | none => exact hinv
      | some application =>
        simp only
        cases db.findUserById application.studentId with
        | none => exact hinv
        | some student =>
          simp only
          split
          · exact hinv
          · split
            · exact hinv
            · rename_i hcond
              cases hsave : db.saveApplication (applyDecision application user.userId verified body) with
              | none => exact hinv
              | some db1 =>
                simp only
                apply VerifiedPaid.of_saveStudentVerification
                refine hinv.of_saveApplication hsave ?_
                intro hstatus
                rw [applyDecision_status] at hstatus
                rw [applyDecision_id, findApplicationById_id happ]
                cases verified with
                | false => simp at hstatus
                | true =>
                  apply completedPayment_of_not_missing
                  simpa using hcond

/-- SaveComments keeps the invariant. -/
theorem saveApplicationComments_preserves (db : Db) (user : Identity) (applicationId : IdParam)
    (body : CommentsRequest) (hinv : VerifiedPaid db) :
    VerifiedPaid (saveApplicationComments db user applicationId body).1 := by
  unfold saveApplicationComments
  cases applicationId with
  | missing => exact hinv
  | malformed => exact hinv
  | oid id =>
    simp only
    cases happ : db.findApplicationById id with
    | none => exact hinv
    | some application =>
      simp only
      split
      · exact hinv
      · cases hsave : db.saveApplication (applyComments application body) with
        | none => exact hinv
        | some db1 =>
          simp only
          refine hinv.of_saveApplication hsave ?_
          intro hstatus
          rw [applyComments_status] at hstatus
          rw [applyComments_id]
          exact hinv application (List.mem_of_find?_eq_some happ) hstatus

/-- Marking comments read keeps the invariant. -/
theorem markCommentsRead_preserves (db : Db) (user : Identity) (applicationId : IdParam)
    (hinv : VerifiedPaid db) : VerifiedPaid (markCommentsRead db user applicationId).1 := by
  unfold markCommentsRead
  cases applicationId with
  | missing => exact hinv
  | malformed => exact hinv
  | oid id =>
    simp only
    cases happ : db.applications.find? (fun a => a.id == id && a.studentId == user.userId) with
    | none => exact hinv
    | some application =>
      simp only
      cases hsave : db.saveApplication { application with commentsRead := true } with
      | none => exact hinv
      | some db1 =>
        simp only
        refine hinv.of_saveApplication hsave ?_
        intro hstatus
        exact hinv application (List.mem_of_find?_eq_some happ) hstatus

/-- Process keeps the invariant. -/
theorem processPayment_preserves (db : Db) (user : Identity) (req : ProcessRequest)
    (hinv : VerifiedPaid db) : VerifiedPaid (processPayment db user req).1 := by
  unfold processPayment
  split
  · exact hinv
  · cases req.applicationId with
    | missing => exact hinv
    | malformed => exact hinv
    | oid id =>
      simp only
      cases db.payments.find? (fun p => p.userId == user.userId && p.applicationId == id) with
      | some _ => exact hinv
      | none =>
        simp only
        cases db.applications.find? (fun a => a.id == id && a.studentId == user.userId) with
        | none => exact hinv
        | some _ =>
          simp only
          cases db.findUserById user.userId with
          | none => exact hinv
          | some u =>
            simp only
            cases req.courseId with
            | missing => exact hinv
            | malformed => exact hinv
            | oid courseId =>
              simp only
              refine hinv.of_writes ?_ ?_
              · intro p hp
                exact List.mem_append_left _ hp
              · intro a ha hs
                exact Or.inl ⟨a, ha, rfl, hs⟩

/-- Every operation call keeps the invariant. -/
theorem Step.preserves {db db1 : Db} (h : Step db db1) (hinv : VerifiedPaid db) :
    VerifiedPaid db1 := by
  cases h with
  | saveDraft req => exact saveDraft_preserves db req hinv
  | submit req => exact submitApplication_preserves db req hinv
  | assignOfficer s o => exact assignStudent_preserves db s o hinv
  | batchAssignOfficers c b _ r hr => exact assignOfficers_preserves db c b db1 r hr hinv
  | verify u i b => exact verifyApplication_preserves db u i b hinv
  | saveComments u i b => exact saveApplicationComments_preserves db u i b hinv
  | markCommentsRead u i => exact markCommentsRead_preserves db u i hinv
  | process u r => exact processPayment_preserves db u r hinv

/-- C2. In every state reached through SaveDraft, Submit, AssignOfficer,
BatchAssignOfficers, Decide, SaveComments, mark-comments-read and payment
Process from a state that satisfies it (in particular from a state without
applications), every verified application has a completed payment recorded
for it. -/
theorem verified_has_completed_payment (db0 db : Db) (hstart : VerifiedPaid db0)
    (hreach : Reachable db0 db) : VerifiedPaid db := by
  induction hreach with
  | start => exact hstart
  | step _ hstep ih => exact hstep.preserves ih

/-! ## Identifier check -/

/-- The identifier check on the text of the value: for every Submit request,
if `formData.aadhaarNumber` is absent, `null` or another falsy value, or if
the text that JavaScript converts it to (the string itself for a string) is
not exactly twelve decimal digits, the request is answered 400 and the
database is unchanged. In particular every string that is not twelve decimal
digits is rejected. -/
theorem submitApplication_rejects_invalid_aadhaar (db : Db) (req : SubmitRequest)
    (h : ∀ formData, req.formData = .object formData →
      formData.aadhaarNumber.falsy = true ∨ ¬ TwelveDigits formData.aadhaarNumber.shown) :
    (submitApplication db req).2.status = 400 ∧ (submitApplication db req).1 = db := by
  have hcheck : submitFormDataCheck req.formData = false := by
    cases hfd : req.formData with
    | invalid => rfl
    | null => rfl
    | nonObject content => rfl
    | object formData =>
      have := aadhaarRejected_of_not_twelve formData.aadhaarNumber (h formData hfd)
      simp [submitFormDataCheck, this]
  have herr : (submitValidation req).isEmpty = false := by
    unfold submitValidation
    rw [hcheck]
    simp
  unfold submitApplication
  simp [herr]

/-! ## Instances -/

/-- Witness of C1: the officer assigned to application 100 tries to verify it
before any payment exists. -/
theorem verifyApplication_requires_completed_payment_witness :
    (verifyApplication assignedDb officerIdentity (.oid 100) ⟨some true, none, none⟩).2.status = 400 ∧
      (verifyApplication assignedDb officerIdentity (.oid 100) ⟨some true, none, none⟩).1 =
        assignedDb :=
  verifyApplication_requires_completed_payment assignedDb officerIdentity 100 assignedApplication
    ⟨some true, none, none⟩ (by decide) (by decide) rfl (Or.inl (by decide))

/-- Witness of C2: the state reached by Submit, AssignOfficer, Process and
Decide holds a verified application and satisfies the invariant. -/
theorem verified_has_completed_payment_witness :
    VerifiedPaid verifiedDb ∧ ∃ a ∈ verifiedDb.applications, a.status = .verified :=
  ⟨verified_has_completed_payment sampleDb verifiedDb (by intro a ha; cases ha)
      (.step
        (.step
          (.step (.step .start (.submit sampleDb sampleSubmit))
            (.assignOfficer submittedDb (.oid 1) (.oid 2)))
          (.process assignedDb studentIdentity sampleProcess))
        (.verify paidDb officerIdentity (.oid 100) ⟨some true, none, none⟩)),
    by decide⟩

/-- Counterexample to C3 as stated: an officer other than the assigned one
receives 400, not 403, when `verified` is not a boolean, and when the
student of the application no longer exists. -/
theorem verifyApplication_other_officer_counterexample :
    (assignedDb.findApplicationById 100 = some assignedApplication ∧
      assignedApplication.assignedOfficer ≠ some otherIdentity.userId ∧
      (verifyApplication assignedDb otherIdentity (.oid 100) ⟨none, some "ok", none⟩).2.status =
        400) ∧
    (orphanDb.findApplicationById 100 = some submittedApplication ∧
      submittedApplication.assignedOfficer ≠ some otherIdentity.userId ∧
      (verifyApplication orphanDb otherIdentity (.oid 100) ⟨some false, none, none⟩).2.status =
        400) := by
  decide

/-- Witness of C3 as amended: the second officer tries to verify the
application assigned to the first. -/
theorem verifyApplication_other_officer_witness :
    (verifyApplication assignedDb otherIdentity (.oid 100) ⟨some true, none, none⟩).1 = assignedDb ∧
      (verifyApplication assignedDb otherIdentity (.oid 100) ⟨some true, none, none⟩).2.status =
        403 :=
  verifyApplication_other_officer assignedDb otherIdentity 100 assignedApplication
    ⟨some true, none, none⟩ (by decide) (by decide)

/-- Witness of C4: the second officer tries to comment on the application
assigned to the first. -/
theorem saveApplicationComments_other_officer_witness :
    (saveApplicationComments assignedDb otherIdentity (.oid 100)
        ⟨some "missing signature", .entries [("document_0", "blurred")]⟩).2.status = 403 ∧
      (saveApplicationComments assignedDb otherIdentity (.oid 100)
        ⟨some "missing signature", .entries [("document_0", "blurred")]⟩).1 = assignedDb :=
  saveApplicationComments_other_officer assignedDb otherIdentity 100 assignedApplication
    ⟨some "missing signature", .entries [("document_0", "blurred")]⟩ (by decide) (by decide)

/-- With a batch size of zero the loop index never advances: no number of
iterations completes the distribution. -/
theorem distribute_zero_batch (V : List ApplicationForm) (O : List User) (hO : 0 < O.length)
    (hV : 0 < V.length) :
    ∀ (fuel k : Nat) (acc : Db × Nat), distribute V O hO 0 fuel 0 k acc = none := by
  intro fuel
  induction fuel with
  | zero => intro k acc; rfl
  | succ fuel ih =>
    intro k acc
    unfold distribute
    simp only [hV, if_true, Nat.add_zero]
    exact ih _ _

/-- For a whole batch size the loop on fractions is the loop on whole
numbers. -/
theorem distributeFrac_whole (V : List ApplicationForm) (O : List User) (hO : 0 < O.length)
    (B : Nat) :
    ∀ (fuel i k : Nat) (acc : Db × Nat),
      distributeFrac V O hO B 1 fuel i k acc = distribute V O hO B fuel i k acc := by
  intro fuel
  induction fuel with
  | zero => intro i k acc; rfl
  | succ fuel ih =>
    intro i k acc
    unfold distributeFrac distribute
    simp only [Nat.mul_one, Nat.div_one, Nat.add_sub_cancel_left, ih]

/-- Counterexample to C5 as stated: with three valid applications, two
officers and batch size 0 the handler never returns, whatever the number of
iterations granted to the loop; and with batch size 1.5 the loop returns with
the application at index 1 assigned to the officer at index 1, while
`floor(1 / 1.5) mod 2` is 0. -/
theorem assignOfficers_round_robin_counterexample :
    (batchDb.validApplications 10).length = 3 ∧ (batchDb.courseOfficers 10).length = 2 ∧
      assignOfficers batchDb (.oid 10) 0 = none ∧
      (∀ fuel : Nat,
        distribute (batchDb.validApplications 10) (batchDb.courseOfficers 10) (by decide) 0 fuel
          0 0 (batchDb, 0) = none) ∧
      ((batchDb.validApplications 10)[1]?).map (fun a => a.id) = some 101 ∧
      (distributeFrac (batchDb.validApplications 10) (batchDb.courseOfficers 10) (by decide) 3 2
          7 0 0 (batchDb, 0)).map (fun r => r.1.officerOf 101) =
        some (some ((batchDb.courseOfficers 10)[1]?.map (fun o => o.id))) ∧
      (1 * 2 / 3) % 2 = 0 ∧
      (batchDb.courseOfficers 10)[0]?.map (fun o => o.id) ≠
        (batchDb.courseOfficers 10)[1]?.map (fun o => o.id) :=
  ⟨by decide, by decide, by decide,
    fun fuel => distribute_zero_batch _ _ _ (by decide) fuel 0 (batchDb, 0),
    by decide, by decide, by decide, by decide⟩

/-- Witness of C5 as amended: three applications, two officers, batches of
two. -/
theorem assignOfficers_round_robin_witness :
    ∃ db1 response, assignOfficers batchDb (.oid 10) 2 = some (db1, response) ∧
      response.status = 200 ∧
      ∀ (i : Nat) (application : ApplicationForm),
        (batchDb.validApplications 10)[i]? = some application →
        ∃ officer,
          (batchDb.courseOfficers 10)[(i / 2) % (batchDb.courseOfficers 10).length]? =
            some officer ∧
          (db1.findApplicationById application.id).map (fun a => a.assignedOfficer) =
            some (some officer.id) :=
  assignOfficers_round_robin batchDb 10 2 (by decide) (by decide) (by decide) (by decide)
    (by decide)

/-- The sample Submit request is valid in every database that holds course
10. -/
theorem sampleSubmit_valid (db : Db) (hcourse : (db.findCourseById 10).isSome = true) :
    ValidSubmit db sampleSubmit 10 1 sampleFormData .UG [sampleDocument] where
  courseId_eq := rfl
  studentId_eq := rfl
  formData_eq := rfl
  educationDetails_parsed := by decide
  programType_eq := rfl
  aadhaar := ⟨rfl, by unfold TwelveDigits; decide⟩
  email := by decide
  course := hcourse
  files := by decide
  count := ⟨_, rfl, rfl⟩
  types := by decide

/-- Witness of C6: the student submits a second time while the first
application is pending. -/
theorem submitApplication_conflict_witness :
    (submitApplication submittedDb sampleSubmit).2.status = 400 ∧
      (submitApplication submittedDb sampleSubmit).1 = submittedDb :=
  submitApplication_conflict submittedDb sampleSubmit 10 1 sampleFormData .UG
    [sampleDocument] submittedApplication (sampleSubmit_valid submittedDb (by decide))
    (by decide) (Or.inl rfl)

/-- Counterexample to C7 as stated: a Submit request with an existing course,
a 12-digit identifier, a valid email and one file for one declared document
is answered 400 and stores nothing when the file is empty, and also when its
`educationDetails` is `null`; and the stored `formData` of an accepted
request is not the submitted one, its `documents` are the descriptors of the
uploaded files. -/
theorem submitApplication_success_counterexample :
    (ValidSubmit sampleDb emptyFileSubmit 10 1 sampleFormData .UG
        [{ sampleDocument with size := 0 }] ∧
      sampleDb.findApplication 1 10 = none ∧
      (submitApplication sampleDb emptyFileSubmit).2.status = 400 ∧
      (submitApplication sampleDb emptyFileSubmit).1.findApplication 1 10 = none) ∧
    (ValidSubmit sampleDb nullEducationSubmit 10 1 sampleFormData .UG [sampleDocument] ∧
      nullEducationSubmit.educationDetails = .null ∧
      (submitApplication sampleDb nullEducationSubmit).2.status = 400 ∧
      (submitApplication sampleDb nullEducationSubmit).1.findApplication 1 10 = none) ∧
    ((submitApplication sampleDb sampleSubmit).1.findApplication 1 10).map
        (fun a => a.formData) ≠ some sampleFormData :=
  ⟨⟨{ courseId_eq := rfl
      studentId_eq := rfl
      formData_eq := rfl
      educationDetails_parsed := by decide
      programType_eq := rfl
      aadhaar := ⟨rfl, by unfold TwelveDigits; decide⟩
      email := by decide
      course := by decide
      files := by decide
      count := ⟨_, rfl, rfl⟩
      types := by decide },
     by decide, by decide, by decide⟩,
    ⟨{ courseId_eq := rfl
       studentId_eq := rfl
       formData_eq := rfl
       educationDetails_parsed := by decide
       programType_eq := rfl
       aadhaar := ⟨rfl, by unfold TwelveDigits; decide⟩
       email := by decide
       course := by decide
       files := by decide
       count := ⟨_, rfl, rfl⟩
       types := by decide },
     rfl, by decide, by decide⟩,
    by decide⟩

/-- Witness of C7 as amended: the first submission of the student. -/
theorem submitApplication_success_witness :
    (submitApplication sampleDb sampleSubmit).2.status = 201 ∧
      ∃ a, (submitApplication sampleDb sampleSubmit).1.findApplication 1 10 = some a ∧
        a.formData = { sampleFormData with documents := some [sampleDocument] } ∧
        a.educationDetails = "school=Central" ∧ a.programType = .UG ∧
        a.status = .pending ∧ a.lastActiveSection = 0 :=
  submitApplication_success sampleDb sampleSubmit 10 1 sampleFormData "school=Central" .UG
    [sampleDocument] (sampleSubmit_valid sampleDb (by decide)) rfl (by decide)
    (Or.inl (by decide))

/-- Counterexample to C8 as stated: for a pair whose application is pending,
SaveDraft answers 404 once the course has been deleted, 500 when a file comes
without a declared document type and 500 when `formData` is `null`; and for a
pair whose application is a draft, SaveDraft with `educationDetails` sent as
`null` is answered 500 and replaces nothing. -/
theorem saveDraft_existing_counterexample :
    ((courseDeletedDb.findApplication 1 10).map (fun a => a.status) = some .pending ∧
      (saveDraft courseDeletedDb sampleDraft).2.status = 404) ∧
    ((submittedDb.findApplication 1 10).map (fun a => a.status) = some .pending ∧
      (saveDraft submittedDb untypedDraft).2.status = 500 ∧
      (saveDraftValidation nullFormDraft).isEmpty = true ∧
      (saveDraft submittedDb nullFormDraft).2.status = 500) ∧
    ((draftDb.findApplication 1 10).map (fun a => a.status) = some .draft ∧
      (saveDraftValidation nullEducationDraft).isEmpty = true ∧
      (saveDraft draftDb nullEducationDraft).2.status = 500 ∧
      (saveDraft draftDb nullEducationDraft).1 = draftDb) := by
  decide

/-- Witness of C8 as amended: the student saves the draft a second time with
a file attached. -/
theorem saveDraft_existing_witness :
    (saveDraft draftDb { sampleDraft with lastActiveSection := some 3, files := [sampleFile] }).2.status
        = 200 ∧
      (saveDraft draftDb
          { sampleDraft with lastActiveSection := some 3, files := [sampleFile] }).1.findApplication
          1 10 =
        some { draftApplication with
          formData := { sampleFormData with documents := some [sampleDocument] },
          educationDetails := "school=Central", programType := .PG, lastActiveSection := 3 } ∧
      ∀ value,
        ({ sampleDraft with lastActiveSection := some 3, files := [sampleFile] } :
          SaveDraftRequest).formData = .object value →
        ∃ documents,
          (if ({ sampleDraft with lastActiveSection := some 3, files := [sampleFile] } :
              SaveDraftRequest).files.length > 0 then
            mapFiles value.documents
              ({ sampleDraft with lastActiveSection := some 3, files := [sampleFile] } :
                SaveDraftRequest).files
          else some []) = some documents ∧
          ({ sampleFormData with documents := some [sampleDocument] } : FormData) =
            { value with documents := some documents } :=
  (saveDraft_existing draftDb { sampleDraft with lastActiveSection := some 3, files := [sampleFile] }
    10 1 draftApplication rfl rfl (by decide)).2 rfl
    { sampleFormData with documents := some [sampleDocument] } "school=Central" .PG 3
    { courseId_eq := rfl
      studentId_eq := rfl
      formData_eq := by decide
      educationDetails_parsed := by decide
      programType_eq := rfl
      lastActiveSection_eq := rfl
      course := by decide }
    rfl

/-- C9, the code at the failing input: the identifier is the array
`["123456789012"]`, which is not a string of twelve decimal digits; the
pattern is tested on the text that the array is converted to, both checks
pass, the request is answered 201 and the application is stored with the
array as its identifier. -/
theorem submitApplication_accepts_array_aadhaar :
    (∀ s, JsonField.strs ["123456789012"] ≠ .str s) ∧
      aadhaarRejected (.strs ["123456789012"]) = false ∧
      (submitApplication sampleDb arrayAadhaarSubmit).2.status = 201 ∧
      ((submitApplication sampleDb arrayAadhaarSubmit).1.findApplication 1 10).map
        (fun a => (a.status, a.formData.aadhaarNumber)) =
        some (.pending, .strs ["123456789012"]) :=
  ⟨(fun s h => by cases h), by decide, by decide, by decide⟩

/-- Instance of the identifier check: an eleven-digit string. -/
theorem submitApplication_rejects_invalid_aadhaar_witness :
    (submitApplication sampleDb shortAadhaarSubmit).2.status = 400 ∧
      (submitApplication sampleDb shortAadhaarSubmit).1 = sampleDb :=
  submitApplication_rejects_invalid_aadhaar sampleDb shortAadhaarSubmit (by
    intro formData hfd
    cases hfd
    right
    unfold TwelveDigits
    decide)

/-- C10, the code at the failing input: an email field holding a sentence
that merely contains `a@b.c` passes both email checks, the request is
answered 201 and the application is stored with that value. -/
theorem submitApplication_accepts_embedded_email :
    emailRejected (.str "write to a@b.c today") = false ∧
      (submitApplication sampleDb looseEmailSubmit).2.status = 201 ∧
      ((submitApplication sampleDb looseEmailSubmit).1.findApplication 1 10).map
        (fun a => (a.status, a.formData.email)) =
        some (.pending, .str "write to a@b.c today") := by
  decide

/-! ## File checks of Submit and SaveDraft -/

/-- A request that passes the validator chain of Submit carries parsed
payloads that pass the identifier and email checks. -/
theorem submitValidation_passed {req : SubmitRequest}
    (h : (submitValidation req).isEmpty = true) :
    ∃ fd pt, req.formData = .object fd ∧ req.educationDetails ≠ .invalid ∧
      req.programType = some pt ∧ aadhaarRejected fd.aadhaarNumber = false ∧
      emailRejected fd.email = false ∧ req.courseId ≠ .missing ∧ req.studentId ≠ .missing := by
  unfold submitValidation at h
  simp only [List.isEmpty_iff, List.append_eq_nil] at h
  obtain ⟨⟨⟨⟨h1, h2⟩, h3⟩, h4⟩, h5⟩ := h
  have hc : req.courseId ≠ .missing := by
    intro hc; simp [hc] at h1
  have hs : req.studentId ≠ .missing := by
    intro hs; simp [hs] at h2
  have hcheck : submitFormDataCheck req.formData = true := by
    by_contra hn; simp [hn] at h3
  have hed : req.educationDetails ≠ .invalid := by
    intro hed; simp [hed] at h4
  cases hfd : req.formData with
  | invalid => simp [hfd, submitFormDataCheck] at hcheck
  | null => simp [hfd, submitFormDataCheck] at hcheck
  | nonObject content => simp [hfd, submitFormDataCheck] at hcheck
  | object fd =>
    cases hpt : req.programType with
    | none => simp [hpt] at h5
    | some pt =>
      refine ⟨fd, pt, rfl, hed, rfl, ?_, ?_, hc, hs⟩
      · by_contra hn
        simp [hfd, submitFormDataCheck, hn] at hcheck
      · by_contra hn
        simp [hfd, submitFormDataCheck, hn] at hcheck

/-- C11, as amended. For every Submit request that passes field validation
and names an existing course, the request succeeds only if at least one file
is attached, `formData.documents` is an array and the number of files equals
its length; otherwise it is answered 400 and the database is unchanged. -/
theorem submitApplication_file_checks (db : Db) (req : SubmitRequest) (courseId : ObjectId)
    (formData : FormData)
    (hvalid : (submitValidation req).isEmpty = true)
    (hfd : req.formData = .object formData)
    (hc : req.courseId = .oid courseId)
    (hcourse : (db.findCourseById courseId).isSome = true) :
    ((submitApplication db req).2.status = 201 →
      1 ≤ req.files.length ∧
      ∃ declared, formData.documents = some declared ∧ req.files.length = declared.length) ∧
    (¬ (1 ≤ req.files.length ∧
        ∃ declared, formData.documents = some declared ∧ req.files.length = declared.length) →
      (submitApplication db req).2.status = 400 ∧ (submitApplication db req).1 = db) := by
  obtain ⟨fd, pt, hfd2, _, hpt, ha, he, _, _⟩ := submitValidation_passed hvalid
  rw [hfd] at hfd2
  cases hfd2
  obtain ⟨course, hcourse⟩ := Option.isSome_iff_exists.1 hcourse
  have hbad : ¬ (1 ≤ req.files.length ∧
        ∃ declared, formData.documents = some declared ∧ req.files.length = declared.length) →
      (submitApplication db req).2.status = 400 ∧ (submitApplication db req).1 = db := by
    intro hnot
    unfold submitApplication
    simp only [hvalid, Bool.not_true, Bool.false_eq_true, if_false, hfd, hpt, ha, he, hc,
      hcourse]
    by_cases h0 : req.files.length = 0
    · simp [h0, reply]
    · simp only [h0, if_false]
      cases hdocs : formData.documents with
      | none => simp [reply]
      | some declared =>
        simp only
        by_cases hlen : req.files.length = declared.length
        · exact absurd ⟨by omega, declared, hdocs, hlen⟩ hnot
        · simp [hlen, reply]
  refine ⟨?_, hbad⟩
  intro hok
  by_contra hnot
  have := (hbad hnot).1
  rw [hok] at this
  cases this

/-- Counterexample to C11 as stated: a request that passes field validation
without any file is answered 404, not 400, when its course does not exist. -/
theorem submitApplication_file_checks_counterexample :
    (submitValidation { sampleSubmit with courseId := .oid 11, files := [] }).isEmpty = true ∧
      ({ sampleSubmit with courseId := .oid 11, files := [] } : SubmitRequest).files.length = 0 ∧
      (submitApplication sampleDb { sampleSubmit with courseId := .oid 11, files := [] }).2.status =
        404 := by
  decide

/-- Witness of C11 as amended: a valid request without files for the
existing course. -/
theorem submitApplication_file_checks_witness :
    (submitApplication sampleDb { sampleSubmit with files := [] }).2.status = 400 ∧
      (submitApplication sampleDb { sampleSubmit with files := [] }).1 = sampleDb :=
  (submitApplication_file_checks sampleDb { sampleSubmit with files := [] } 10 sampleFormData
    (by decide) rfl rfl (by decide)).2 (fun h => absurd h.1 (by decide))

/-- The descriptor callback throws exactly when no typed document is declared
at the index. -/
theorem describeFile_eq_none (declared : Option (List Document)) (index : Nat)
    (file : UploadedFile) :
    describeFile declared index file = none ↔ hasDeclaredType declared index = false := by
  unfold describeFile hasDeclaredType
  cases declared with
  | none => simp
  | some documents =>
    simp only
    cases documents[index]? with
    | none => simp
    | some d =>
      simp only
      by_cases ht : d.type = ""
      · simp [ht]
      · simp [ht]

/-- The mapping of the files throws when some file has no typed document
declared at its index. -/
theorem mapFilesFrom_eq_none (declared : Option (List Document)) (files : List UploadedFile) :
    ∀ (start i : Nat), i < files.length → hasDeclaredType declared (start + i) = false →
      mapFilesFrom declared start files = none := by
  induction files with
  | nil => intro start i hi; simp at hi
  | cons file files ih =>
    intro start i hi hmissing
    simp only [mapFilesFrom]
    cases i with
    | zero =>
      have := (describeFile_eq_none declared start file).2 (by simpa using hmissing)
      simp [this]
    | succ i =>
      have hrest := ih (start + 1) i (by simpa using hi)
        (by rw [Nat.add_assoc, Nat.add_comm 1 i]; exact hmissing)
      cases describeFile declared start file with
      | none => rfl
      | some d => simp [hrest]

/-- C12, as amended. For every SaveDraft request with at least one attached
file, if for some index below the number of files `formData.documents` has no
entry or an entry without type, the request does not succeed and the database
is unchanged; when the request passes the validator chain and its course
exists, the answer is 500. -/
theorem saveDraft_missing_type (db : Db) (req : SaveDraftRequest)
    (hfiles : 1 ≤ req.files.length)
    (hmissing : ∀ formData, req.formData = .object formData →
      ∃ i, i < req.files.length ∧ hasDeclaredType formData.documents i = false) :
    (saveDraft db req).1 = db ∧ (saveDraft db req).2.status ≠ 200 ∧
      ((saveDraftValidation req).isEmpty = true →
        ∀ courseId, req.courseId = .oid courseId → (db.findCourseById courseId).isSome = true →
          (saveDraft db req).2.status = 500) := by
  have hpos : req.files.length > 0 := by omega
  have hm : draftFormData req.formData req.files = none := by
    unfold draftFormData
    cases hfd : req.formData with
    | invalid => rfl
    | null => rfl
    | nonObject content => simp [hpos]
    | object formData =>
      obtain ⟨i, hi, hmiss⟩ := hmissing formData hfd
      have hmap : mapFiles formData.documents req.files = none :=
        mapFilesFrom_eq_none _ _ 0 i hi (by simpa using hmiss)
      simp [hpos, hmap]
  unfold saveDraft
  by_cases hval : (saveDraftValidation req).isEmpty = true
  · simp only [hval, Bool.not_true, Bool.false_eq_true, if_false]
    cases req.programType <;> cases req.lastActiveSection <;> try (simp [reply])
    cases hc : req.courseId with
    | missing => simp [reply]
    | malformed => simp [reply]
    | oid courseId =>
      simp only
      cases hcourse : db.findCourseById courseId with
      | none => simp [reply, hcourse]
      | some course => simp [hm, reply]
  · simp [hval]

/-- Counterexample to C12 as stated: a draft with one file and no declared
document is answered 500, not 400. -/
theorem saveDraft_missing_type_counterexample :
    untypedDraft.files.length = 1 ∧
      (∀ formData, untypedDraft.formData = .object formData →
        hasDeclaredType formData.documents 0 = false) ∧
      (saveDraft sampleDb untypedDraft).2.status = 500 := by
  refine ⟨by decide, ?_, by decide⟩
  intro formData h
  cases h
  decide

/-- Witness of C12 as amended: the same draft. -/
theorem saveDraft_missing_type_witness :
    (saveDraft sampleDb untypedDraft).1 = sampleDb ∧
      (saveDraft sampleDb untypedDraft).2.status ≠ 200 ∧
      (saveDraft sampleDb untypedDraft).2.status = 500 :=
  have h := saveDraft_missing_type sampleDb untypedDraft (by decide)
    (by intro formData hfd; cases hfd; exact ⟨0, by decide, by decide⟩)
  ⟨h.1, h.2.1, h.2.2 (by decide) 10 rfl (by decide)⟩

/-! ## The middleware -/

/-- C13. For every request whose Authorization header is absent or does not
start with `Bearer `, or whose token fails verification, `auth` answers 401
and neither sets `req.user` nor calls the next handler. -/
theorem auth_rejects (jwt : Jwt) (envSecret : Option String) (now : Nat)
    (authorization : Option String)
    (h : authorization = none ∨
      (∃ authHeader, authorization = some authHeader ∧ startsWith authHeader "Bearer " = false) ∨
      (∃ authHeader, authorization = some authHeader ∧
        jwt.verify (bearerToken authHeader) envSecret now = none)) :
    ∃ response, auth jwt envSecret now authorization = .respond response ∧
      response.status = 401 := by
  unfold auth
  rcases h with h | ⟨authHeader, h, hstart⟩ | ⟨authHeader, h, hverify⟩
  · subst h
    exact ⟨_, rfl, rfl⟩
  · subst h
    simp only [hstart, Bool.not_false, Bool.or_true, if_true]
    exact ⟨_, rfl, rfl⟩
  · subst h
    simp only [hverify]
    split
    · exact ⟨_, rfl, rfl⟩
    · exact ⟨_, rfl, rfl⟩

/-- Witness of C13: a header with another scheme. -/
theorem auth_rejects_witness :
    ∃ response, auth sampleJwt (some "s3cret") 0 (some "Basic dXNlcjpwYXNz") = .respond response ∧
      response.status = 401 :=
  auth_rejects sampleJwt (some "s3cret") 0 (some "Basic dXNlcjpwYXNz")
    (Or.inr (Or.inl ⟨_, rfl, by decide⟩))

/-- C14. For every list of allowed roles and every request, `authorize(roles)`
calls the next handler if and only if `req.user` is present and its role is a
member of `roles`; otherwise it answers 403 and does not call the next
handler. -/
theorem authorize_iff (roles : List Role) (user : Option Identity) :
    (authorize roles user = .next () ↔ ∃ u, user = some u ∧ u.role ∈ roles) ∧
    ((¬ ∃ u, user = some u ∧ u.role ∈ roles) →
      ∃ response, authorize roles user = .respond response ∧ response.status = 403) := by
  unfold authorize
  cases user with
  | none => simp [reply]
  | some u =>
    by_cases hmem : u.role ∈ roles
    · simp [hmem]
    · simp [hmem, reply]

/-- A string without the separator is a single piece. -/
theorem splitOnChar_of_not_mem (sep : Char) (cs : List Char) (h : sep ∉ cs) :
    splitOnChar sep cs = [cs] := by
  induction cs with
  | nil => rfl
  | cons c cs ih =>
    have hc : c ≠ sep := fun hc => h (hc ▸ List.mem_cons_self _ _)
    have hcs : sep ∉ cs := fun hm => h (List.mem_cons_of_mem _ hm)
    simp [splitOnChar, hc, ih hcs]

/-- The token of the header `Bearer <token>` is the token. -/
theorem bearerToken_bearer (token : String) (h : ' ' ∉ token.toList) :
    bearerToken ("Bearer " ++ token) = token := by
  unfold bearerToken
  have hlist : ("Bearer " ++ token).toList = 'B' :: 'e' :: 'a' :: 'r' :: 'e' :: 'r' :: ' ' :: token.toList := by
    simp [String.toList, String.data_append]
  have hsplit : splitOnChar ' ' token.data = [token.data] :=
    splitOnChar_of_not_mem ' ' token.data h
  rw [hlist]
  simp [splitOnChar, hsplit]

/-- The header `Bearer <token>` passes the two header tests. -/
theorem startsWith_bearer (token : String) :
    ("Bearer " ++ token == "") = false ∧ startsWith ("Bearer " ++ token) "Bearer " = true := by
  have hlist : ("Bearer " ++ token).toList = 'B' :: 'e' :: 'a' :: 'r' :: 'e' :: 'r' :: ' ' :: token.toList := by
    simp [String.toList, String.data_append]
  constructor
  · have hne : "Bearer " ++ token ≠ "" := by
      intro h
      have := congrArg String.toList h
      rw [hlist] at this
      simp at this
    simpa using hne
  · unfold startsWith
    rw [hlist]
    simp [List.isPrefixOf]

/-- C15, the code at the failing input: when `JWT_SECRET` is not set (or is
empty) in the environment, the token issued by login or register for any
user, presented as `Bearer <token>` at any time, is answered 401 by `auth`. -/
theorem auth_rejects_issued_token_without_secret (jwt : Jwt) (user : User)
    (issuedAt now : Nat) :
    auth jwt none now (some ("Bearer " ++ issueToken jwt none user issuedAt)) =
        .respond (reply 401 "Invalid Token") ∧
      auth jwt (some "") now (some ("Bearer " ++ issueToken jwt (some "") user issuedAt)) =
        .respond (reply 401 "Invalid Token") := by
  have key : ∀ envSecret : Option String, falsy envSecret = true →
      auth jwt envSecret now (some ("Bearer " ++ issueToken jwt envSecret user issuedAt)) =
        .respond (reply 401 "Invalid Token") := by
    intro envSecret hfalsy
    have hs := startsWith_bearer (issueToken jwt envSecret user issuedAt)
    have htoken := bearerToken_bearer (issueToken jwt envSecret user issuedAt)
      (jwt.sign_no_space _ _ _)
    unfold auth
    simp only [hs.1, hs.2, Bool.not_true, Bool.or_self, Bool.false_eq_true, if_false, htoken]
    have := jwt.key_required { userId := user.id, email := user.email, role := user.role }
      (signingSecret envSecret) issuedAt now envSecret hfalsy
    unfold issueToken
    rw [this]
  exact ⟨key none rfl, key (some "") rfl⟩

/-! ## Notifications -/

/-- The notification object has a field comment exactly when some stored
field comment has text. -/
theorem fieldCommentsObj_length_pos (app : ApplicationForm) :
    decide ((fieldCommentsObj app).length > 0) = app.fieldComments.any (fun kv => kv.2 != "") := by
  unfold fieldCommentsObj
  induction app.fieldComments with
  | nil => rfl
  | cons kv kvs ih =>
    by_cases h : kv.2 = ""
    · simp only [List.filterMap_cons, h, beq_self_eq_true, if_true, List.any_cons, bne_self_eq_false,
        Bool.false_or]
      exact ih
    · have hb : (kv.2 == "") = false := by simpa using h
      simp [List.filterMap_cons, hb, h]

/-- The callback of the projection returns an object exactly for the
applications with comments. -/
theorem notificationOf_eq (db : Db) (updatedAt : ObjectId → Nat) (app : ApplicationForm) :
    notificationOf db updatedAt app =
      if hasComments app then some (buildNotification db updatedAt app) else none := by
  unfold notificationOf hasComments
  rw [← fieldCommentsObj_length_pos, Bool.or_comm]

/-- The query of the handler selects every application with comments. -/
theorem query_of_hasComments (app : ApplicationForm) (h : hasComments app = true) :
    (app.formData.verificationComments != some "" || app.fieldComments != []) = true := by
  unfold hasComments at h
  simp only [Bool.or_eq_true, List.any_eq_true, bne_iff_ne, ne_eq, Bool.not_eq_true',
    Prod.exists] at h ⊢
  rcases h with ⟨k, v, hmem, _⟩ | h
  · right
    intro hnil
    rw [hnil] at hmem
    cases hmem
  · left
    intro hc
    rw [hc] at h
    simp [falsy] at h

/-- The projection over a list of applications. -/
theorem notifications_eq (db : Db) (updatedAt : ObjectId → Nat) (userId : ObjectId)
    (l : List ApplicationForm) :
    (l.filter (fun a => a.studentId == userId &&
        (a.formData.verificationComments != some "" || a.fieldComments != []))).filterMap
        (notificationOf db updatedAt) =
      (l.filter (fun a => a.studentId == userId && hasComments a)).map
        (buildNotification db updatedAt) := by
  induction l with
  | nil => rfl
  | cons a l ih =>
    by_cases hs : a.studentId = userId
    · by_cases hc : hasComments a = true
      · have hq := query_of_hasComments a hc
        simp only [List.filter_cons, hs, beq_self_eq_true, Bool.true_and, hq, if_true, hc,
          List.filterMap_cons, notificationOf_eq, List.map_cons]
        simp only [Bool.true_and, hs, beq_self_eq_true] at ih
        rw [← ih]
      · have hc2 : hasComments a = false := by simpa using hc
        simp only [List.filter_cons, hs, beq_self_eq_true, Bool.true_and, hc2,
          Bool.false_eq_true, if_false]
        simp only [Bool.true_and, hs, beq_self_eq_true] at ih
        split
        · simp only [List.filterMap_cons, notificationOf_eq, hc2, Bool.false_eq_true, if_false]
          exact ih
        · exact ih
    · have hb : (a.studentId == userId) = false := by simpa using hs
      simp only [List.filter_cons, hb, Bool.false_and, Bool.false_eq_true, if_false]
      exact ih

/-- Whether an application has comments can be read off its notification. -/
theorem hasComments_of_notification (db : Db) (updatedAt : ObjectId → Nat)
    (a : ApplicationForm) :
    hasComments a =
      ((buildNotification db updatedAt a).fieldComments.length > 0 ||
        (buildNotification db updatedAt a).generalComment != "") := by
  unfold hasComments
  rw [← fieldCommentsObj_length_pos]
  simp only [buildNotification]
  cases hv : a.formData.verificationComments with
  | none => simp [falsy]
  | some s =>
    by_cases hs : s = ""
    · simp [falsy, hs]
    · have hb : (s == "") = false := by simpa using hs
      simp [falsy, hs, hb, bne]

/-- C16, as amended. For every student, the notification list is the list of
the notifications of the student's applications, in stored order, that have a
field comment with text or a general verification comment; an application of
the student has its notification in the list if and only if it has such a
comment; and each notification carries the id of the application, the title
of its course, the name of the deciding officer, the general comment, the
field comments with text, `read = commentsRead` and the stored `updatedAt`;
the unread count is the number of notifications with `read = false`. -/
theorem studentNotifications_spec (db : Db) (updatedAt : ObjectId → Nat) (user : Identity) :
    (studentNotifications db updatedAt user).notifications =
        (db.applications.filter (fun a => a.studentId == user.userId && hasComments a)).map
          (buildNotification db updatedAt) ∧
      (∀ a ∈ db.applications, a.studentId = user.userId →
        (buildNotification db updatedAt a ∈ (studentNotifications db updatedAt user).notifications ↔
          hasComments a = true)) ∧
      (∀ a : ApplicationForm,
        (buildNotification db updatedAt a).applicationId = a.id ∧
        (buildNotification db updatedAt a).courseTitle =
          (match db.findCourseById a.courseId with
           | some course => if course.title == "" then "Unknown Course" else course.title
           | none => "Unknown Course") ∧
        (buildNotification db updatedAt a).officerName =
          (match a.verifiedBy.bind db.findUserById with
           | some officer => if officer.name == "" then "Verification Officer" else officer.name
           | none => "Verification Officer") ∧
        (buildNotification db updatedAt a).generalComment =
          (if falsy a.formData.verificationComments then ""
           else a.formData.verificationComments.getD "") ∧
        (buildNotification db updatedAt a).fieldComments = fieldCommentsObj a ∧
        (buildNotification db updatedAt a).read = a.commentsRead ∧
        (buildNotification db updatedAt a).updatedAt = updatedAt a.id) ∧
      (studentNotifications db updatedAt user).unreadCount =
        ((studentNotifications db updatedAt user).notifications.filter
          (fun n => n.read = false)).length := by
  have hlist : (studentNotifications db updatedAt user).notifications =
      (db.applications.filter (fun a => a.studentId == user.userId && hasComments a)).map
        (buildNotification db updatedAt) := by
    unfold studentNotifications
    exact notifications_eq db updatedAt user.userId db.applications
  refine ⟨hlist, ?_, ?_, ?_⟩
  · intro a ha hs
    rw [hlist]
    constructor
    · intro hmem
      obtain ⟨b, hb, heq⟩ := List.mem_map.1 hmem
      have hcb : hasComments b = true := by
        have := (List.mem_filter.1 hb).2
        simp only [Bool.and_eq_true] at this
        exact this.2
      rw [hasComments_of_notification db updatedAt a, ← heq,
        ← hasComments_of_notification db updatedAt b]
      exact hcb
    · intro hc
      apply List.mem_map_of_mem
      rw [List.mem_filter]
      exact ⟨ha, by simp [hs, hc]⟩
  · intro a
    exact ⟨rfl, rfl, rfl, rfl, rfl, rfl, rfl⟩
  · unfold studentNotifications
    simp

/-! ## Marking comments read -/

/-- The first document with an id, when owned by the caller, is the first
document with that id and owner. -/
theorem find_owned_of_find (id userId : ObjectId) (a : ApplicationForm)
    (l : List ApplicationForm) (hfind : l.find? (fun b => b.id == id) = some a)
    (howner : a.studentId = userId) :
    l.find? (fun b => b.id == id && b.studentId == userId) = some a := by
  induction l with
  | nil => simp at hfind
  | cons x xs ih =>
    by_cases hx : x.id = id
    · have hxa : x = a := by simpa [List.find?_cons, hx] using hfind
      subst hxa
      simp [List.find?_cons, hx, howner]
    · have hb : (x.id == id) = false := by simpa using hx
      simp only [List.find?_cons, hb, Bool.false_and] at hfind ⊢
      exact ih hfind

/-- Replacing the first match by a constant that matches is idempotent. -/
theorem updateFirst_const_idem {α : Type} (q : α → Bool) (y : α) (hq : q y = true)
    (l : List α) :
    updateFirst q (fun _ => y) (updateFirst q (fun _ => y) l) = updateFirst q (fun _ => y) l := by
  induction l with
  | nil => rfl
  | cons x xs ih =>
    by_cases hx : q x = true
    · simp [updateFirst, hx, hq]
    · simp [updateFirst, hx, ih]

/-- The handler on an application that its query finds and that passes the
schema validator. -/
theorem markCommentsRead_found {db : Db} {user : Identity} {id : ObjectId}
    {a : ApplicationForm}
    (hfind : db.applications.find? (fun b => b.id == id && b.studentId == user.userId) = some a)
    (hvalid : formDataValidator a.status a.formData = true) :
    markCommentsRead db user (.oid id) =
      ({ db with
          applications := updateFirst (fun b => b.id == a.id)
            (fun _ => { a with commentsRead := true }) db.applications },
        reply 200 "Comments marked as read") := by
  unfold markCommentsRead
  simp only [hfind, Db.saveApplication, hvalid, if_true]

/-- C17. For every application and its owning student, marking comments read
twice in succession succeeds both times, the state after the second call is
the state after the first, and the application then has `commentsRead = true`
(the stored application passing the validator of its schema, as every
application saved by the handlers does). -/
theorem markCommentsRead_idempotent (db : Db) (user : Identity) (id : ObjectId)
    (a : ApplicationForm)
    (hfind : db.findApplicationById id = some a)
    (howner : a.studentId = user.userId)
    (hvalid : formDataValidator a.status a.formData = true) :
    (markCommentsRead db user (.oid id)).2.status = 200 ∧
      (markCommentsRead (markCommentsRead db user (.oid id)).1 user (.oid id)).2.status = 200 ∧
      (markCommentsRead (markCommentsRead db user (.oid id)).1 user (.oid id)).1 =
        (markCommentsRead db user (.oid id)).1 ∧
      (markCommentsRead db user (.oid id)).1.findApplicationById id =
        some { a with commentsRead := true } := by
  have hid : a.id = id := findApplicationById_id hfind
  have hq := find_owned_of_find id user.userId a db.applications hfind howner
  have h1 := markCommentsRead_found hq hvalid
  have hq2 : (markCommentsRead db user (.oid id)).1.applications.find?
      (fun b => b.id == id && b.studentId == user.userId) = some { a with commentsRead := true } := by
    rw [h1]
    exact find_updateFirst_const _ _ a _ _ hq (by simp) (by simp [hid, howner])
  have h2 := markCommentsRead_found (a := { a with commentsRead := true }) hq2 hvalid
  refine ⟨by rw [h1]; rfl, by rw [h2]; rfl, ?_, ?_⟩
  · rw [h2]
    rw [h1]
    simp only
    rw [updateFirst_const_idem _ _ (by simp)]
  · rw [h1]
    unfold Db.findApplicationById at hfind ⊢
    exact find_updateFirst_const _ _ a _ _ hfind (by simp) (by simp [hid])

/-- An update of the first match keeps the length of the collection. -/
theorem length_updateFirst {α : Type} (p : α → Bool) (f : α → α) (l : List α) :
    (updateFirst p f l).length = l.length := by
  induction l with
  | nil => rfl
  | cons x xs ih =>
    by_cases hx : p x = true
    · simp [updateFirst, hx]
    · simp [updateFirst, hx, ih]

/-- An update of the first match leaves each position unchanged or holds the
image of a matching element there. -/
theorem getElem_updateFirst {α : Type} (p : α → Bool) (f : α → α) (l : List α) :
    ∀ (i : Nat) (b : α), l[i]? = some b →
      ∃ b1, (updateFirst p f l)[i]? = some b1 ∧ (b1 = b ∨ (p b = true ∧ b1 = f b)) := by
  induction l with
  | nil => intro i b h; simp at h
  | cons x xs ih =>
    intro i b h
    by_cases hx : p x = true
    · cases i with
      | zero =>
        simp only [List.getElem?_cons_zero, Option.some.injEq] at h
        subst h
        exact ⟨f x, by simp [updateFirst, hx], Or.inr ⟨hx, rfl⟩⟩
      | succ i =>
        simp only [List.getElem?_cons_succ] at h
        exact ⟨b, by simp [updateFirst, hx, h], Or.inl rfl⟩
    · cases i with
      | zero =>
        simp only [List.getElem?_cons_zero, Option.some.injEq] at h
        subst h
        exact ⟨x, by simp [updateFirst, hx], Or.inl rfl⟩
      | succ i =>
        simp only [List.getElem?_cons_succ] at h
        obtain ⟨b1, h1, h2⟩ := ih i b h
        exact ⟨b1, by simp [updateFirst, hx, h1], h2⟩

/-- C18. Marking comments read, called by student `s` on application id `a`,
leaves users, courses and payments as they are and every application in
place, unchanged or, for the application with that id when `s` owns it, with
only `commentsRead` set; when no application with that id is owned by `s`
(it belongs to another student or does not exist) the call is answered 404 and
the database is unchanged. -/
theorem markCommentsRead_frame (db : Db) (user : Identity) (id : ObjectId)
    (hids : (db.applications.map (fun a => a.id)).Nodup) :
    ((markCommentsRead db user (.oid id)).1.users = db.users ∧
      (markCommentsRead db user (.oid id)).1.courses = db.courses ∧
      (markCommentsRead db user (.oid id)).1.payments = db.payments ∧
      (markCommentsRead db user (.oid id)).1.nextId = db.nextId ∧
      (markCommentsRead db user (.oid id)).1.applications.length = db.applications.length ∧
      ∀ (i : Nat) (b : ApplicationForm), db.applications[i]? = some b →
        ∃ b1, (markCommentsRead db user (.oid id)).1.applications[i]? = some b1 ∧
          (b1 = b ∨
            (b.id = id ∧ b.studentId = user.userId ∧ b1 = { b with commentsRead := true }))) ∧
    ((∀ b ∈ db.applications, b.id = id → b.studentId ≠ user.userId) →
      (markCommentsRead db user (.oid id)).2.status = 404 ∧
        (markCommentsRead db user (.oid id)).1 = db) := by
  unfold markCommentsRead
  simp only
  cases hfind : db.applications.find? (fun a => a.id == id && a.studentId == user.userId) with
  | none =>
    refine ⟨⟨rfl, rfl, rfl, rfl, rfl, fun i b h => ⟨b, h, Or.inl rfl⟩⟩, fun _ => ⟨rfl, rfl⟩⟩
  | some a =>
    have hmem := List.mem_of_find?_eq_some hfind
    have hpa := List.find?_some hfind
    simp only [Bool.and_eq_true, beq_iff_eq] at hpa
    simp only
    constructor
    · cases hsave : db.saveApplication { a with commentsRead := true } with
      | none => exact ⟨rfl, rfl, rfl, rfl, rfl, fun i b h => ⟨b, h, Or.inl rfl⟩⟩
      | some db1 =>
        unfold Db.saveApplication at hsave
        split at hsave
        · simp only [Option.some.injEq] at hsave
          subst hsave
          refine ⟨rfl, rfl, rfl, rfl, length_updateFirst _ _ _, ?_⟩
          intro i b hb
          obtain ⟨b1, h1, h2⟩ := getElem_updateFirst (fun x => x.id == a.id)
            (fun _ => { a with commentsRead := true }) db.applications i b hb
          refine ⟨b1, h1, ?_⟩
          rcases h2 with h2 | ⟨hq, h2⟩
          · exact Or.inl h2
          · have hbmem : b ∈ db.applications := List.mem_iff_getElem?.2 ⟨i, hb⟩
            have hba : b = a :=
              List.inj_on_of_nodup_map hids hbmem hmem (by simpa using hq)
            subst hba
            exact Or.inr ⟨hpa.1, hpa.2, h2⟩
        · cases hsave
    · intro hnone
      exact absurd hpa.2 (hnone a hmem hpa.1)

/-- Witness of C18: the student marks the comments of the assigned
application read. -/
theorem markCommentsRead_frame_witness :
    ((markCommentsRead assignedDb studentIdentity (.oid 100)).1.users = assignedDb.users ∧
      (markCommentsRead assignedDb studentIdentity (.oid 100)).1.courses = assignedDb.courses ∧
      (markCommentsRead assignedDb studentIdentity (.oid 100)).1.payments = assignedDb.payments ∧
      (markCommentsRead assignedDb studentIdentity (.oid 100)).1.nextId = assignedDb.nextId ∧
      (markCommentsRead assignedDb studentIdentity (.oid 100)).1.applications.length =
        assignedDb.applications.length ∧
      ∀ (i : Nat) (b : ApplicationForm), assignedDb.applications[i]? = some b →
        ∃ b1, (markCommentsRead assignedDb studentIdentity (.oid 100)).1.applications[i]? =
            some b1 ∧
          (b1 = b ∨
            (b.id = 100 ∧ b.studentId = studentIdentity.userId ∧
              b1 = { b with commentsRead := true }))) ∧
    ((∀ b ∈ assignedDb.applications, b.id = 100 → b.studentId ≠ studentIdentity.userId) →
      (markCommentsRead assignedDb studentIdentity (.oid 100)).2.status = 404 ∧
        (markCommentsRead assignedDb studentIdentity (.oid 100)).1 = assignedDb) :=
  markCommentsRead_frame assignedDb studentIdentity 100 (by decide)

/-! ## Stored applications pass the schema validator -/

/-- A write keeps the documents valid when every document it stores is an
old one, up to fields the validator does not read, or a valid one. -/
theorem SchemaValid.from_writes {db db1 : Db} (hinv : SchemaValid db)
    (happ : ∀ a ∈ db1.applications,
      (∃ b ∈ db.applications, a.status = b.status ∧ a.formData = b.formData) ∨
      formDataValidator a.status a.formData = true) :
    SchemaValid db1 := by
  intro a ha
  rcases happ a ha with ⟨b, hb, hs, hf⟩ | h
  · rw [hs, hf]
    exact hinv b hb
  · exact h

/-- Saving a loaded application keeps the documents valid. -/
theorem SchemaValid.from_saveApplication {db db1 : Db} {doc : ApplicationForm}
    (hinv : SchemaValid db) (hsave : db.saveApplication doc = some db1) : SchemaValid db1 := by
  unfold Db.saveApplication at hsave
  split at hsave
  · rename_i hvalid
    simp only [Option.some.injEq] at hsave
    subst hsave
    refine hinv.from_writes ?_
    intro a ha
    rcases mem_updateFirst _ _ _ _ ha with h | ⟨b, _, _, hx⟩
    · exact Or.inl ⟨a, h, rfl, rfl⟩
    · subst hx
      exact Or.inr hvalid
  · cases hsave

/-- Inserting an application keeps the documents valid. -/
theorem SchemaValid.from_insertApplication {db db1 : Db} {doc : ApplicationForm}
    (hinv : SchemaValid db) (hsave : db.insertApplication doc = some db1) : SchemaValid db1 := by
  unfold Db.insertApplication at hsave
  split at hsave
  · rename_i hvalid
    simp only [Option.some.injEq] at hsave
    subst hsave
    refine hinv.from_writes ?_
    intro a ha
    simp only [List.mem_append, List.mem_singleton] at ha
    rcases ha with h | h
    · exact Or.inl ⟨a, h, rfl, rfl⟩
    · subst h
      exact Or.inr hvalid
  · cases hsave

/-- Setting an officer keeps the documents valid. -/
theorem SchemaValid.from_setAssignedOfficer {db : Db} (hinv : SchemaValid db)
    (applicationId officerId : ObjectId) :
    SchemaValid (db.setAssignedOfficer applicationId officerId) := by
  refine hinv.from_writes ?_
  intro a ha
  rcases mem_updateFirst _ _ _ _ ha with h | ⟨b, hb, _, hx⟩
  · exact Or.inl ⟨a, h, rfl, rfl⟩
  · subst hx
    exact Or.inl ⟨b, hb, rfl, rfl⟩

/-- SaveDraft keeps the stored applications valid. -/
theorem saveDraft_schemaValid (db : Db) (req : SaveDraftRequest) (hinv : SchemaValid db) :
    SchemaValid (saveDraft db req).1 := by
  unfold saveDraft
  by_cases hval : (saveDraftValidation req).isEmpty = true
  · simp only [hval, Bool.not_true, Bool.false_eq_true, if_false]
    repeat' split
    all_goals first
      | exact hinv
      | exact hinv.from_saveApplication ‹_›
      | exact hinv.from_insertApplication ‹_›
  · simpa [hval] using hinv

/-- Submit keeps the stored applications valid. -/
theorem submitApplication_schemaValid (db : Db) (req : SubmitRequest) (hinv : SchemaValid db) :
    SchemaValid (submitApplication db req).1 := by
  unfold submitApplication
  by_cases hval : (submitValidation req).isEmpty = true
  · simp only [hval, Bool.not_true, Bool.false_eq_true, if_false]
    repeat' split
    all_goals first
      | exact hinv
      | exact hinv.from_saveApplication ‹_›
      | exact hinv.from_insertApplication ‹_›
  · simpa [hval] using hinv

/-- AssignOfficer keeps the stored applications valid. -/
theorem assignStudent_schemaValid (db : Db) (studentId officerId : IdParam)
    (hinv : SchemaValid db) : SchemaValid (assignStudent db studentId officerId).1 := by
  unfold assignStudent
  repeat' split
  all_goals first
    | exact hinv
    | skip
  refine hinv.from_writes ?_
  intro a ha
  rcases mem_updateFirst _ _ _ _ ha with h | ⟨b, hb, _, hx⟩
  · exact Or.inl ⟨a, h, rfl, rfl⟩
  · subst hx
    exact Or.inl ⟨b, hb, rfl, rfl⟩

/-- The inner loop keeps the stored applications valid. -/
theorem assignBatch_schemaValid (o : ObjectId) (batch : List ApplicationForm) :
    ∀ acc : Db × Nat, SchemaValid acc.1 → SchemaValid (assignBatch o batch acc).1 := by
  induction batch with
  | nil => intro acc h; simpa [assignBatch] using h
  | cons b bs ih =>
    intro acc h
    rw [assignBatch_cons]
    exact ih _ (h.from_setAssignedOfficer b.id o)

/-- The distribution loop keeps the stored applications valid. -/
theorem distribute_schemaValid (V : List ApplicationForm) (O : List User) (hO : 0 < O.length)
    (B : Nat) :
    ∀ (fuel i k : Nat) (acc res : Db × Nat), SchemaValid acc.1 →
      distribute V O hO B fuel i k acc = some res → SchemaValid res.1 := by
  intro fuel
  induction fuel with
  | zero => intro i k acc res _ h; simp [distribute] at h
  | succ fuel ih =>
    intro i k acc res hacc h
    unfold distribute at h
    by_cases hi : i < V.length
    · simp only [hi, if_true] at h
      exact ih _ _ _ _ (assignBatch_schemaValid _ _ _ hacc) h
    · simp only [hi, if_false, Option.some.injEq] at h
      exact h ▸ hacc

/-- BatchAssignOfficers keeps the stored applications valid. -/
theorem assignOfficers_schemaValid (db : Db) (courseId : IdParam) (batchSize : Nat) (db1 : Db)
    (response : Response) (hr : assignOfficers db courseId batchSize = some (db1, response))
    (hinv : SchemaValid db) : SchemaValid db1 := by
  unfold assignOfficers at hr
  cases courseId with
  | missing => simp only [Option.some.injEq, Prod.mk.injEq] at hr; exact hr.1 ▸ hinv
  | malformed => simp only [Option.some.injEq, Prod.mk.injEq] at hr; exact hr.1 ▸ hinv
  | oid id =>
    simp only at hr
    cases hcourse : db.findCourseById id with
    | none =>
      simp only [hcourse, Option.some.injEq, Prod.mk.injEq] at hr
      exact hr.1 ▸ hinv
    | some course =>
      simp only [hcourse] at hr
      split at hr
      · simp only [Option.some.injEq, Prod.mk.injEq] at hr
        exact hr.1 ▸ hinv
      · split at hr
        · simp only [Option.some.injEq, Prod.mk.injEq] at hr
          exact hr.1 ▸ hinv
        · split at hr
          · cases hr
          · rename_i heq
            simp only [Option.some.injEq, Prod.mk.injEq] at hr
            have := distribute_schemaValid _ _ _ _ _ _ _ _ _ hinv heq
            exact hr.1 ▸ this

/-- Decide keeps the stored applications valid. -/
theorem verifyApplication_schemaValid (db : Db) (user : Identity) (applicationId : IdParam)
    (body : VerifyRequest) (hinv : SchemaValid db) :
    SchemaValid (verifyApplication db user applicationId body).1 := by
  unfold verifyApplication
  cases body.verified with
  | none => exact hinv
  | some verified =>
    cases applicationId with
    | missing => exact hinv
    | malformed => exact hinv
    | oid id =>
      simp only
      cases db.findApplicationById id with
      | none => exact hinv
      | some application =>
        simp only
        cases db.findUserById application.studentId with
        | none => exact hinv
        | some student =>
          simp only
          split
          · exact hinv
          · split
            · exact hinv
            · cases hsave : db.saveApplication
                  (applyDecision application user.userId verified body) with
              | none => exact hinv
              | some db1 =>
                exact (hinv.from_saveApplication hsave).from_writes
                  (fun a ha => Or.inl ⟨a, ha, rfl, rfl⟩)

/-- SaveComments keeps the stored applications valid. -/
theorem saveApplicationComments_schemaValid (db : Db) (user : Identity)
    (applicationId : IdParam) (body : CommentsRequest) (hinv : SchemaValid db) :
    SchemaValid (saveApplicationComments db user applicationId body).1 := by
  unfold saveApplicationComments
  repeat' split
  all_goals first
    | exact hinv
    | exact hinv.from_saveApplication ‹_›

/-- Marking comments read keeps the stored applications valid. -/
theorem markCommentsRead_schemaValid (db : Db) (user : Identity) (applicationId : IdParam)
    (hinv : SchemaValid db) : SchemaValid (markCommentsRead db user applicationId).1 := by
  unfold markCommentsRead
  repeat' split
  all_goals first
    | exact hinv
    | exact hinv.from_saveApplication ‹_›

/-- Process keeps the stored applications valid. -/
theorem processPayment_schemaValid (db : Db) (user : Identity) (req : ProcessRequest)
    (hinv : SchemaValid db) : SchemaValid (processPayment db user req).1 := by
  unfold processPayment
  repeat' split
  all_goals exact hinv

/-- Every operation call keeps the stored applications valid. -/
theorem Step.schemaValid {db db1 : Db} (h : Step db db1) (hinv : SchemaValid db) :
    SchemaValid db1 := by
  cases h with
  | saveDraft req => exact saveDraft_schemaValid db req hinv
  | submit req => exact submitApplication_schemaValid db req hinv
  | assignOfficer s o => exact assignStudent_schemaValid db s o hinv
  | batchAssignOfficers c b _ r hr => exact assignOfficers_schemaValid db c b db1 r hr hinv
  | verify u i b => exact verifyApplication_schemaValid db u i b hinv
  | saveComments u i b => exact saveApplicationComments_schemaValid db u i b hinv
  | markCommentsRead u i => exact markCommentsRead_schemaValid db u i hinv
  | process u r => exact processPayment_schemaValid db u r hinv

/-- In every state reached by the operations from a state whose applications
pass the schema validator (in particular from a state without applications),
every stored application passes it. -/
theorem schemaValid_of_reachable (db0 db : Db) (hstart : SchemaValid db0)
    (hreach : Reachable db0 db) : SchemaValid db := by
  induction hreach with
  | start => exact hstart
  | step _ hstep ih => exact hstep.schemaValid ih

/-! ## Payment Process -/

/-- The handler when a required field is absent. -/
theorem processPayment_incomplete (db : Db) (user : Identity) (req : ProcessRequest)
    (h : req.complete = false) :
    processPayment db user req = (db, reply 400 "All fields are required.") := by
  unfold processPayment
  have hcond : (req.applicationId = .missing || req.courseId = .missing || req.courseName == "" ||
      req.amount == 0 || req.paymentMethod == "" || req.lastDate == "") = true := by
    unfold ProcessRequest.complete at h
    simp only [Bool.and_eq_false_iff, bne_eq_false_iff_eq] at h
    simp only [Bool.or_eq_true, decide_eq_true_eq, beq_iff_eq]
    tauto
  rw [if_pos hcond]

/-- The handler past the test of the required fields, for a well-formed
application id. -/
theorem processPayment_complete (db : Db) (user : Identity) (req : ProcessRequest)
    (id : ObjectId) (h : req.complete = true) (hid : req.applicationId = .oid id) :
    processPayment db user req =
      match db.payments.find? (fun p => p.userId == user.userId && p.applicationId == id) with
      | some _ => (db, reply 400 "Payment already processed for this application.")
      | none =>
      match db.applications.find? (fun a => a.id == id && a.studentId == user.userId) with
      | none => (db, reply 404 "Application not found.")
      | some _ =>
      match db.findUserById user.userId with
      | none => (db, reply 404 "User not found.")
      | some u =>
      match req.courseId with
      | .missing => (db, reply 500 "Error processing payment")
      | .malformed => (db, reply 500 "Error processing payment")
      | .oid courseId =>
        ({ db with
            payments := db.payments ++
              [{ id := db.nextId, userId := user.userId, name := u.name, email := u.email,
                 applicationId := id, courseId := courseId, courseName := req.courseName,
                 amount := req.amount, paymentMethod := req.paymentMethod,
                 lastDate := req.lastDate, status := .completed }],
            users := updateFirst (fun x => x.id == u.id)
              (fun x => { x with payments := x.payments ++ [db.nextId] }) db.users,
            nextId := db.nextId + 1 },
          reply 201 "Payment processed successfully") := by
  unfold processPayment
  have hcond : ¬ (req.applicationId = .missing || req.courseId = .missing || req.courseName == "" ||
      req.amount == 0 || req.paymentMethod == "" || req.lastDate == "") = true := by
    unfold ProcessRequest.complete at h
    simp only [Bool.and_eq_true, bne_iff_ne, ne_eq] at h
    simp only [Bool.or_eq_true, decide_eq_true_eq, beq_iff_eq]
    tauto
  rw [if_neg hcond]
  simp only [hid]

/-- A successful Process call keeps at most one payment per pair. -/
theorem processPayment_unique (db : Db) (user : Identity) (req : ProcessRequest)
    (h : UniquePayments db) : UniquePayments (processPayment db user req).1 := by
  by_cases hc : req.complete = true
  · cases hid : req.applicationId with
    | missing =>
      unfold ProcessRequest.complete at hc
      simp [hid] at hc
    | malformed =>
      unfold processPayment
      split
      · exact h
      · simp only [hid]
        exact h
    | oid id =>
      rw [processPayment_complete db user req id hc hid]
      cases hfind : db.payments.find? (fun p => p.userId == user.userId && p.applicationId == id) with
      | some _ => exact h
      | none =>
        simp only
        split
        · exact h
        · split
          · exact h
          · split
            · exact h
            · exact h
            · unfold UniquePayments at h ⊢
              simp only [List.map_append, List.map_cons, List.map_nil]
              rw [List.nodup_append]
              refine ⟨h, List.nodup_singleton _, ?_⟩
              intro pair hmem hmem2
              simp only [List.mem_singleton] at hmem2
              subst hmem2
              obtain ⟨p, hp, hpair⟩ := List.mem_map.1 hmem
              rw [List.find?_eq_none] at hfind
              have := hfind p hp
              simp only [Prod.mk.injEq] at hpair
              simp [hpair.1, hpair.2] at this
  · rw [processPayment_incomplete db user req (by simpa using hc)]
    exact h

/-- C19. For every user and application, if a payment already exists for the
pair then Process with all required fields present is answered 400 and the
database (the payments and the user's payment list) is unchanged; and in
every state reached by sequential Process calls from a state with at most
one payment per pair of user and application, there is at most one payment
per pair. -/
theorem processPayment_at_most_once :
    (∀ (db : Db) (user : Identity) (req : ProcessRequest) (applicationId : ObjectId),
      req.complete = true → req.applicationId = .oid applicationId →
      (∃ p ∈ db.payments, p.userId = user.userId ∧ p.applicationId = applicationId) →
      (processPayment db user req).2.status = 400 ∧ (processPayment db user req).1 = db) ∧
    (∀ db0 db : Db, UniquePayments db0 → ProcessReachable db0 db → UniquePayments db) := by
  constructor
  · intro db user req id hc hid ⟨p, hp, hu, ha⟩
    rw [processPayment_complete db user req id hc hid]
    cases hfind : db.payments.find? (fun p => p.userId == user.userId && p.applicationId == id) with
    | some _ => exact ⟨rfl, rfl⟩
    | none =>
      rw [List.find?_eq_none] at hfind
      have := hfind p hp
      simp [hu, ha] at this
  · intro db0 db h0 hreach
    induction hreach with
    | start => exact h0
    | step user req _ ih => exact processPayment_unique _ user req ih

/-- Witness of C19: the student pays a second time for application 100, and
the state after two Process calls has one payment for the pair. -/
theorem processPayment_at_most_once_witness :
    ((processPayment paidDb studentIdentity sampleProcess).2.status = 400 ∧
      (processPayment paidDb studentIdentity sampleProcess).1 = paidDb) ∧
    UniquePayments (processPayment paidDb studentIdentity sampleProcess).1 :=
  ⟨processPayment_at_most_once.1 paidDb studentIdentity sampleProcess 100 (by decide) rfl
      (by decide),
    processPayment_at_most_once.2 assignedDb _ (by unfold UniquePayments; decide)
      (.step studentIdentity sampleProcess (.step studentIdentity sampleProcess .start))⟩

/-- Lookup by id after the first document with that id was updated by a
function that keeps the id. -/
theorem findUserById_updateFirst (id : ObjectId) (f : User → User)
    (hf : ∀ u, (f u).id = u.id) (l : List User) :
    (updateFirst (fun x => x.id == id) f l).find? (fun u => u.id == id) =
      (l.find? (fun u => u.id == id)).map f := by
  induction l with
  | nil => rfl
  | cons x xs ih =>
    by_cases hx : x.id = id
    · simp [updateFirst, hx, hf]
    · have hb : (x.id == id) = false := by simpa using hx
      simp only [updateFirst, hb, Bool.false_eq_true, if_false, List.find?_cons]
      exact ih

/-- The user found by id carries that id. -/
theorem findUserById_id {db : Db} {id : ObjectId} {u : User}
    (h : db.findUserById id = some u) : u.id = id := by
  have := List.find?_some h
  simpa using this

/-- C20, as amended. Process succeeds only if an application with the given
id owned by the caller and the caller's user record exist; when all required
fields are present, the id is well formed and no payment exists for the pair,
a missing application or user record is answered 404; a call that does not
succeed leaves the database unchanged; and on success exactly one payment is
added, with status completed, for that application and caller, under a fresh
id that is appended to the end of the caller's payments list, whose earlier
entries are unchanged, the applications being left as they are. -/
theorem processPayment_spec (db : Db) (user : Identity) (req : ProcessRequest) :
    ((processPayment db user req).2.status = 201 →
      ∃ (applicationId : ObjectId) (u : User) (payment : Payment),
        req.applicationId = .oid applicationId ∧
        (∃ a ∈ db.applications, a.id = applicationId ∧ a.studentId = user.userId) ∧
        db.findUserById user.userId = some u ∧
        payment.status = .completed ∧ payment.applicationId = applicationId ∧
        payment.userId = user.userId ∧ payment.id = db.nextId ∧
        (processPayment db user req).1.payments = db.payments ++ [payment] ∧
        (processPayment db user req).1.findUserById user.userId =
          some { u with payments := u.payments ++ [payment.id] } ∧
        (processPayment db user req).1.applications = db.applications) ∧
    ((processPayment db user req).2.status ≠ 201 → (processPayment db user req).1 = db) ∧
    (∀ applicationId : ObjectId, req.complete = true → req.applicationId = .oid applicationId →
      (∀ p ∈ db.payments, ¬ (p.userId = user.userId ∧ p.applicationId = applicationId)) →
      ((∀ a ∈ db.applications, ¬ (a.id = applicationId ∧ a.studentId = user.userId)) ∨
        db.findUserById user.userId = none) →
      (processPayment db user req).2.status = 404) := by
  by_cases hc : req.complete = true
  · cases hid : req.applicationId with
    | missing =>
      unfold ProcessRequest.complete at hc
      simp [hid] at hc
    | malformed =>
      have h500 : processPayment db user req = (db, reply 500 "Error processing payment") := by
        unfold processPayment
        split
        · rename_i hcond
          unfold ProcessRequest.complete at hc
          simp only [Bool.and_eq_true, bne_iff_ne, ne_eq] at hc
          simp only [Bool.or_eq_true, decide_eq_true_eq, beq_iff_eq] at hcond
          tauto
        · simp only [hid]
      rw [h500]
      refine ⟨fun h => by simp [reply] at h, fun _ => rfl, fun id _ h => by cases h⟩
    | oid id =>
      rw [processPayment_complete db user req id hc hid]
      cases hpay : db.payments.find? (fun p => p.userId == user.userId && p.applicationId == id) with
      | some p =>
        refine ⟨fun h => by simp [reply] at h, fun _ => rfl, ?_⟩
        intro id2 _ hid2 hnone _
        cases hid2
        have hp := List.find?_some hpay
        simp only [Bool.and_eq_true, beq_iff_eq] at hp
        exact absurd hp (hnone p (List.mem_of_find?_eq_some hpay))
      | none =>
        simp only
        cases happ : db.applications.find? (fun a => a.id == id && a.studentId == user.userId) with
        | none =>
          exact ⟨fun h => by simp [reply] at h, fun _ => rfl, fun _ _ _ _ _ => rfl⟩
        | some a =>
          have ha := List.find?_some happ
          simp only [Bool.and_eq_true, beq_iff_eq] at ha
          have hamem := List.mem_of_find?_eq_some happ
          simp only
          cases huser : db.findUserById user.userId with
          | none =>
            exact ⟨fun h => by simp [reply] at h, fun _ => rfl, fun _ _ _ _ _ => rfl⟩
          | some u =>
            have hu := findUserById_id huser
            simp only
            cases hcourse : req.courseId with
            | missing =>
              refine ⟨fun h => by simp [reply] at h, fun _ => rfl, ?_⟩
              intro id2 _ hid2 _ hmissing
              cases hid2
              rcases hmissing with h | h
              · exact absurd ha (h a hamem)
              · cases h
            | malformed =>
              refine ⟨fun h => by simp [reply] at h, fun _ => rfl, ?_⟩
              intro id2 _ hid2 _ hmissing
              cases hid2
              rcases hmissing with h | h
              · exact absurd ha (h a hamem)
              · cases h
            | oid courseId =>
              refine ⟨?_, fun h => absurd rfl h, ?_⟩
              · intro _
                refine ⟨id, u, _, rfl, ⟨a, hamem, ha.1, ha.2⟩, rfl, rfl, rfl, rfl, rfl, rfl, ?_, rfl⟩
                unfold Db.findUserById at huser ⊢
                simp only [hu]
                rw [findUserById_updateFirst user.userId
                  (fun x => { x with payments := x.payments ++ [db.nextId] }) (fun _ => rfl), huser]
                simp [hu]
              · intro id2 _ hid2 _ hmissing
                cases hid2
                rcases hmissing with h | h
                · exact absurd ha (h a hamem)
                · cases h
  · rw [processPayment_incomplete db user req (by simpa using hc)]
    refine ⟨fun h => by simp [reply] at h, fun _ => rfl, ?_⟩
    intro id hcomplete
    exact absurd hcomplete hc

/-- Counterexample to C20 as stated: a Process call for an application that
does not exist is answered 400, not 404, when a required field is absent. -/
theorem processPayment_spec_counterexample :
    (∀ a ∈ sampleDb.applications, a.id ≠ 100) ∧
      (processPayment sampleDb studentIdentity { sampleProcess with lastDate := "" }).2.status =
        400 := by
  decide

/-- Instance of C20 as amended: the payment of the student for application
100. -/
theorem processPayment_spec_witness :
    ∃ (applicationId : ObjectId) (u : User) (payment : Payment),
      sampleProcess.applicationId = .oid applicationId ∧
      (∃ a ∈ assignedDb.applications, a.id = applicationId ∧ a.studentId = studentIdentity.userId) ∧
      assignedDb.findUserById studentIdentity.userId = some u ∧
      payment.status = .completed ∧ payment.applicationId = applicationId ∧
      payment.userId = studentIdentity.userId ∧ payment.id = assignedDb.nextId ∧
      (processPayment assignedDb studentIdentity sampleProcess).1.payments =
        assignedDb.payments ++ [payment] ∧
      (processPayment assignedDb studentIdentity sampleProcess).1.findUserById
          studentIdentity.userId = some { u with payments := u.payments ++ [payment.id] } ∧
      (processPayment assignedDb studentIdentity sampleProcess).1.applications =
        assignedDb.applications :=
  (processPayment_spec assignedDb studentIdentity sampleProcess).1 (by decide)

/-! ## Instances, continued -/

/-- Counterexample to C16 as stated: an application of the student whose
`fieldComments` map is not empty has no notification, its only field comment
being without text. -/
theorem studentNotifications_spec_counterexample :
    (∃ a ∈ blankCommentDb.applications,
      a.studentId = studentIdentity.userId ∧ a.fieldComments ≠ []) ∧
      (studentNotifications blankCommentDb (fun _ => 0) studentIdentity).notifications = [] := by
  decide

/-- Witness of C17: the student marks the comments of the assigned
application read, twice. -/
theorem markCommentsRead_idempotent_witness :
    (markCommentsRead assignedDb studentIdentity (.oid 100)).2.status = 200 ∧
      (markCommentsRead (markCommentsRead assignedDb studentIdentity (.oid 100)).1
        studentIdentity (.oid 100)).2.status = 200 ∧
      (markCommentsRead (markCommentsRead assignedDb studentIdentity (.oid 100)).1
        studentIdentity (.oid 100)).1 =
        (markCommentsRead assignedDb studentIdentity (.oid 100)).1 ∧
      (markCommentsRead assignedDb studentIdentity (.oid 100)).1.findApplicationById 100 =
        some { assignedApplication with commentsRead := true } :=
  markCommentsRead_idempotent assignedDb studentIdentity 100 assignedApplication (by decide)
    (by decide) (by decide)

/-! ## Decide and SaveComments: the written values -/

/-- The schema validator gives one answer for every status but draft. -/
theorem formDataValidator_of_ne_draft (status : Status) (v : FormData) (h : status ≠ .draft) :
    formDataValidator status v = formDataValidator .pending v := by
  unfold formDataValidator
  simp [h]

/-- The schema validator reads the documents only. -/
theorem formDataValidator_congr (status : Status) (v w : FormData)
    (h : v.documents = w.documents) : formDataValidator status v = formDataValidator status w := by
  unfold formDataValidator
  rw [h]

/-- Decide leaves the documents of the loaded application as they are. -/
theorem applyDecision_documents (application : ApplicationForm) (userId : ObjectId)
    (verified : Bool) (body : VerifyRequest) :
    (applyDecision application userId verified body).formData.documents =
      application.formData.documents := by
  unfold applyDecision
  cases body.fieldComments <;> rfl

/-- The application that Decide saves passes the schema validator exactly
when the documents of the loaded one are complete. -/
theorem formDataValidator_applyDecision (application : ApplicationForm) (userId : ObjectId)
    (verified : Bool) (body : VerifyRequest) :
    formDataValidator (applyDecision application userId verified body).status
        (applyDecision application userId verified body).formData =
      formDataValidator .pending application.formData := by
  rw [formDataValidator_of_ne_draft _ _ (by rw [applyDecision_status]; cases verified <;> simp)]
  exact formDataValidator_congr _ _ _ (applyDecision_documents _ _ _ _)

/-- The result of a Decide call that passes every guard. -/
theorem verifyApplication_pass (db : Db) (user : Identity) (id : ObjectId) (body : VerifyRequest)
    (v : Bool) (a : ApplicationForm) (student : User)
    (hv : body.verified = some v) (ha : db.findApplicationById id = some a)
    (hs : db.findUserById a.studentId = some student)
    (ho : a.assignedOfficer = some user.userId)
    (hp : (v && db.completedPaymentMissing id) = false)
    (hval : formDataValidator .pending a.formData = true) :
    (verifyApplication db user (.oid id) body).2.status = 200 ∧
      (verifyApplication db user (.oid id) body).1.applications =
        updateFirst (fun x => x.id == id) (fun _ => applyDecision a user.userId v body)
          db.applications ∧
      (verifyApplication db user (.oid id) body).1.users =
        updateFirst (fun u => u.id == a.studentId)
          (fun u => { u with verified := v, verifiedBy := if v then some user.userId else none })
          db.users ∧
      (verifyApplication db user (.oid id) body).1.payments = db.payments := by
  have hid := findApplicationById_id ha
  have hsid := findUserById_id hs
  unfold verifyApplication
  simp only [hv, ha, hs]
  rw [if_neg (by simp [ho]), if_neg (by simp [hp])]
  unfold Db.saveApplication
  rw [formDataValidator_applyDecision, hval]
  simp [applyDecision_id, hid, hsid, Db.saveStudentVerification, reply]

/-- What a Decide call answered 200 went through. -/
theorem verifyApplication_ok_inv (db : Db) (user : Identity) (id : ObjectId) (body : VerifyRequest)
    (hok : (verifyApplication db user (.oid id) body).2.status = 200) :
    ∃ (v : Bool) (a : ApplicationForm) (student : User),
      body.verified = some v ∧ db.findApplicationById id = some a ∧
      db.findUserById a.studentId = some student ∧ a.assignedOfficer = some user.userId ∧
      (v && db.completedPaymentMissing id) = false ∧
      formDataValidator .pending a.formData = true := by
  unfold verifyApplication at hok
  cases hv : body.verified with
  | none => simp [hv, reply] at hok
  | some v =>
    cases ha : db.findApplicationById id with
    | none => simp [hv, ha, reply] at hok
    | some a =>
      cases hs : db.findUserById a.studentId with
      | none => simp [hv, ha, hs, reply] at hok
      | some student =>
        simp only [hv, ha, hs] at hok
        by_cases ho : a.assignedOfficer = some user.userId
        · rw [if_neg (by simp [ho])] at hok
          by_cases hp : (v && db.completedPaymentMissing id) = true
          · rw [if_pos hp] at hok
            simp [reply] at hok
          · rw [if_neg hp] at hok
            unfold Db.saveApplication at hok
            rw [formDataValidator_applyDecision] at hok
            by_cases hval : formDataValidator .pending a.formData = true
            · exact ⟨v, a, student, rfl, rfl, hs, ho, by simpa using hp, hval⟩
            · simp [hval, reply] at hok
        · rw [if_pos ho] at hok
          simp [reply] at hok
/-- The flag written by Decide. -/
theorem applyDecision_verified (application : ApplicationForm) (userId : ObjectId)
    (verified : Bool) (body : VerifyRequest) :
    (applyDecision application userId verified body).verified = verified := by
  unfold applyDecision
  cases body.fieldComments <;> rfl

/-- The officer recorded by Decide. -/
theorem applyDecision_verifiedBy (application : ApplicationForm) (userId : ObjectId)
    (verified : Bool) (body : VerifyRequest) :
    (applyDecision application userId verified body).verifiedBy =
      if verified then some userId else none := by
  unfold applyDecision
  cases body.fieldComments <;> rfl

/-- C21. For every Decide call that succeeds (status 200), made by officer
`user` with decision `v` on application `a`: afterwards the application has
status verified when `v` is true and rejected when it is false, its
`verified` flag is `v`, its `verifiedBy` is the officer when `v` is true and
null otherwise, and the user record of the student holds the same `verified`
and `verifiedBy`. -/
theorem verifyApplication_success (db : Db) (user : Identity) (id : ObjectId)
    (body : VerifyRequest) (a : ApplicationForm) (ha : db.findApplicationById id = some a)
    (hok : (verifyApplication db user (.oid id) body).2.status = 200) :
    ∃ (v : Bool) (a1 : ApplicationForm) (u1 : User),
      body.verified = some v ∧
      (verifyApplication db user (.oid id) body).1.findApplicationById id = some a1 ∧
      a1.status = (if v then Status.verified else Status.rejected) ∧
      a1.verified = v ∧
      a1.verifiedBy = (if v then some user.userId else none) ∧
      (verifyApplication db user (.oid id) body).1.findUserById a.studentId = some u1 ∧
      u1.verified = v ∧ u1.verifiedBy = a1.verifiedBy := by
  obtain ⟨v, a2, student, hv, ha2, hs, ho, hp, hval⟩ := verifyApplication_ok_inv db user id body hok
  rw [ha] at ha2
  cases ha2
  obtain ⟨_, happs, husers, _⟩ := verifyApplication_pass db user id body v a student hv ha hs ho hp hval
  have hid := findApplicationById_id ha
  refine ⟨v, applyDecision a user.userId v body,
    { student with verified := v, verifiedBy := if v then some user.userId else none },
    hv, ?_, applyDecision_status _ _ _ _, applyDecision_verified _ _ _ _,
    applyDecision_verifiedBy _ _ _ _, ?_, rfl, (applyDecision_verifiedBy _ _ _ _).symm⟩
  · unfold Db.findApplicationById at ha ⊢
    rw [happs]
    exact find_updateFirst_const _ _ a _ _ ha (by simp [hid]) (by simp [applyDecision_id, hid])
  · unfold Db.findUserById at hs ⊢
    rw [husers, findUserById_updateFirst a.studentId
      (fun u => { u with verified := v, verifiedBy := if v then some user.userId else none })
      (fun _ => rfl), hs]
    rfl

/-- Witness of C21: the first officer verifies the paid application of the
student. -/
theorem verifyApplication_success_witness :
    ∃ (v : Bool) (a1 : ApplicationForm) (u1 : User),
      (⟨some true, none, none⟩ : VerifyRequest).verified = some v ∧
      (verifyApplication paidDb officerIdentity (.oid 100) ⟨some true, none, none⟩).1.findApplicationById
          100 = some a1 ∧
      a1.status = (if v then Status.verified else Status.rejected) ∧
      a1.verified = v ∧
      a1.verifiedBy = (if v then some officerIdentity.userId else none) ∧
      (verifyApplication paidDb officerIdentity (.oid 100) ⟨some true, none, none⟩).1.findUserById
          assignedApplication.studentId = some u1 ∧
      u1.verified = v ∧ u1.verifiedBy = a1.verifiedBy :=
  verifyApplication_success paidDb officerIdentity 100 ⟨some true, none, none⟩ assignedApplication
    (by decide) (by decide)

/-- C22, the code at the failing input. The student has read the comments of
the assigned application (`commentsRead` is true); the assigned officer then
rejects it with a general comment and no `fieldComments`. Decide answers 200
and `commentsRead` is still true, while SaveComments with the same comment
sets it to false. -/
theorem verifyApplication_keeps_commentsRead :
    (readDb.findApplicationById 100).map (fun a => a.commentsRead) = some true ∧
      rejectWithComment.comments = some "The marks sheet is not legible" ∧
      rejectWithComment.fieldComments = none ∧
      (verifyApplication readDb officerIdentity (.oid 100) rejectWithComment).2.status = 200 ∧
      ((verifyApplication readDb officerIdentity (.oid 100) rejectWithComment).1.findApplicationById
          100).map (fun a => (a.status, a.commentsRead)) = some (Status.rejected, true) ∧
      ((saveApplicationComments readDb officerIdentity (.oid 100)
          ⟨some "The marks sheet is not legible", .absent⟩).1.findApplicationById 100).map
          (fun a => a.commentsRead) = some false := by
  decide

/-- SaveComments keeps the decision fields and the assignment of the loaded
application. -/
theorem applyComments_decision (application : ApplicationForm) (body : CommentsRequest) :
    (applyComments application body).verified = application.verified ∧
      (applyComments application body).verifiedBy = application.verifiedBy ∧
      (applyComments application body).assignedOfficer = application.assignedOfficer := by
  unfold applyComments
  cases body.fieldComments <;> cases falsy body.comments <;> simp
  all_goals split
  all_goals exact ⟨rfl, rfl, rfl⟩

/-- The flag `commentsRead` that SaveComments leaves on the loaded
application. -/
theorem applyComments_commentsRead (application : ApplicationForm) (body : CommentsRequest) :
    (applyComments application body).commentsRead =
      if !falsy body.comments || body.fieldComments.hasKeys then false
      else application.commentsRead := by
  unfold applyComments
  cases body.fieldComments <;> cases falsy body.comments <;> simp
  all_goals split
  all_goals simp_all

/-- For a `fieldComments` that is not a string, the test of line 208 is the
one the spec describes. -/
theorem commentSupplied_eq (comments : Option String) (fieldComments : FieldCommentsParam)
    (h : ∀ s, fieldComments ≠ .text s) :
    (!falsy comments || fieldComments.hasKeys) = commentSupplied comments fieldComments := by
  unfold commentSupplied
  cases fieldComments with
  | absent => rfl
  | text s => exact absurd rfl (h s)
  | entries comments => rfl

/-- C23, as amended. For every application and every input, SaveComments
leaves the status, `verified`, `verifiedBy` and `assignedOfficer` of the
application unchanged and changes no user record; when the call succeeds
(status 200) and `fieldComments` is not a string, `commentsRead` is false
afterwards if a non-empty general comment or a non-empty `fieldComments`
object was supplied and is unchanged otherwise; a call that does not succeed
changes nothing. -/
theorem saveApplicationComments_frame (db : Db) (user : Identity) (id : ObjectId)
    (body : CommentsRequest) (a : ApplicationForm) (ha : db.findApplicationById id = some a) :
    (saveApplicationComments db user (.oid id) body).1.users = db.users ∧
      ((saveApplicationComments db user (.oid id) body).2.status ≠ 200 →
        (saveApplicationComments db user (.oid id) body).1 = db) ∧
      ∃ a1, (saveApplicationComments db user (.oid id) body).1.findApplicationById id = some a1 ∧
        a1.status = a.status ∧ a1.verified = a.verified ∧ a1.verifiedBy = a.verifiedBy ∧
        a1.assignedOfficer = a.assignedOfficer ∧
        ((saveApplicationComments db user (.oid id) body).2.status = 200 →
          (∀ s, body.fieldComments ≠ .text s) →
          a1.commentsRead =
            if commentSupplied body.comments body.fieldComments then false
            else a.commentsRead) := by
  have hid := findApplicationById_id ha
  unfold saveApplicationComments
  simp only [ha]
  by_cases ho : a.assignedOfficer = some user.userId
  · rw [if_neg (by simp [ho])]
    unfold Db.saveApplication
    by_cases hval : formDataValidator (applyComments a body).status (applyComments a body).formData
        = true
    · rw [if_pos hval]
      refine ⟨rfl, fun h => absurd rfl h, applyComments a body, ?_, applyComments_status _ _,
        (applyComments_decision _ _).1, (applyComments_decision _ _).2.1,
        (applyComments_decision _ _).2.2, fun _ hnot => ?_⟩
      · unfold Db.findApplicationById at ha ⊢
        exact find_updateFirst_const _ _ a _ _ ha (by simp [applyComments_id, hid])
          (by simp [applyComments_id, hid])
      · rw [applyComments_commentsRead, commentSupplied_eq _ _ hnot]
    · rw [if_neg hval]
      exact ⟨rfl, fun _ => rfl, a, ha, rfl, rfl, rfl, rfl, fun h => by simp [reply] at h⟩
  · rw [if_pos ho]
    exact ⟨rfl, fun _ => rfl, a, ha, rfl, rfl, rfl, rfl, fun h => by simp [reply] at h⟩

/-- Counterexample to C23 as stated: the second officer, who is not assigned,
supplies a general comment for the application whose comments were read; the
call is answered 403 and `commentsRead` is still true. And the assigned
officer sends the string `"abc"` as `fieldComments` and no general comment:
no comment and no object is supplied, the call is answered 200 and
`commentsRead` is false. -/
theorem saveApplicationComments_frame_counterexample :
    (commentSupplied (some "Please upload the sheet again") .absent = true ∧
      (readDb.findApplicationById 100).map (fun a => a.commentsRead) = some true ∧
      (saveApplicationComments readDb otherIdentity (.oid 100)
        ⟨some "Please upload the sheet again", .absent⟩).2.status = 403 ∧
      ((saveApplicationComments readDb otherIdentity (.oid 100)
        ⟨some "Please upload the sheet again", .absent⟩).1.findApplicationById 100).map
          (fun a => a.commentsRead) = some true) ∧
    (commentSupplied none (.text "abc") = false ∧
      (saveApplicationComments readDb officerIdentity (.oid 100) ⟨none, .text "abc"⟩).2.status =
        200 ∧
      ((saveApplicationComments readDb officerIdentity (.oid 100)
        ⟨none, .text "abc"⟩).1.findApplicationById 100).map
          (fun a => (a.fieldComments, a.commentsRead)) = some ([], false)) := by
  decide

/-- Instance of C23 as amended: the assigned officer supplies a general
comment for the application whose comments were read. -/
theorem saveApplicationComments_frame_witness :
    (saveApplicationComments readDb officerIdentity (.oid 100)
        ⟨some "Please upload the sheet again", .absent⟩).1.users = readDb.users ∧
      ((saveApplicationComments readDb officerIdentity (.oid 100)
          ⟨some "Please upload the sheet again", .absent⟩).2.status ≠ 200 →
        (saveApplicationComments readDb officerIdentity (.oid 100)
          ⟨some "Please upload the sheet again", .absent⟩).1 = readDb) ∧
      ∃ a1, (saveApplicationComments readDb officerIdentity (.oid 100)
          ⟨some "Please upload the sheet again", .absent⟩).1.findApplicationById 100 = some a1 ∧
        a1.status = Status.pending ∧ a1.verified = false ∧ a1.verifiedBy = none ∧
        a1.assignedOfficer = some 2 ∧
        ((saveApplicationComments readDb officerIdentity (.oid 100)
            ⟨some "Please upload the sheet again", .absent⟩).2.status = 200 →
          (∀ s, FieldCommentsParam.absent ≠ .text s) →
          a1.commentsRead =
            if commentSupplied (some "Please upload the sheet again") .absent then false
            else true) :=
  saveApplicationComments_frame readDb officerIdentity 100
    ⟨some "Please upload the sheet again", .absent⟩
    { assignedApplication with commentsRead := true } (by decide)

/-! ## Payment, then Decide -/

/-- What a Process call answered 201 did. -/
theorem processPayment_ok_inv (db : Db) (user : Identity) (req : ProcessRequest) (id : ObjectId)
    (hid : req.applicationId = .oid id) (hok : (processPayment db user req).2.status = 201) :
    ∃ (u : User) (payment : Payment),
      db.findUserById user.userId = some u ∧ payment.applicationId = id ∧
      payment.status = .completed ∧
      (processPayment db user req).1.payments = db.payments ++ [payment] ∧
      (processPayment db user req).1.applications = db.applications ∧
      (processPayment db user req).1.users =
        updateFirst (fun x => x.id == user.userId)
          (fun x => { x with payments := x.payments ++ [db.nextId] }) db.users := by
  by_cases hc : req.complete = true
  · rw [processPayment_complete db user req id hc hid] at hok ⊢
    cases hpay : db.payments.find? (fun p => p.userId == user.userId && p.applicationId == id) with
    | some p => simp [hpay, reply] at hok
    | none =>
      cases happ : db.applications.find? (fun a => a.id == id && a.studentId == user.userId) with
      | none => simp [hpay, happ, reply] at hok
      | some a =>
        cases hu : db.findUserById user.userId with
        | none => simp [hpay, happ, hu, reply] at hok
        | some u =>
          cases hcourse : req.courseId with
          | missing => simp [hpay, happ, hu, hcourse, reply] at hok
          | malformed => simp [hpay, happ, hu, hcourse, reply] at hok
          | oid courseId =>
            have huid := findUserById_id hu
            refine ⟨u,
              { id := db.nextId, userId := user.userId, name := u.name, email := u.email,
                applicationId := id, courseId := courseId, courseName := req.courseName,
                amount := req.amount, paymentMethod := req.paymentMethod,
                lastDate := req.lastDate, status := .completed }, rfl, rfl, rfl, rfl, rfl, ?_⟩
            simp only [huid]
  · rw [processPayment_incomplete db user req (by simpa using hc)] at hok
    simp [reply] at hok

/-- The payment test of Decide fails while no payment is stored for the
application. -/
theorem completedPaymentMissing_of_no_payment (db : Db) (id : ObjectId)
    (h : ∀ p ∈ db.payments, p.applicationId ≠ id) : db.completedPaymentMissing id = true := by
  unfold Db.completedPaymentMissing Db.findPaymentByApplication
  have hnone : db.payments.find? (fun p => p.applicationId == id) = none := by
    rw [List.find?_eq_none]
    intro p hp
    simpa using h p hp
  rw [hnone]

/-- C24, as amended. For every application `a` owned by student `s` and
assigned to officer `o` whose document descriptors are complete (the schema
validator for submitted applications passes), no payment being stored for
`a`: Decide with `verified = true` by `o` fails with status 400 and the
message of the payment requirement; and once a Process call of `s` for `a`
has succeeded, the same Decide call succeeds and leaves the status of `a`
verified. -/
theorem verifyApplication_after_payment (db : Db) (s o : Identity) (id : ObjectId)
    (a : ApplicationForm) (req : ProcessRequest) (body : VerifyRequest)
    (ha : db.findApplicationById id = some a) (hs : a.studentId = s.userId)
    (ho : a.assignedOfficer = some o.userId)
    (hval : formDataValidator .pending a.formData = true)
    (hnone : ∀ p ∈ db.payments, p.applicationId ≠ id)
    (hreq : req.applicationId = .oid id) (hv : body.verified = some true)
    (hpaid : (processPayment db s req).2.status = 201) :
    verifyApplication db o (.oid id) body =
        (db, reply 400 "Cannot verify application: No completed payment found") ∧
      (verifyApplication (processPayment db s req).1 o (.oid id) body).2.status = 200 ∧
      ∃ a1,
        (verifyApplication (processPayment db s req).1 o (.oid id) body).1.findApplicationById id =
          some a1 ∧ a1.status = .verified := by
  obtain ⟨u, payment, hu, hpid, hpst, hpays, happs, husers⟩ :=
    processPayment_ok_inv db s req id hreq hpaid
  have hid := findApplicationById_id ha
  constructor
  · unfold verifyApplication
    simp only [hv, ha, hs, hu]
    rw [if_neg (by simp [ho]),
      if_pos (by simp [completedPaymentMissing_of_no_payment db id hnone])]
  · have ha1 : (processPayment db s req).1.findApplicationById id = some a := by
      unfold Db.findApplicationById at ha ⊢
      rw [happs, ha]
    have hu1 : (processPayment db s req).1.findUserById a.studentId =
        some { u with payments := u.payments ++ [db.nextId] } := by
      unfold Db.findUserById at hu ⊢
      rw [husers, hs, findUserById_updateFirst s.userId
        (fun x => { x with payments := x.payments ++ [db.nextId] }) (fun _ => rfl), hu]
      rfl
    have hp1 : (true && (processPayment db s req).1.completedPaymentMissing id) = false := by
      unfold Db.completedPaymentMissing Db.findPaymentByApplication
      have hfind : db.payments.find? (fun p => p.applicationId == id) = none := by
        rw [List.find?_eq_none]
        intro p hp
        simpa using hnone p hp
      rw [hpays, find_append_singleton _ payment _ hfind (by simp [hpid])]
      simp [hpst]
    obtain ⟨hst, happs1, _, _⟩ :=
      verifyApplication_pass (processPayment db s req).1 o id body true a _ hv ha1 hu1 ho hp1 hval
    refine ⟨hst, applyDecision a o.userId true body, ?_, by rw [applyDecision_status]; rfl⟩
    unfold Db.findApplicationById at ha1 ⊢
    rw [happs1]
    exact find_updateFirst_const _ _ a _ _ ha1 (by simp [hid]) (by simp [applyDecision_id, hid])

/-- Counterexample to C24 as stated: the student saves a draft with a file of
no bytes, an admin assigns it to the first officer and the student pays; the
application is owned by the student and assigned to the officer, Process
succeeded, and Decide with `verified = true` is answered 500 and leaves the
status draft, the save being refused by the schema validator. -/
theorem verifyApplication_after_payment_counterexample :
    (emptyDraftDb.findApplicationById 100).map (fun a => (a.studentId, a.assignedOfficer)) =
        some (studentIdentity.userId, some officerIdentity.userId) ∧
      (processPayment emptyDraftDb studentIdentity sampleProcess).2.status = 201 ∧
      (verifyApplication (processPayment emptyDraftDb studentIdentity sampleProcess).1
        officerIdentity (.oid 100) ⟨some true, none, none⟩).2.status = 500 ∧
      ((verifyApplication (processPayment emptyDraftDb studentIdentity sampleProcess).1
        officerIdentity (.oid 100) ⟨some true, none, none⟩).1.findApplicationById 100).map
          (fun a => a.status) = some .draft := by
  decide

/-- Instance of C24 as amended: the submitted application of the student,
assigned to the first officer, before and after the payment. -/
theorem verifyApplication_after_payment_witness :
    verifyApplication assignedDb officerIdentity (.oid 100) ⟨some true, none, none⟩ =
        (assignedDb, reply 400 "Cannot verify application: No completed payment found") ∧
      (verifyApplication (processPayment assignedDb studentIdentity sampleProcess).1
        officerIdentity (.oid 100) ⟨some true, none, none⟩).2.status = 200 ∧
      ∃ a1,
        (verifyApplication (processPayment assignedDb studentIdentity sampleProcess).1
          officerIdentity (.oid 100) ⟨some true, none, none⟩).1.findApplicationById 100 =
          some a1 ∧ a1.status = .verified :=
  verifyApplication_after_payment assignedDb studentIdentity officerIdentity 100
    assignedApplication sampleProcess ⟨some true, none, none⟩ (by decide) (by decide) (by decide)
    (by decide) (by decide) (by decide) (by decide) (by decide)

/-! ## One application per student and course -/

/-- An update that keeps a key of every element it may touch keeps the list
of keys. -/
theorem map_updateFirst_of_eq {α β : Type} (g : α → β) (p : α → Bool) (f : α → α) (l : List α)
    (h : ∀ x ∈ l, p x = true → g (f x) = g x) : (updateFirst p f l).map g = l.map g := by
  induction l with
  | nil => rfl
  | cons x xs ih =>
    by_cases hx : p x = true
    · simp [updateFirst, hx, h x (List.mem_cons_self _ _) hx]
    · simp only [updateFirst, hx, Bool.false_eq_true, if_false, List.map_cons]
      rw [ih (fun y hy => h y (List.mem_cons_of_mem _ hy))]

/-- Saving the application found for a pair, with its id and its pair, keeps
the pairs and the ids distinct and adds no application. -/
theorem uniqueApplications_saveApplication {db db1 : Db} {a doc : ApplicationForm}
    {s c : ObjectId} (hinv : UniqueApplications db ∧ DistinctIds db)
    (hfind : db.findApplication s c = some a) (hsave : db.saveApplication doc = some db1)
    (hdoc : doc.id = a.id ∧ doc.studentId = a.studentId ∧ doc.courseId = a.courseId) :
    (UniqueApplications db1 ∧ DistinctIds db1) ∧
      db1.applications.length = db.applications.length := by
  obtain ⟨hpairs, hids, hlt⟩ := hinv
  have hamem : a ∈ db.applications := List.mem_of_find?_eq_some hfind
  unfold Db.saveApplication at hsave
  split at hsave
  · simp only [Option.some.injEq] at hsave
    subst hsave
    have hsame : ∀ x ∈ db.applications, (x.id == doc.id) = true → x = a := by
      intro x hx hxid
      have hxa : x.id = a.id := by rw [← hdoc.1]; simpa using hxid
      exact List.inj_on_of_nodup_map hids hx hamem hxa
    have hp : (updateFirst (fun x => x.id == doc.id) (fun _ => doc) db.applications).map
        (fun x => (x.studentId, x.courseId)) =
        db.applications.map (fun x => (x.studentId, x.courseId)) := by
      apply map_updateFirst_of_eq
      intro x hx hxid
      rw [hsame x hx hxid, hdoc.2.1, hdoc.2.2]
    have hi : (updateFirst (fun x => x.id == doc.id) (fun _ => doc) db.applications).map
        (fun x => x.id) = db.applications.map (fun x => x.id) := by
      apply map_updateFirst_of_eq
      intro x hx hxid
      rw [hsame x hx hxid, hdoc.1]
    refine ⟨⟨?_, ?_, ?_⟩, length_updateFirst _ _ _⟩
    · unfold UniqueApplications
      rw [hp]
      exact hpairs
    · rw [hi]
      exact hids
    · intro x hx
      have hxm : x.id ∈ (updateFirst (fun x => x.id == doc.id) (fun _ => doc)
          db.applications).map (fun x => x.id) := List.mem_map_of_mem _ hx
      rw [hi] at hxm
      obtain ⟨y, hy, hyx⟩ := List.mem_map.1 hxm
      rw [← hyx]
      exact hlt y hy
  · cases hsave

/-- Inserting an application for a pair that has none keeps the pairs and the
ids distinct. -/
theorem uniqueApplications_insertApplication {db db1 : Db} {doc : ApplicationForm}
    {s c : ObjectId} (hinv : UniqueApplications db ∧ DistinctIds db)
    (hfind : db.findApplication s c = none) (hsave : db.insertApplication doc = some db1)
    (hdoc : doc.studentId = s ∧ doc.courseId = c) :
    UniqueApplications db1 ∧ DistinctIds db1 := by
  obtain ⟨hpairs, hids, hlt⟩ := hinv
  unfold Db.findApplication at hfind
  rw [List.find?_eq_none] at hfind
  unfold Db.insertApplication at hsave
  split at hsave
  · simp only [Option.some.injEq] at hsave
    subst hsave
    refine ⟨?_, ?_, ?_⟩
    · unfold UniqueApplications at hpairs ⊢
      simp only [List.map_append, List.map_cons, List.map_nil]
      rw [List.nodup_append]
      refine ⟨hpairs, List.nodup_singleton _, ?_⟩
      intro pr hpr hpr1
      simp only [List.mem_singleton] at hpr1
      subst hpr1
      obtain ⟨x, hx, hxp⟩ := List.mem_map.1 hpr
      simp only [Prod.mk.injEq] at hxp
      apply hfind x hx
      simp [hxp.1, hxp.2, hdoc.1, hdoc.2]
    · simp only [List.map_append, List.map_cons, List.map_nil]
      rw [List.nodup_append]
      refine ⟨hids, List.nodup_singleton _, ?_⟩
      intro i hi hi1
      simp only [List.mem_singleton] at hi1
      subst hi1
      obtain ⟨x, hx, hxi⟩ := List.mem_map.1 hi
      have hx1 := hlt x hx
      rw [hxi] at hx1
      exact Nat.lt_irrefl _ hx1
    · intro x hx
      simp only [List.mem_append, List.mem_singleton] at hx
      rcases hx with hx | hx
      · exact Nat.lt_succ_of_lt (hlt x hx)
      · subst hx
        exact Nat.lt_succ_self _
  · cases hsave

/-- SaveDraft keeps the pairs and the ids of the applications distinct. -/
theorem saveDraft_unique (db : Db) (req : SaveDraftRequest)
    (hinv : UniqueApplications db ∧ DistinctIds db) :
    UniqueApplications (saveDraft db req).1 ∧ DistinctIds (saveDraft db req).1 := by
  unfold saveDraft
  by_cases hval : (saveDraftValidation req).isEmpty = true
  · simp only [hval, Bool.not_true, Bool.false_eq_true, if_false]
    repeat' split
    all_goals first
      | exact hinv
      | exact (uniqueApplications_saveApplication hinv ‹db.findApplication _ _ = some _›
          ‹db.saveApplication _ = some _› (by exact ⟨rfl, rfl, rfl⟩)).1
      | exact uniqueApplications_insertApplication hinv ‹db.findApplication _ _ = none›
          ‹db.insertApplication _ = some _› (by exact ⟨rfl, rfl⟩)
  · simpa [hval] using hinv

/-- Submit keeps the pairs and the ids of the applications distinct. -/
theorem submitApplication_unique (db : Db) (req : SubmitRequest)
    (hinv : UniqueApplications db ∧ DistinctIds db) :
    UniqueApplications (submitApplication db req).1 ∧
      DistinctIds (submitApplication db req).1 := by
  unfold submitApplication
  by_cases hval : (submitValidation req).isEmpty = true
  · simp only [hval, Bool.not_true, Bool.false_eq_true, if_false]
    repeat' split
    all_goals first
      | exact hinv
      | exact (uniqueApplications_saveApplication hinv ‹db.findApplication _ _ = some _›
          ‹db.saveApplication _ = some _› (by exact ⟨rfl, rfl, rfl⟩)).1
      | exact uniqueApplications_insertApplication hinv ‹db.findApplication _ _ = none›
          ‹db.insertApplication _ = some _› (by exact ⟨rfl, rfl⟩)
  · simpa [hval] using hinv

/-- Saving a loaded application adds no application. -/
theorem length_saveApplication {db db1 : Db} {doc : ApplicationForm}
    (hsave : db.saveApplication doc = some db1) :
    db1.applications.length = db.applications.length := by
  unfold Db.saveApplication at hsave
  split at hsave
  · simp only [Option.some.injEq] at hsave
    subst hsave
    exact length_updateFirst _ _ _
  · cases hsave

/-- SaveDraft creates no application for a pair that has one. -/
theorem saveDraft_length (db : Db) (req : SaveDraftRequest) (s c : ObjectId)
    (hs : req.studentId = .oid s) (hc : req.courseId = .oid c)
    (hsome : (db.findApplication s c).isSome = true) :
    (saveDraft db req).1.applications.length = db.applications.length := by
  unfold saveDraft
  by_cases hval : (saveDraftValidation req).isEmpty = true
  · simp only [hval, Bool.not_true, Bool.false_eq_true, if_false]
    repeat' split
    all_goals first
      | rfl
      | exact length_saveApplication ‹db.saveApplication _ = some _›
      | simp_all
  · simp [hval]

/-- Submit creates no application for a pair that has one. -/
theorem submitApplication_length (db : Db) (req : SubmitRequest) (s c : ObjectId)
    (hs : req.studentId = .oid s) (hc : req.courseId = .oid c)
    (hsome : (db.findApplication s c).isSome = true) :
    (submitApplication db req).1.applications.length = db.applications.length := by
  unfold submitApplication
  by_cases hval : (submitValidation req).isEmpty = true
  · simp only [hval, Bool.not_true, Bool.false_eq_true, if_false]
    repeat' split
    all_goals first
      | rfl
      | exact length_saveApplication ‹db.saveApplication _ = some _›
      | simp_all
  · simp [hval]

/-- C25. In every state reached by a sequence of SaveDraft and Submit calls
from a state with at most one application per pair of student and course (its
application ids being distinct and issued before the next id, as the database
guarantees), there is still at most one application per pair; and in such a
state neither operation adds an application for a pair that already has
one. -/
theorem draftSubmit_unique (db0 db : Db) (hunique : UniqueApplications db0)
    (hids : DistinctIds db0) (hreach : DraftSubmitReachable db0 db) :
    UniqueApplications db ∧
      (∀ (req : SaveDraftRequest) (s c : ObjectId), req.studentId = .oid s →
        req.courseId = .oid c → (db.findApplication s c).isSome = true →
        (saveDraft db req).1.applications.length = db.applications.length) ∧
      (∀ (req : SubmitRequest) (s c : ObjectId), req.studentId = .oid s →
        req.courseId = .oid c → (db.findApplication s c).isSome = true →
        (submitApplication db req).1.applications.length = db.applications.length) := by
  have hinv : UniqueApplications db ∧ DistinctIds db := by
    induction hreach with
    | start => exact ⟨hunique, hids⟩
    | saveDraft req _ ih => exact saveDraft_unique _ req ih
    | submit req _ ih => exact submitApplication_unique _ req ih
  exact ⟨hinv.1, fun req s c hs hc h => saveDraft_length db req s c hs hc h,
    fun req s c hs hc h => submitApplication_length db req s c hs hc h⟩

/-- Witness of C25: from the state with the draft of the student, the student
saves the draft again and submits it. -/
theorem draftSubmit_unique_witness :
    UniqueApplications (submitApplication (saveDraft draftDb sampleDraft).1 sampleSubmit).1 ∧
      (∀ (req : SaveDraftRequest) (s c : ObjectId), req.studentId = .oid s →
        req.courseId = .oid c →
        ((submitApplication (saveDraft draftDb sampleDraft).1 sampleSubmit).1.findApplication
          s c).isSome = true →
        (saveDraft (submitApplication (saveDraft draftDb sampleDraft).1 sampleSubmit).1
          req).1.applications.length =
          (submitApplication (saveDraft draftDb sampleDraft).1 sampleSubmit).1.applications.length) ∧
      (∀ (req : SubmitRequest) (s c : ObjectId), req.studentId = .oid s →
        req.courseId = .oid c →
        ((submitApplication (saveDraft draftDb sampleDraft).1 sampleSubmit).1.findApplication
          s c).isSome = true →
        (submitApplication (submitApplication (saveDraft draftDb sampleDraft).1 sampleSubmit).1
          req).1.applications.length =
          (submitApplication (saveDraft draftDb sampleDraft).1 sampleSubmit).1.applications.length) :=
  draftSubmit_unique draftDb _ (by unfold UniqueApplications; decide)
    (by unfold DistinctIds; decide)
    (.submit sampleSubmit (.saveDraft sampleDraft .start))

/-! ## Creation of users -/

/-- The handler either answers 201 and appends one user, whose role is the
requested one and is allowed for the requester, or answers another status and
writes nothing. -/
theorem createUser_result (db : Db) (requester : Identity) (body : CreateUserRequest) :
    ((createUser db requester body).2.status ≠ 201 ∧ (createUser db requester body).1 = db) ∨
      ((createUser db requester body).2.status = 201 ∧
        (if requester.role = .admin then allowedRolesForAdmin
          else allowedRolesForVerificationAdmin).contains body.role = true ∧
        ∃ u : User, Role.ofString body.role = some u.role ∧ u.id = db.nextId ∧
          u.email = body.email ∧ u.name = body.name ∧
          (createUser db requester body).1.users = db.users ++ [u] ∧
          (createUser db requester body).1.applications = db.applications ∧
          (createUser db requester body).1.payments = db.payments) := by
  unfold createUser
  split
  · exact Or.inl ⟨by simp [reply], rfl⟩
  · by_cases hadmin : requester.role = .admin
    all_goals simp only [hadmin, if_true, if_false]
    split
    · exact Or.inl ⟨by simp [reply], rfl⟩
    · rename_i hallowed
      split
      · exact Or.inl ⟨by simp [reply], rfl⟩
      · split
        · rename_i response hresponse
          refine Or.inl ⟨?_, rfl⟩
          revert hresponse
          unfold checkCourse
          repeat' split
          all_goals intro h
          all_goals cases h
          all_goals simp [reply]
        · split
          · exact Or.inl ⟨by simp [reply], rfl⟩
          · rename_i role hrole
            refine Or.inr ⟨rfl, by simpa using hallowed, _, ?_, rfl, rfl, rfl, rfl, rfl, rfl⟩
            exact hrole
    split
    · exact Or.inl ⟨by simp [reply], rfl⟩
    · rename_i hallowed
      split
      · exact Or.inl ⟨by simp [reply], rfl⟩
      · split
        · rename_i response hresponse
          refine Or.inl ⟨?_, rfl⟩
          revert hresponse
          unfold checkCourse
          repeat' split
          all_goals intro h
          all_goals cases h
          all_goals simp [reply]
        · split
          · exact Or.inl ⟨by simp [reply], rfl⟩
          · rename_i role hrole
            refine Or.inr ⟨rfl, by simpa using hallowed, _, ?_, rfl, rfl, rfl, rfl, rfl, rfl⟩
            exact hrole

/-- The handler answers 400 and writes nothing when the requested role is not
in the list allowed for the requester. -/
theorem createUser_denied (db : Db) (requester : Identity) (body : CreateUserRequest)
    (h : (if requester.role = .admin then allowedRolesForAdmin
      else allowedRolesForVerificationAdmin).contains body.role = false) :
    (createUser db requester body).1 = db ∧ (createUser db requester body).2.status = 400 := by
  unfold createUser
  split
  · exact ⟨rfl, rfl⟩
  · simp only []
    rw [h]
    exact ⟨rfl, rfl⟩

/-- The roles named by the strings allowed for an admin. -/
theorem ofString_allowedForAdmin (s : String) (role : Role)
    (h : allowedRolesForAdmin.contains s = true) (hr : Role.ofString s = some role) :
    role ∈ [Role.admin, Role.content_admin, Role.verification_admin, Role.student,
      Role.faculty] := by
  simp [allowedRolesForAdmin] at h
  rcases h with h | h | h | h | h
  all_goals subst h
  all_goals cases hr
  all_goals decide

/-- The role named by the string allowed for a verification admin. -/
theorem ofString_allowedForVerificationAdmin (s : String) (role : Role)
    (h : allowedRolesForVerificationAdmin.contains s = true) (hr : Role.ofString s = some role) :
    role = Role.verification_officer := by
  simp [allowedRolesForVerificationAdmin] at h
  subst h
  cases hr
  rfl

/-- The route passes a caller who is an admin or a verification admin to the
handler. -/
theorem createUserRoute_pass (db : Db) (caller : Identity) (body : CreateUserRequest)
    (h : caller.role = .admin ∨ caller.role = .verification_admin) :
    createUserRoute db caller body = createUser db caller body := by
  unfold createUserRoute authorizeAdminOrVerificationAdmin
  rcases h with h | h <;> simp [h]

/-- The route answers 403 to every other caller and writes nothing. -/
theorem createUserRoute_forbidden (db : Db) (caller : Identity) (body : CreateUserRequest)
    (h : ¬ (caller.role = .admin ∨ caller.role = .verification_admin)) :
    createUserRoute db caller body =
      (db, reply 403 "Access denied. Admins or Verification Admins only.") := by
  unfold createUserRoute authorizeAdminOrVerificationAdmin
  cases hr : caller.role <;> simp_all

/-- C26. For every request to `/api/users/create`: when a user is created
(status 201) exactly one user record is appended, its role is the requested
one, and either the caller is a verification admin and the role is
verification officer, or the caller is an admin and the role is admin,
content admin, verification admin, student or faculty; a request for any
other role, or from a caller of any other role, creates no user and is
answered 400 or 403 (403 for a caller who is neither); and every request not
answered 201 leaves the database unchanged. -/
theorem createUserRoute_role_scope (db : Db) (caller : Identity) (body : CreateUserRequest) :
    ((createUserRoute db caller body).2.status = 201 →
      ∃ u : User, (createUserRoute db caller body).1.users = db.users ++ [u] ∧
        Role.ofString body.role = some u.role ∧
        ((caller.role = .verification_admin ∧ u.role = .verification_officer) ∨
          (caller.role = .admin ∧
            u.role ∈ [Role.admin, Role.content_admin, Role.verification_admin, Role.student,
              Role.faculty]))) ∧
      (mayCreate caller.role body.role = false →
        (createUserRoute db caller body).1 = db ∧
          ((createUserRoute db caller body).2.status = 400 ∨
            (createUserRoute db caller body).2.status = 403)) ∧
      (¬ (caller.role = .admin ∨ caller.role = .verification_admin) →
        (createUserRoute db caller body).1 = db ∧
          (createUserRoute db caller body).2.status = 403) ∧
      ((createUserRoute db caller body).2.status ≠ 201 →
        (createUserRoute db caller body).1 = db) := by
  by_cases hcaller : caller.role = .admin ∨ caller.role = .verification_admin
  · rw [createUserRoute_pass db caller body hcaller]
    refine ⟨?_, ?_, fun h => absurd hcaller h, ?_⟩
    · intro hok
      rcases createUser_result db caller body with ⟨hne, _⟩ | ⟨_, hallowed, u, hrole, _, _, _, hu, _, _⟩
      · exact absurd hok hne
      · refine ⟨u, hu, hrole, ?_⟩
        rcases hcaller with hc | hc
        · rw [if_pos hc] at hallowed
          exact Or.inr ⟨hc, ofString_allowedForAdmin _ _ hallowed hrole⟩
        · rw [if_neg (by rw [hc]; decide)] at hallowed
          exact Or.inl ⟨hc, ofString_allowedForVerificationAdmin _ _ hallowed hrole⟩
    · intro hmay
      have hdenied : (if caller.role = .admin then allowedRolesForAdmin
          else allowedRolesForVerificationAdmin).contains body.role = false := by
        rcases hcaller with hc | hc
        · rw [if_pos hc]
          simp [mayCreate, hc] at hmay
          simp [allowedRolesForAdmin]
          tauto
        · rw [if_neg (by rw [hc]; decide)]
          simp [mayCreate, hc] at hmay
          simp [allowedRolesForVerificationAdmin]
          tauto
      exact ⟨(createUser_denied db caller body hdenied).1,
        Or.inl (createUser_denied db caller body hdenied).2⟩
    · intro hne
      rcases createUser_result db caller body with ⟨_, hdb⟩ | ⟨hok, _⟩
      · exact hdb
      · exact absurd hok hne
  · rw [createUserRoute_forbidden db caller body hcaller]
    exact ⟨fun h => by simp [reply] at h, fun _ => ⟨rfl, Or.inr rfl⟩, fun _ => ⟨rfl, rfl⟩,
      fun _ => rfl⟩

/-- Witness of C26: a verification admin creates a verification officer for
course 10; an admin asks for the same role, which only a verification admin
may give, and no user is created, the answer being 400. -/
theorem createUserRoute_role_scope_witness :
    (∃ u : User,
      (createUserRoute sampleDb verificationAdminIdentity officerRequest).1.users =
        sampleDb.users ++ [u] ∧
      Role.ofString officerRequest.role = some u.role ∧
      ((verificationAdminIdentity.role = .verification_admin ∧
          u.role = .verification_officer) ∨
        (verificationAdminIdentity.role = .admin ∧
          u.role ∈ [Role.admin, Role.content_admin, Role.verification_admin, Role.student,
            Role.faculty]))) ∧
      ((createUserRoute sampleDb adminIdentity officerRequest).1 = sampleDb ∧
        ((createUserRoute sampleDb adminIdentity officerRequest).2.status = 400 ∨
          (createUserRoute sampleDb adminIdentity officerRequest).2.status = 403)) :=
  ⟨(createUserRoute_role_scope sampleDb verificationAdminIdentity officerRequest).1 (by decide),
    (createUserRoute_role_scope sampleDb adminIdentity officerRequest).2.1 (by decide)⟩

/-! ## Where a decided status comes from -/

/-- A state with the same applications has no new decision. -/
theorem decisionsKept_of_eq {db db1 : Db} (h : db1.applications = db.applications) :
    DecisionsKept db db1 := by
  intro a1 ha1 _
  rw [h] at ha1
  exact ⟨a1, ha1, rfl, rfl⟩

/-- No new decision over two steps when there is none over each. -/
theorem decisionsKept_trans {db db1 db2 : Db} (h1 : DecisionsKept db db1)
    (h2 : DecisionsKept db1 db2) : DecisionsKept db db2 := by
  intro a2 ha2 hd
  obtain ⟨a1, ha1, hid1, hst1⟩ := h2 a2 ha2 hd
  obtain ⟨a, ha, hid, hst⟩ := h1 a1 ha1 (by rw [hst1]; exact hd)
  exact ⟨a, ha, hid.trans hid1, hst.trans hst1⟩

/-- Saving a document that is a draft or pending, or has the id and the
status of a stored application, makes no new decision. -/
theorem decisionsKept_saveApplication {db db1 : Db} {doc : ApplicationForm}
    (hsave : db.saveApplication doc = some db1)
    (hdoc : (doc.status = .draft ∨ doc.status = .pending) ∨
      ∃ a ∈ db.applications, a.id = doc.id ∧ a.status = doc.status) :
    DecisionsKept db db1 := by
  unfold Db.saveApplication at hsave
  split at hsave
  · simp only [Option.some.injEq] at hsave
    subst hsave
    intro a1 ha1 hd
    rcases mem_updateFirst _ _ _ _ ha1 with h | ⟨b, _, _, hx⟩
    · exact ⟨a1, h, rfl, rfl⟩
    · subst hx
      rcases hdoc with (h | h) | h
      · rw [h] at hd
        rcases hd with hd | hd <;> cases hd
      · rw [h] at hd
        rcases hd with hd | hd <;> cases hd
      · exact h
  · cases hsave

/-- Inserting a document that is a draft or pending makes no new decision. -/
theorem decisionsKept_insertApplication {db db1 : Db} {doc : ApplicationForm}
    (hsave : db.insertApplication doc = some db1)
    (hdoc : doc.status = .draft ∨ doc.status = .pending) : DecisionsKept db db1 := by
  unfold Db.insertApplication at hsave
  split at hsave
  · simp only [Option.some.injEq] at hsave
    subst hsave
    intro a1 ha1 hd
    simp only [List.mem_append, List.mem_singleton] at ha1
    rcases ha1 with h | h
    · exact ⟨a1, h, rfl, rfl⟩
    · subst h
      rcases hdoc with h | h
      · simp only [h] at hd
        rcases hd with hd | hd <;> cases hd
      · simp only [h] at hd
        rcases hd with hd | hd <;> cases hd
  · cases hsave

/-- Setting an officer makes no new decision. -/
theorem decisionsKept_setAssignedOfficer (db : Db) (applicationId officerId : ObjectId) :
    DecisionsKept db (db.setAssignedOfficer applicationId officerId) := by
  intro a1 ha1 _
  rcases mem_updateFirst _ _ _ _ ha1 with h | ⟨b, hb, _, hx⟩
  · exact ⟨a1, h, rfl, rfl⟩
  · subst hx
    exact ⟨b, hb, rfl, rfl⟩

/-- SaveDraft makes no decision. -/
theorem saveDraft_decisionsKept (db : Db) (req : SaveDraftRequest) :
    DecisionsKept db (saveDraft db req).1 := by
  unfold saveDraft
  by_cases hval : (saveDraftValidation req).isEmpty = true
  · simp only [hval, Bool.not_true, Bool.false_eq_true, if_false]
    repeat' split
    all_goals first
      | exact decisionsKept_of_eq rfl
      | exact decisionsKept_saveApplication ‹db.saveApplication _ = some _› (Or.inl (Or.inl rfl))
      | exact decisionsKept_insertApplication ‹db.insertApplication _ = some _› (Or.inl rfl)
  · simpa [hval] using decisionsKept_of_eq rfl

/-- Submit makes no decision. -/
theorem submitApplication_decisionsKept (db : Db) (req : SubmitRequest) :
    DecisionsKept db (submitApplication db req).1 := by
  unfold submitApplication
  by_cases hval : (submitValidation req).isEmpty = true
  · simp only [hval, Bool.not_true, Bool.false_eq_true, if_false]
    repeat' split
    all_goals first
      | exact decisionsKept_of_eq rfl
      | exact decisionsKept_saveApplication ‹db.saveApplication _ = some _› (Or.inl (Or.inr rfl))
      | exact decisionsKept_insertApplication ‹db.insertApplication _ = some _› (Or.inr rfl)
  · simpa [hval] using decisionsKept_of_eq rfl

/-- AssignOfficer makes no decision. -/
theorem assignStudent_decisionsKept (db : Db) (studentId officerId : IdParam) :
    DecisionsKept db (assignStudent db studentId officerId).1 := by
  unfold assignStudent
  repeat' split
  all_goals first
    | exact decisionsKept_of_eq rfl
    | skip
  intro a1 ha1 _
  rcases mem_updateFirst _ _ _ _ ha1 with h | ⟨b, hb, _, hx⟩
  · exact ⟨a1, h, rfl, rfl⟩
  · subst hx
    exact ⟨b, hb, rfl, rfl⟩

/-- The inner loop makes no decision. -/
theorem assignBatch_decisionsKept (db : Db) (o : ObjectId) (batch : List ApplicationForm) :
    ∀ acc : Db × Nat, DecisionsKept db acc.1 → DecisionsKept db (assignBatch o batch acc).1 := by
  induction batch with
  | nil => intro acc h; simpa [assignBatch] using h
  | cons b bs ih =>
    intro acc h
    rw [assignBatch_cons]
    exact ih _ (decisionsKept_trans h (decisionsKept_setAssignedOfficer _ b.id o))

/-- The distribution loop makes no decision. -/
theorem distribute_decisionsKept (db : Db) (V : List ApplicationForm) (O : List User)
    (hO : 0 < O.length) (B : Nat) :
    ∀ (fuel i k : Nat) (acc res : Db × Nat), DecisionsKept db acc.1 →
      distribute V O hO B fuel i k acc = some res → DecisionsKept db res.1 := by
  intro fuel
  induction fuel with
  | zero => intro i k acc res _ h; simp [distribute] at h
  | succ fuel ih =>
    intro i k acc res hinv h
    unfold distribute at h
    by_cases hi : i < V.length
    · simp only [hi, if_true] at h
      exact ih _ _ _ _ (assignBatch_decisionsKept db _ _ _ hinv) h
    · simp only [hi, if_false, Option.some.injEq] at h
      exact h ▸ hinv

/-- BatchAssignOfficers makes no decision. -/
theorem assignOfficers_decisionsKept (db : Db) (courseId : IdParam) (batchSize : Nat) (db1 : Db)
    (response : Response) (h : assignOfficers db courseId batchSize = some (db1, response)) :
    DecisionsKept db db1 := by
  have hinv : DecisionsKept db db := decisionsKept_of_eq rfl
  unfold assignOfficers at h
  cases courseId with
  | missing => simp only [Option.some.injEq, Prod.mk.injEq] at h; exact h.1 ▸ hinv
  | malformed => simp only [Option.some.injEq, Prod.mk.injEq] at h; exact h.1 ▸ hinv
  | oid id =>
    simp only at h
    cases hcourse : db.findCourseById id with
    | none =>
      simp only [hcourse, Option.some.injEq, Prod.mk.injEq] at h
      exact h.1 ▸ hinv
    | some course =>
      simp only [hcourse] at h
      split at h
      · simp only [Option.some.injEq, Prod.mk.injEq] at h
        exact h.1 ▸ hinv
      · split at h
        · simp only [Option.some.injEq, Prod.mk.injEq] at h
          exact h.1 ▸ hinv
        · split at h
          · cases h
          · rename_i heq
            simp only [Option.some.injEq, Prod.mk.injEq] at h
            have := distribute_decisionsKept db _ _ _ _ _ _ _ _ _ hinv heq
            exact h.1 ▸ this

/-- SaveComments makes no decision. -/
theorem saveApplicationComments_decisionsKept (db : Db) (user : Identity)
    (applicationId : IdParam) (body : CommentsRequest) :
    DecisionsKept db (saveApplicationComments db user applicationId body).1 := by
  have hinv : DecisionsKept db db := decisionsKept_of_eq rfl
  unfold saveApplicationComments
  cases applicationId with
  | missing => exact hinv
  | malformed => exact hinv
  | oid id =>
    simp only
    cases happ : db.findApplicationById id with
    | none => exact hinv
    | some application =>
      simp only
      split
      · exact hinv
      · cases hsave : db.saveApplication (applyComments application body) with
        | none => exact hinv
        | some db1 =>
          exact decisionsKept_saveApplication hsave
            (Or.inr ⟨application, List.mem_of_find?_eq_some happ, (applyComments_id _ _).symm,
              (applyComments_status _ _).symm⟩)

/-- Marking comments read makes no decision. -/
theorem markCommentsRead_decisionsKept (db : Db) (user : Identity) (applicationId : IdParam) :
    DecisionsKept db (markCommentsRead db user applicationId).1 := by
  have hinv : DecisionsKept db db := decisionsKept_of_eq rfl
  unfold markCommentsRead
  cases applicationId with
  | missing => exact hinv
  | malformed => exact hinv
  | oid id =>
    simp only
    cases happ : db.applications.find? (fun a => a.id == id && a.studentId == user.userId) with
    | none => exact hinv
    | some application =>
      simp only
      cases hsave : db.saveApplication { application with commentsRead := true } with
      | none => exact hinv
      | some db1 =>
        exact decisionsKept_saveApplication hsave
          (Or.inr ⟨application, List.mem_of_find?_eq_some happ, rfl, rfl⟩)

/-- Process makes no decision. -/
theorem processPayment_decisionsKept (db : Db) (user : Identity) (req : ProcessRequest) :
    DecisionsKept db (processPayment db user req).1 := by
  unfold processPayment
  repeat' split
  all_goals exact decisionsKept_of_eq rfl

/-- A Decide call that is not answered 200 writes nothing. -/
theorem verifyApplication_unchanged (db : Db) (user : Identity) (applicationId : IdParam)
    (body : VerifyRequest) (h : (verifyApplication db user applicationId body).2.status ≠ 200) :
    (verifyApplication db user applicationId body).1 = db := by
  revert h
  unfold verifyApplication
  cases body.verified with
  | none => intro _; rfl
  | some v =>
    cases applicationId with
    | missing => intro _; rfl
    | malformed => intro _; rfl
    | oid id =>
      simp only
      cases db.findApplicationById id with
      | none => intro _; rfl
      | some a =>
        simp only
        cases db.findUserById a.studentId with
        | none => intro _; rfl
        | some student =>
          simp only
          split
          · intro _; rfl
          · split
            · intro _; rfl
            · cases db.saveApplication (applyDecision a user.userId v body) with
              | none => intro _; rfl
              | some db1 => intro h; exact absurd rfl h

/-- C27, as amended. The status of an application becomes verified or
rejected only by a Decide call that succeeds: every other operation call
leaves each application that is verified or rejected afterwards with the
status it had. Decide does not look at the status the application has: for
every application, a draft included, that is assigned to the caller, whose
student has a user record and whose document descriptors are complete, Decide
by the caller succeeds (a completed payment being stored when the decision is
to verify) and moves the application to verified or rejected. -/
theorem decided_only_by_decide :
    (∀ db db1 : Db, Step db db1 →
      DecisionsKept db db1 ∨
        ∃ (user : Identity) (id : ObjectId) (body : VerifyRequest),
          (verifyApplication db user (.oid id) body).2.status = 200 ∧
            db1 = (verifyApplication db user (.oid id) body).1) ∧
      (∀ (db : Db) (user : Identity) (id : ObjectId) (body : VerifyRequest) (v : Bool)
        (a : ApplicationForm) (student : User),
        body.verified = some v → db.findApplicationById id = some a →
        db.findUserById a.studentId = some student → a.assignedOfficer = some user.userId →
        (v && db.completedPaymentMissing id) = false →
        formDataValidator .pending a.formData = true →
        (verifyApplication db user (.oid id) body).2.status = 200 ∧
          ∃ a1, (verifyApplication db user (.oid id) body).1.findApplicationById id = some a1 ∧
            a1.status = if v then Status.verified else Status.rejected) := by
  constructor
  · intro db db1 h
    cases h with
    | saveDraft req => exact Or.inl (saveDraft_decisionsKept db req)
    | submit req => exact Or.inl (submitApplication_decisionsKept db req)
    | assignOfficer s o => exact Or.inl (assignStudent_decisionsKept db s o)
    | batchAssignOfficers c b _ r hr => exact Or.inl (assignOfficers_decisionsKept db c b db1 r hr)
    | verify u i b =>
      by_cases hok : (verifyApplication db u i b).2.status = 200
      · cases i with
        | missing =>
          unfold verifyApplication at hok
          cases hb : b.verified <;> simp [hb, reply] at hok
        | malformed =>
          unfold verifyApplication at hok
          cases hb : b.verified <;> simp [hb, reply] at hok
        | oid id => exact Or.inr ⟨u, id, b, hok, rfl⟩
      · exact Or.inl (decisionsKept_of_eq (by rw [verifyApplication_unchanged db u i b hok]))
    | saveComments u i b => exact Or.inl (saveApplicationComments_decisionsKept db u i b)
    | markCommentsRead u i => exact Or.inl (markCommentsRead_decisionsKept db u i)
    | process u r => exact Or.inl (processPayment_decisionsKept db u r)
  · intro db user id body v a student hv ha hs ho hp hval
    obtain ⟨hst, happs, _, _⟩ := verifyApplication_pass db user id body v a student hv ha hs ho hp hval
    have hid := findApplicationById_id ha
    refine ⟨hst, applyDecision a user.userId v body, ?_, applyDecision_status _ _ _ _⟩
    unfold Db.findApplicationById at ha ⊢
    rw [happs]
    exact find_updateFirst_const _ _ a _ _ ha (by simp [hid]) (by simp [applyDecision_id, hid])

/-- Counterexample to C27 as stated: the draft of the student, never
submitted, is assigned to the first officer, who rejects it; Decide answers
200 and the status of the draft is rejected. -/
theorem decided_only_by_decide_counterexample :
    (assignedDraftDb.findApplicationById 100).map (fun a => a.status) = some Status.draft ∧
      (verifyApplication assignedDraftDb officerIdentity (.oid 100)
        ⟨some false, none, none⟩).2.status = 200 ∧
      ((verifyApplication assignedDraftDb officerIdentity (.oid 100)
        ⟨some false, none, none⟩).1.findApplicationById 100).map (fun a => a.status) =
        some Status.rejected := by
  decide

/-- Instance of C27 as amended: the rejection of the assigned draft. -/
theorem decided_only_by_decide_witness :
    (verifyApplication assignedDraftDb officerIdentity (.oid 100)
        ⟨some false, none, none⟩).2.status = 200 ∧
      ∃ a1, (verifyApplication assignedDraftDb officerIdentity (.oid 100)
          ⟨some false, none, none⟩).1.findApplicationById 100 = some a1 ∧
        a1.status = if false then Status.verified else Status.rejected :=
  decided_only_by_decide.2 assignedDraftDb officerIdentity 100 ⟨some false, none, none⟩ false
    { draftApplication with assignedOfficer := some 2 } sampleStudent (by decide) (by decide)
    (by decide) (by decide) (by decide) (by decide)

/-! ## The officers written by the assignments -/

/-- Nothing written yet. -/
theorem assignedFrom_refl (db : Db) (officers : List User) :
    AssignedFrom db officers db.applications :=
  fun _ h => Or.inl h

/-- One more update with the id of a user of the list. -/
theorem assignedFrom_setAssignedOfficer {db acc : Db} {officers : List User} {u : User}
    (h : AssignedFrom db officers acc.applications) (hu : u ∈ officers) (id : ObjectId) :
    AssignedFrom db officers (acc.setAssignedOfficer id u.id).applications := by
  intro a1 ha1
  rcases mem_updateFirst _ _ _ _ ha1 with h1 | ⟨b, hb, _, hx⟩
  · exact h a1 h1
  · subst hx
    rcases h b hb with hb1 | ⟨a, ha, u1, _, hb1⟩
    · exact Or.inr ⟨b, hb1, u, hu, rfl⟩
    · subst hb1
      exact Or.inr ⟨a, ha, u, hu, rfl⟩

/-- The inner loop writes the id of the current officer only. -/
theorem assignBatch_assignedFrom (db : Db) (officers : List User) (u : User) (hu : u ∈ officers)
    (batch : List ApplicationForm) :
    ∀ acc : Db × Nat, AssignedFrom db officers acc.1.applications →
      AssignedFrom db officers (assignBatch u.id batch acc).1.applications := by
  induction batch with
  | nil => intro acc h; simpa [assignBatch] using h
  | cons b bs ih =>
    intro acc h
    rw [assignBatch_cons]
    exact ih _ (assignedFrom_setAssignedOfficer h hu b.id)

/-- The distribution loop writes ids of the officers of its list only. -/
theorem distribute_assignedFrom (db : Db) (V : List ApplicationForm) (O : List User)
    (hO : 0 < O.length) (B : Nat) :
    ∀ (fuel i k : Nat) (acc res : Db × Nat), AssignedFrom db O acc.1.applications →
      distribute V O hO B fuel i k acc = some res → AssignedFrom db O res.1.applications := by
  intro fuel
  induction fuel with
  | zero => intro i k acc res _ h; simp [distribute] at h
  | succ fuel ih =>
    intro i k acc res hinv h
    unfold distribute at h
    by_cases hi : i < V.length
    · simp only [hi, if_true] at h
      exact ih _ _ _ _ (assignBatch_assignedFrom db O _ (List.get_mem _ _ _) _ _ hinv) h
    · simp only [hi, if_false, Option.some.injEq] at h
      exact h ▸ hinv

/-- BatchAssignOfficers writes ids of the officers of the course only. -/
theorem assignOfficers_assignedFrom (db : Db) (courseId : ObjectId) (batchSize : Nat) (db1 : Db)
    (response : Response) (h : assignOfficers db (.oid courseId) batchSize = some (db1, response)) :
    AssignedFrom db (db.courseOfficers courseId) db1.applications := by
  have hinv := assignedFrom_refl db (db.courseOfficers courseId)
  unfold assignOfficers at h
  simp only at h
  cases hcourse : db.findCourseById courseId with
  | none =>
    simp only [hcourse, Option.some.injEq, Prod.mk.injEq] at h
    exact h.1 ▸ hinv
  | some course =>
    simp only [hcourse] at h
    split at h
    · simp only [Option.some.injEq, Prod.mk.injEq] at h
      exact h.1 ▸ hinv
    · split at h
      · simp only [Option.some.injEq, Prod.mk.injEq] at h
        exact h.1 ▸ hinv
      · split at h
        · cases h
        · rename_i heq
          simp only [Option.some.injEq, Prod.mk.injEq] at h
          have := distribute_assignedFrom db _ _ _ _ _ _ _ _ _ hinv heq
          exact h.1 ▸ this

/-- AssignOfficer writes the id of a verification officer only. -/
theorem assignStudent_assignedFrom (db : Db) (studentId officerId : IdParam) :
    AssignedFrom db (db.users.filter (fun u => u.role = .verification_officer))
      (assignStudent db studentId officerId).1.applications := by
  have hinv := assignedFrom_refl db (db.users.filter (fun u => u.role = .verification_officer))
  unfold assignStudent
  cases officerId with
  | missing => exact hinv
  | malformed => exact hinv
  | oid o =>
    simp only
    cases hofficer : db.findUserById o with
    | none => exact hinv
    | some officer =>
      simp only
      split
      · exact hinv
      · rename_i hrole
        have hid := findUserById_id hofficer
        have hmem : officer ∈ db.users.filter (fun u => u.role = .verification_officer) := by
          rw [List.mem_filter]
          exact ⟨List.mem_of_find?_eq_some hofficer, by simpa using hrole⟩
        repeat' split
        all_goals first
          | exact hinv
          | skip
        intro a1 ha1
        rcases mem_updateFirst _ _ _ _ ha1 with h1 | ⟨b, hb, _, hx⟩
        · exact Or.inl h1
        · subst hx
          exact Or.inr ⟨b, hb, officer, hmem, by rw [hid]⟩

/-- C28. Every value written to the `assignedOfficer` of an application by
AssignOfficer is the id of a stored user whose role is verification officer,
and every value written by BatchAssignOfficers is the id of a stored user
whose role is verification officer and who lists the course: each
application after the call is an application from before, or one of them
with such an id as `assignedOfficer` and nothing else changed. AssignOfficer
with an officer id that is absent, malformed, unknown, or the id of a user of
another role answers 400 and changes nothing. -/
theorem assignedOfficer_is_officer :
    (∀ (db : Db) (studentId officerId : IdParam),
      ∀ a1 ∈ (assignStudent db studentId officerId).1.applications,
        a1 ∈ db.applications ∨
          ∃ a ∈ db.applications, ∃ u ∈ db.users,
            u.role = .verification_officer ∧ a1 = { a with assignedOfficer := some u.id }) ∧
      (∀ (db : Db) (courseId : ObjectId) (batchSize : Nat) (db1 : Db) (response : Response),
        assignOfficers db (.oid courseId) batchSize = some (db1, response) →
        ∀ a1 ∈ db1.applications,
          a1 ∈ db.applications ∨
            ∃ a ∈ db.applications, ∃ u ∈ db.users,
              u.role = .verification_officer ∧ courseId ∈ u.courses ∧
                a1 = { a with assignedOfficer := some u.id }) ∧
      (∀ (db : Db) (studentId officerId : IdParam),
        (officerId = .missing ∨ officerId = .malformed ∨
          ∃ o, officerId = .oid o ∧
            (db.findUserById o = none ∨
              ∃ u, db.findUserById o = some u ∧ u.role ≠ .verification_officer)) →
        assignStudent db studentId officerId = (db, reply 400 "Invalid officer ID")) := by
  refine ⟨?_, ?_, ?_⟩
  · intro db studentId officerId a1 ha1
    rcases assignStudent_assignedFrom db studentId officerId a1 ha1 with h | ⟨a, ha, u, hu, h⟩
    · exact Or.inl h
    · rw [List.mem_filter] at hu
      exact Or.inr ⟨a, ha, u, hu.1, by simpa using hu.2, h⟩
  · intro db courseId batchSize db1 response hrun a1 ha1
    rcases assignOfficers_assignedFrom db courseId batchSize db1 response hrun a1 ha1 with
      h | ⟨a, ha, u, hu, h⟩
    · exact Or.inl h
    · unfold Db.courseOfficers at hu
      rw [List.mem_filter] at hu
      have hu2 := hu.2
      simp only [Bool.and_eq_true, decide_eq_true_eq, List.contains_eq_any_beq, List.any_eq_true,
        beq_iff_eq] at hu2
      obtain ⟨hrole, c, hc, hcc⟩ := hu2
      exact Or.inr ⟨a, ha, u, hu.1, hrole, by rw [hcc]; exact hc, h⟩
  · intro db studentId officerId h
    unfold assignStudent
    rcases h with h | h | ⟨o, h, hnone | ⟨u, hu, hrole⟩⟩
    · subst h; rfl
    · subst h; rfl
    · subst h
      simp only [hnone]
    · subst h
      simp only [hu]
      rw [if_pos hrole]

/-- Witness of C28: the admin names the student as the officer; the call is
answered 400 and nothing changes. -/
theorem assignedOfficer_is_officer_witness :
    assignStudent submittedDb (.oid 1) (.oid 1) = (submittedDb, reply 400 "Invalid officer ID") :=
  assignedOfficer_is_officer.2.2 submittedDb (.oid 1) (.oid 1)
    (Or.inr (Or.inr ⟨1, rfl, Or.inr ⟨sampleStudent, by decide, by decide⟩⟩))

/-! ## BatchAssignOfficers: termination and count -/

/-- With a batch size of at least one and enough iterations the distribution
loop returns, and it has counted every valid application from its start index
on once. -/
theorem distribute_total (V : List ApplicationForm) (O : List User) (hO : 0 < O.length)
    (B : Nat) (hB : 1 ≤ B) :
    ∀ (fuel i k : Nat) (acc : Db × Nat), V.length + 1 ≤ i + fuel → 1 ≤ fuel →
      ∃ res, distribute V O hO B fuel i k acc = some res ∧ res.2 = acc.2 + (V.length - i) := by
  intro fuel
  induction fuel with
  | zero => intro i k acc _ h1; omega
  | succ fuel ih =>
    intro i k acc hfuel _
    unfold distribute
    by_cases hi : i < V.length
    · simp only [hi, if_true]
      obtain ⟨res, hres, hcount⟩ := ih (i + B) (k + 1)
        (assignBatch (O.get ⟨k % O.length, Nat.mod_lt k hO⟩).id ((V.drop i).take B) acc)
        (by omega) (by omega)
      refine ⟨res, hres, ?_⟩
      rw [hcount, assignBatch_count, List.length_take, List.length_drop, Nat.min_def]
      split <;> omega
    · simp only [hi, if_false]
      exact ⟨acc, rfl, by omega⟩

/-- The handler with a batch size of at least one returns, answers 200 and
reports as many assignments as there are valid applications. -/
theorem assignOfficers_total (db : Db) (courseId : ObjectId) (batchSize : Nat)
    (hcourse : (db.findCourseById courseId).isSome = true)
    (hN : 1 ≤ (db.validApplications courseId).length)
    (hM : 1 ≤ (db.courseOfficers courseId).length) (hB : 1 ≤ batchSize) :
    ∃ db1 response, assignOfficers db (.oid courseId) batchSize = some (db1, response) ∧
      response.status = 200 ∧
      response.totalAssigned = (db.validApplications courseId).length := by
  obtain ⟨course, hc⟩ := Option.isSome_iff_exists.1 hcourse
  have hN0 : ¬ (db.validApplications courseId).length = 0 := by omega
  have hM0 : ¬ (db.courseOfficers courseId).length = 0 := by omega
  obtain ⟨res, hres, hcount⟩ := distribute_total (db.validApplications courseId)
    (db.courseOfficers courseId) (Nat.pos_of_ne_zero hM0) batchSize hB
    ((db.validApplications courseId).length + 1) 0 0 (db, 0) (by omega) (by omega)
  refine ⟨res.1,
    { status := 200,
      message := "Applications distributed successfully among " ++
        toString (db.courseOfficers courseId).length ++ " officers",
      totalAssigned := res.2 }, ?_, rfl, ?_⟩
  · unfold assignOfficers
    simp only [hc, hN0, hM0, if_false, dite_false, hres]
  · simpa using hcount

/-- The handler with a batch size of zero does not return when the course has
a valid application and an officer. -/
theorem assignOfficers_zero_batch (db : Db) (courseId : ObjectId)
    (hcourse : (db.findCourseById courseId).isSome = true)
    (hN : 1 ≤ (db.validApplications courseId).length)
    (hM : 1 ≤ (db.courseOfficers courseId).length) :
    assignOfficers db (.oid courseId) 0 = none := by
  obtain ⟨course, hc⟩ := Option.isSome_iff_exists.1 hcourse
  have hN0 : ¬ (db.validApplications courseId).length = 0 := by omega
  have hM0 : ¬ (db.courseOfficers courseId).length = 0 := by omega
  unfold assignOfficers
  simp only [hc, hN0, hM0, if_false, dite_false]
  rw [distribute_zero_batch _ _ _ (by omega)]

/-- One update by the id of a valid application keeps every position whose
application is not valid, and the id at every position. -/
theorem setAssignedOfficer_frame {db acc : Db} {V : List ApplicationForm}
    (hids : (db.applications.map (fun a => a.id)).Nodup) (hV : V ⊆ db.applications)
    (hinv : ∀ (i : Nat) (x : ApplicationForm), db.applications[i]? = some x →
      ∃ y, acc.applications[i]? = some y ∧ y.id = x.id ∧ (x ∉ V → y = x))
    (b : ApplicationForm) (hb : b ∈ V) (o : ObjectId) :
    ∀ (i : Nat) (x : ApplicationForm), db.applications[i]? = some x →
      ∃ y, (acc.setAssignedOfficer b.id o).applications[i]? = some y ∧ y.id = x.id ∧
        (x ∉ V → y = x) := by
  intro i x hx
  obtain ⟨y, hy, hyid, hyx⟩ := hinv i x hx
  obtain ⟨y1, hy1, h | ⟨hp, h⟩⟩ := getElem_updateFirst (fun a => a.id == b.id)
    (fun a => { a with assignedOfficer := some o }) acc.applications i y hy
  · exact ⟨y1, hy1, by rw [h, hyid], fun hxV => by rw [h, hyx hxV]⟩
  · refine ⟨y1, hy1, by rw [h]; exact hyid, fun hxV => ?_⟩
    have hxb : x.id = b.id := by rw [← hyid]; simpa using hp
    have hxmem : x ∈ db.applications := List.mem_iff_getElem?.2 ⟨i, hx⟩
    exact absurd (List.inj_on_of_nodup_map hids hxmem (hV hb) hxb ▸ hb) hxV

/-- The inner loop keeps every position whose application is not valid. -/
theorem assignBatch_frame {db : Db} {V : List ApplicationForm}
    (hids : (db.applications.map (fun a => a.id)).Nodup) (hV : V ⊆ db.applications)
    (o : ObjectId) (batch : List ApplicationForm) (hbatch : batch ⊆ V) :
    ∀ acc : Db × Nat,
      (acc.1.users = db.users ∧ acc.1.payments = db.payments ∧
        ∀ (i : Nat) (x : ApplicationForm), db.applications[i]? = some x →
          ∃ y, acc.1.applications[i]? = some y ∧ y.id = x.id ∧ (x ∉ V → y = x)) →
      ((assignBatch o batch acc).1.users = db.users ∧
        (assignBatch o batch acc).1.payments = db.payments ∧
        ∀ (i : Nat) (x : ApplicationForm), db.applications[i]? = some x →
          ∃ y, (assignBatch o batch acc).1.applications[i]? = some y ∧ y.id = x.id ∧
            (x ∉ V → y = x)) := by
  induction batch with
  | nil => intro acc h; simpa [assignBatch] using h
  | cons b bs ih =>
    intro acc h
    rw [assignBatch_cons]
    exact ih (fun a ha => hbatch (List.mem_cons_of_mem _ ha)) _
      ⟨h.1, h.2.1, setAssignedOfficer_frame hids hV h.2.2 b (hbatch (List.mem_cons_self _ _)) o⟩

/-- The distribution loop keeps every position whose application is not
valid. -/
theorem distribute_frame {db : Db} (V : List ApplicationForm) (O : List User)
    (hO : 0 < O.length) (B : Nat) (hids : (db.applications.map (fun a => a.id)).Nodup)
    (hV : V ⊆ db.applications) :
    ∀ (fuel i k : Nat) (acc res : Db × Nat),
      (acc.1.users = db.users ∧ acc.1.payments = db.payments ∧
        ∀ (i : Nat) (x : ApplicationForm), db.applications[i]? = some x →
          ∃ y, acc.1.applications[i]? = some y ∧ y.id = x.id ∧ (x ∉ V → y = x)) →
      distribute V O hO B fuel i k acc = some res →
      (res.1.users = db.users ∧ res.1.payments = db.payments ∧
        ∀ (i : Nat) (x : ApplicationForm), db.applications[i]? = some x →
          ∃ y, res.1.applications[i]? = some y ∧ y.id = x.id ∧ (x ∉ V → y = x)) := by
  intro fuel
  induction fuel with
  | zero => intro i k acc res _ h; simp [distribute] at h
  | succ fuel ih =>
    intro i k acc res hinv h
    unfold distribute at h
    by_cases hi : i < V.length
    · simp only [hi, if_true] at h
      refine ih _ _ _ _ (assignBatch_frame hids hV _ _ ?_ _ hinv) h
      intro a ha
      exact List.mem_of_mem_drop (List.mem_of_mem_take ha)
    · simp only [hi, if_false, Option.some.injEq] at h
      exact h ▸ hinv

/-- BatchAssignOfficers leaves the users, the payments and every application
of another course or of a student without user record as they are. -/
theorem assignOfficers_frame (db : Db) (courseId : ObjectId) (batchSize : Nat) (db1 : Db)
    (response : Response) (hids : (db.applications.map (fun a => a.id)).Nodup)
    (h : assignOfficers db (.oid courseId) batchSize = some (db1, response)) :
    db1.users = db.users ∧ db1.payments = db.payments ∧
      ∀ (i : Nat) (x : ApplicationForm), db.applications[i]? = some x →
        (x.courseId ≠ courseId ∨ db.findUserById x.studentId = none) →
        db1.applications[i]? = some x := by
  have hinv : (db, 0).1.users = db.users ∧ (db, 0).1.payments = db.payments ∧
      ∀ (i : Nat) (x : ApplicationForm), db.applications[i]? = some x →
        ∃ y, (db, 0).1.applications[i]? = some y ∧ y.id = x.id ∧
          (x ∉ db.validApplications courseId → y = x) :=
    ⟨rfl, rfl, fun i x hx => ⟨x, hx, rfl, fun _ => rfl⟩⟩
  have hnot : ∀ x : ApplicationForm,
      (x.courseId ≠ courseId ∨ db.findUserById x.studentId = none) →
      x ∉ db.validApplications courseId := by
    intro x hx hmem
    unfold Db.validApplications at hmem
    simp only [List.mem_filter, beq_iff_eq] at hmem
    rcases hx with hx | hx
    · exact hx hmem.1.2
    · rw [hx] at hmem
      simp at hmem
  have hfinal : ∀ res : Db × Nat,
      (res.1.users = db.users ∧ res.1.payments = db.payments ∧
        ∀ (i : Nat) (x : ApplicationForm), db.applications[i]? = some x →
          ∃ y, res.1.applications[i]? = some y ∧ y.id = x.id ∧
            (x ∉ db.validApplications courseId → y = x)) →
      res.1.users = db.users ∧ res.1.payments = db.payments ∧
        ∀ (i : Nat) (x : ApplicationForm), db.applications[i]? = some x →
          (x.courseId ≠ courseId ∨ db.findUserById x.studentId = none) →
          res.1.applications[i]? = some x := by
    intro res hres
    refine ⟨hres.1, hres.2.1, fun i x hx hcond => ?_⟩
    obtain ⟨y, hy, _, hyx⟩ := hres.2.2 i x hx
    rw [hy, hyx (hnot x hcond)]
  unfold assignOfficers at h
  simp only at h
  cases hcourse : db.findCourseById courseId with
  | none =>
    simp only [hcourse, Option.some.injEq, Prod.mk.injEq] at h
    exact h.1 ▸ hfinal (db, 0) hinv
  | some course =>
    simp only [hcourse] at h
    split at h
    · simp only [Option.some.injEq, Prod.mk.injEq] at h
      exact h.1 ▸ hfinal (db, 0) hinv
    · split at h
      · simp only [Option.some.injEq, Prod.mk.injEq] at h
        exact h.1 ▸ hfinal (db, 0) hinv
      · split at h
        · cases h
        · rename_i heq
          simp only [Option.some.injEq, Prod.mk.injEq] at h
          have := hfinal _ (distribute_frame _ _ _ _ hids
            (validApplications_sublist db courseId).subset _ _ _ _ _ hinv heq)
          exact h.1 ▸ this

/-- C29, the code at the failing input. The course of `submittedDb` has one
valid application and two officers. With batch size 0 the loop index never
advances: no number of iterations completes the distribution and the handler
does not return. With batch size 1 the same call returns 200 with
`totalAssigned = 1`. -/
theorem assignOfficers_zero_batch_hangs :
    (submittedDb.validApplications 10).length = 1 ∧
      (submittedDb.courseOfficers 10).length = 2 ∧
      (∀ fuel : Nat,
        distribute (submittedDb.validApplications 10) (submittedDb.courseOfficers 10)
          (by decide) 0 fuel 0 0 (submittedDb, 0) = none) ∧
      assignOfficers submittedDb (.oid 10) 0 = none ∧
      (assignOfficers submittedDb (.oid 10) 1).map (fun r => (r.2.status, r.2.totalAssigned)) =
        some (200, 1) :=
  ⟨by decide, by decide,
    fun fuel => distribute_zero_batch _ _ _ (by decide) fuel 0 (submittedDb, 0),
    by decide, by decide⟩

/-! ## AssignOfficer: what it leaves alone -/

/-- An update of the first match replaces one position. -/
theorem updateFirst_eq_set {α : Type} (p : α → Bool) (f : α → α) (l : List α)
    (h : ∃ a ∈ l, p a = true) :
    ∃ (i : Nat) (b : α), l[i]? = some b ∧ p b = true ∧ updateFirst p f l = l.set i (f b) := by
  induction l with
  | nil =>
    obtain ⟨a, ha, _⟩ := h
    cases ha
  | cons x xs ih =>
    by_cases hx : p x = true
    · exact ⟨0, x, by simp, hx, by simp [updateFirst, hx]⟩
    · obtain ⟨a, ha, hpa⟩ := h
      have hxs : ∃ a ∈ xs, p a = true := by
        rcases List.mem_cons.1 ha with h1 | h1
        · subst h1
          exact absurd hpa hx
        · exact ⟨a, h1, hpa⟩
      obtain ⟨i, b, hb, hpb, hset⟩ := ih hxs
      exact ⟨i + 1, b, by simpa using hb, hpb, by simp [updateFirst, hx, hset]⟩

/-- C30. For every student with one or more applications and every id of a
stored verification officer, AssignOfficer answers 200 and replaces one
position of the application collection, holding an application of that
student, by the same application with `assignedOfficer` set to the officer:
every other field of it, every other application (the other applications of
the student included) and the other collections are unchanged. When the
student has no application it answers 404 and changes nothing. -/
theorem assignStudent_frame (db : Db) (studentId officerId : ObjectId) (officer : User)
    (hofficer : db.findUserById officerId = some officer)
    (hrole : officer.role = .verification_officer) :
    ((∃ a ∈ db.applications, a.studentId = studentId) →
      (assignStudent db (.oid studentId) (.oid officerId)).2.status = 200 ∧
        ∃ (i : Nat) (b : ApplicationForm), db.applications[i]? = some b ∧
          b.studentId = studentId ∧
          (assignStudent db (.oid studentId) (.oid officerId)).1.applications =
            db.applications.set i { b with assignedOfficer := some officerId } ∧
          (assignStudent db (.oid studentId) (.oid officerId)).1.users = db.users ∧
          (assignStudent db (.oid studentId) (.oid officerId)).1.payments = db.payments ∧
          (assignStudent db (.oid studentId) (.oid officerId)).1.courses = db.courses) ∧
      ((∀ a ∈ db.applications, a.studentId ≠ studentId) →
        assignStudent db (.oid studentId) (.oid officerId) =
          (db, reply 404 "Application not found for student")) := by
  constructor
  · intro hex
    have hex1 : ∃ a ∈ db.applications, (fun x : ApplicationForm => x.studentId == studentId) a = true := by
      obtain ⟨a, ha, hs⟩ := hex
      exact ⟨a, ha, by simp [hs]⟩
    obtain ⟨i, b, hb, hpb, hset⟩ := updateFirst_eq_set (fun x : ApplicationForm => x.studentId == studentId)
      (fun a => { a with assignedOfficer := some officerId }) db.applications hex1
    have hfind : (db.applications.find? (fun x => x.studentId == studentId)).isSome = true := by
      rw [List.find?_isSome]
      exact hex1
    obtain ⟨a0, ha0⟩ := Option.isSome_iff_exists.1 hfind
    unfold assignStudent
    simp only [hofficer, ha0]
    rw [if_neg (by simp [hrole])]
    exact ⟨rfl, i, b, hb, by simpa using hpb, hset, rfl, rfl, rfl⟩
  · intro hnone
    have hfind : db.applications.find? (fun x => x.studentId == studentId) = none := by
      rw [List.find?_eq_none]
      intro x hx
      simpa using hnone x hx
    unfold assignStudent
    simp only [hofficer, hfind]
    rw [if_neg (by simp [hrole])]

/-- Witness of C30: the student has a submitted application for course 10 and
a draft for course 11; the assignment to the first officer changes the first
one only. -/
theorem assignStudent_frame_witness :
    (assignStudent twoCourseDb (.oid 1) (.oid 2)).2.status = 200 ∧
      ∃ (i : Nat) (b : ApplicationForm), twoCourseDb.applications[i]? = some b ∧
        b.studentId = 1 ∧
        (assignStudent twoCourseDb (.oid 1) (.oid 2)).1.applications =
          twoCourseDb.applications.set i { b with assignedOfficer := some 2 } ∧
        (assignStudent twoCourseDb (.oid 1) (.oid 2)).1.users = twoCourseDb.users ∧
        (assignStudent twoCourseDb (.oid 1) (.oid 2)).1.payments = twoCourseDb.payments ∧
        (assignStudent twoCourseDb (.oid 1) (.oid 2)).1.courses = twoCourseDb.courses :=
  (assignStudent_frame twoCourseDb 1 2 sampleOfficer (by decide) (by decide)).1
    ⟨submittedApplication, by decide, by decide⟩

end Admissions
